import Mathlib

/-! Oriented bounding boxes (`include/core-graphics/orientedBoundingBox3d.h`)

A shallow embedding of `ml::ObjectOrientedBoundingBox<FloatType>`.

* `FloatType` is an arbitrary linearly ordered field `F` (exact arithmetic).
* The rounding of `float` has its own sections, `Single precision` and `The box in rounded
  arithmetic`: the methods behind `contains` and `computeContactPoints` once more, with the
  result of every operation rounded.
* The square root used by `point3d::length` is passed explicitly as `sqrt : F → F`;
  theorems that need it assume it is an exact non-negative square root on the
  non-negative numbers (as `Real.sqrt` is on `ℝ`).
* `point3d`, `Matrix3x3`, `Matrix4x4` and `Plane` are collaborators of the header that are
  not part of the sources; the few operations the header uses are modelled below.
* Arrays and `std::vector`s are lists.
* `assert`s are not executed (release build); the asserted conditions are kept as
  predicates.
* The class `CommandLineReader` (`include/core-util/commandLineReader.h`) follows the box;
  `std::string` is `String`, `StringUtil::split` is not part of the sources and is a
  parameter.
-/

namespace ml

/-! ## Collaborator types -/

/-- Modelled from the spec: the 3D point/vector type `point3d<FloatType>` (not in the
sources): three coordinates `x`, `y`, `z`. -/
structure point3d (F : Type) where
  x : F
  y : F
  z : F
deriving DecidableEq, Repr

namespace point3d

variable {F : Type} [LinearOrderedField F]

/-- Modelled from the spec: `a + b` on `point3d` (componentwise). -/
def add (a b : point3d F) : point3d F := ⟨a.x + b.x, a.y + b.y, a.z + b.z⟩

/-- Modelled from the spec: `a - b` on `point3d` (componentwise). -/
def sub (a b : point3d F) : point3d F := ⟨a.x - b.x, a.y - b.y, a.z - b.z⟩

/-- Modelled from the spec: unary minus on `point3d`. -/
def neg (a : point3d F) : point3d F := ⟨-a.x, -a.y, -a.z⟩

/-- Modelled from the spec: `a * s` (and `s * a`) for a scalar `s`. -/
def smul (a : point3d F) (s : F) : point3d F := ⟨a.x * s, a.y * s, a.z * s⟩

/-- Modelled from the spec: `a / s` for a scalar `s`. -/
def sdiv (a : point3d F) (s : F) : point3d F := ⟨a.x / s, a.y / s, a.z / s⟩

/-- Modelled from the spec: the dot product `a | b`. -/
def dot (a b : point3d F) : F := a.x * b.x + a.y * b.y + a.z * b.z

/-- Modelled from the spec: the cross product `a ^ b`. -/
def cross (a b : point3d F) : point3d F :=
  ⟨a.y * b.z - a.z * b.y, a.z * b.x - a.x * b.z, a.x * b.y - a.y * b.x⟩

/-- Modelled from the spec: `length()`, the square root of the dot product of the vector
with itself. -/
def length (sqrt : F → F) (a : point3d F) : F := sqrt (dot a a)

/-- Modelled from the spec: `getNormalized()` (and `normalize()`), the vector divided by
its length. -/
def getNormalized (sqrt : F → F) (a : point3d F) : point3d F := sdiv a (length sqrt a)

/-- Modelled from the spec: `lerp(a, b, t)`, linear interpolation `a + (b - a) * t`. -/
def lerp (a b : point3d F) (t : F) : point3d F := add a (smul (sub b a) t)

end point3d

/-- Modelled from the spec: the 3x3 matrix type `Matrix3x3<FloatType>` (not in the
sources), entries `mij` = row `i`, column `j`. -/
structure Matrix3x3 (F : Type) where
  m00 : F
  m01 : F
  m02 : F
  m10 : F
  m11 : F
  m12 : F
  m20 : F
  m21 : F
  m22 : F
deriving DecidableEq, Repr

namespace Matrix3x3

variable {F : Type} [LinearOrderedField F]

/-- Modelled from the spec: `Matrix3x3(v0, v1, v2)`, construction from basis vectors; the
vectors are the rows (the header transposes this matrix to map box space to the world and
divides entry `(i, j)` by the length of axis `i`). -/
def ofRows (v0 v1 v2 : point3d F) : Matrix3x3 F :=
  ⟨v0.x, v0.y, v0.z, v1.x, v1.y, v1.z, v2.x, v2.y, v2.z⟩

/-- Modelled from the spec: `getTranspose()`. -/
def getTranspose (m : Matrix3x3 F) : Matrix3x3 F :=
  ⟨m.m00, m.m10, m.m20, m.m01, m.m11, m.m21, m.m02, m.m12, m.m22⟩

/-- Modelled from the spec: matrix times vector, `m * v`. -/
def mulVec (m : Matrix3x3 F) (v : point3d F) : point3d F :=
  ⟨m.m00 * v.x + m.m01 * v.y + m.m02 * v.z,
   m.m10 * v.x + m.m11 * v.y + m.m12 * v.z,
   m.m20 * v.x + m.m21 * v.y + m.m22 * v.z⟩

/-- Modelled from the spec: `tensorProduct(a, b)`, the outer product `a bᵀ`. -/
def tensorProduct (a b : point3d F) : Matrix3x3 F :=
  ⟨a.x * b.x, a.x * b.y, a.x * b.z,
   a.y * b.x, a.y * b.y, a.y * b.z,
   a.z * b.x, a.z * b.y, a.z * b.z⟩

/-- Modelled from the spec: `setZero()`. -/
def zero : Matrix3x3 F := ⟨0, 0, 0, 0, 0, 0, 0, 0, 0⟩

/-- Modelled from the spec: `m += n` (entrywise). -/
def add (m n : Matrix3x3 F) : Matrix3x3 F :=
  ⟨m.m00 + n.m00, m.m01 + n.m01, m.m02 + n.m02,
   m.m10 + n.m10, m.m11 + n.m11, m.m12 + n.m12,
   m.m20 + n.m20, m.m21 + n.m21, m.m22 + n.m22⟩

/-- Modelled from the spec: `m /= s` (entrywise). -/
def sdiv (m : Matrix3x3 F) (s : F) : Matrix3x3 F :=
  ⟨m.m00 / s, m.m01 / s, m.m02 / s,
   m.m10 / s, m.m11 / s, m.m12 / s,
   m.m20 / s, m.m21 / s, m.m22 / s⟩

end Matrix3x3

/-- Modelled from the spec: the 4x4 matrix type `Matrix4x4<FloatType>` (not in the
sources), entries `mij` = row `i`, column `j`. -/
structure Matrix4x4 (F : Type) where
  m00 : F
  m01 : F
  m02 : F
  m03 : F
  m10 : F
  m11 : F
  m12 : F
  m13 : F
  m20 : F
  m21 : F
  m22 : F
  m23 : F
  m30 : F
  m31 : F
  m32 : F
  m33 : F
deriving DecidableEq, Repr

namespace Matrix4x4

variable {F : Type} [LinearOrderedField F]

/-- Modelled from the spec: the conversion of a `Matrix3x3` to a `Matrix4x4`: the 3x3
block, no translation, last row `0 0 0 1`. -/
def ofMatrix3x3 (m : Matrix3x3 F) : Matrix4x4 F :=
  ⟨m.m00, m.m01, m.m02, 0,
   m.m10, m.m11, m.m12, 0,
   m.m20, m.m21, m.m22, 0,
   0, 0, 0, 1⟩

/-- Modelled from the spec: `Matrix4x4(v0, v1, v2)`, the rows of the 3x3 block are the
three vectors, no translation, last row `0 0 0 1`. -/
def ofRows (v0 v1 v2 : point3d F) : Matrix4x4 F := ofMatrix3x3 (Matrix3x3.ofRows v0 v1 v2)

/-- Modelled from the spec: `getMatrix3x3()`, the upper left 3x3 block. -/
def getMatrix3x3 (m : Matrix4x4 F) : Matrix3x3 F :=
  ⟨m.m00, m.m01, m.m02, m.m10, m.m11, m.m12, m.m20, m.m21, m.m22⟩

/-- Modelled from the spec: affine transform application `m * p` to a 3D point, the
homogeneous coordinate of `p` being 1 (every matrix the header builds has last row
`0 0 0 1`, so no perspective division takes place). -/
def mulPoint (m : Matrix4x4 F) (p : point3d F) : point3d F :=
  ⟨m.m00 * p.x + m.m01 * p.y + m.m02 * p.z + m.m03,
   m.m10 * p.x + m.m11 * p.y + m.m12 * p.z + m.m13,
   m.m20 * p.x + m.m21 * p.y + m.m22 * p.z + m.m23⟩

/-- Modelled from the spec: `isAffine()`, the last row is `0 0 0 1`. -/
def isAffine (m : Matrix4x4 F) : Bool :=
  decide (m.m30 = 0 ∧ m.m31 = 0 ∧ m.m32 = 0 ∧ m.m33 = 1)

/-- Modelled from the spec: the matrix product `m * n`. -/
def mul (m n : Matrix4x4 F) : Matrix4x4 F :=
  ⟨m.m00 * n.m00 + m.m01 * n.m10 + m.m02 * n.m20 + m.m03 * n.m30,
   m.m00 * n.m01 + m.m01 * n.m11 + m.m02 * n.m21 + m.m03 * n.m31,
   m.m00 * n.m02 + m.m01 * n.m12 + m.m02 * n.m22 + m.m03 * n.m32,
   m.m00 * n.m03 + m.m01 * n.m13 + m.m02 * n.m23 + m.m03 * n.m33,
   m.m10 * n.m00 + m.m11 * n.m10 + m.m12 * n.m20 + m.m13 * n.m30,
   m.m10 * n.m01 + m.m11 * n.m11 + m.m12 * n.m21 + m.m13 * n.m31,
   m.m10 * n.m02 + m.m11 * n.m12 + m.m12 * n.m22 + m.m13 * n.m32,
   m.m10 * n.m03 + m.m11 * n.m13 + m.m12 * n.m23 + m.m13 * n.m33,
   m.m20 * n.m00 + m.m21 * n.m10 + m.m22 * n.m20 + m.m23 * n.m30,
   m.m20 * n.m01 + m.m21 * n.m11 + m.m22 * n.m21 + m.m23 * n.m31,
   m.m20 * n.m02 + m.m21 * n.m12 + m.m22 * n.m22 + m.m23 * n.m32,
   m.m20 * n.m03 + m.m21 * n.m13 + m.m22 * n.m23 + m.m23 * n.m33,
   m.m30 * n.m00 + m.m31 * n.m10 + m.m32 * n.m20 + m.m33 * n.m30,
   m.m30 * n.m01 + m.m31 * n.m11 + m.m32 * n.m21 + m.m33 * n.m31,
   m.m30 * n.m02 + m.m31 * n.m12 + m.m32 * n.m22 + m.m33 * n.m32,
   m.m30 * n.m03 + m.m31 * n.m13 + m.m32 * n.m23 + m.m33 * n.m33⟩

end Matrix4x4

/-- The constant `FLT_MAX` of `<cfloat>`: `(2 - 2^(-23)) * 2^127`. -/
def FLT_MAX (F : Type) [LinearOrderedField F] : F := 340282346638528859811704183484516925440

/-- The literal `(FloatType)0.00001`: the minimal extent of a box and the default `eps` of
the containment tests. -/
def EPS (F : Type) [LinearOrderedField F] : F := 1 / 100000

/-! ## The box -/

/-- The data members of `ObjectOrientedBoundingBox<FloatType>`: `m_Anchor` and
`m_AxesScaled[3]`. -/
structure ObjectOrientedBoundingBox (F : Type) where
  m_Anchor : point3d F
  m_AxesScaled0 : point3d F
  m_AxesScaled1 : point3d F
  m_AxesScaled2 : point3d F
deriving DecidableEq, Repr

namespace ObjectOrientedBoundingBox

variable {F : Type} [LinearOrderedField F]

/-- The method `isValid()`: false as soon as one anchor coordinate equals `-FLT_MAX`. -/
def isValid (b : ObjectOrientedBoundingBox F) : Bool :=
  if b.m_Anchor.x = -FLT_MAX F ∨ b.m_Anchor.y = -FLT_MAX F ∨ b.m_Anchor.z = -FLT_MAX F then false
  else true

/-- The method `setInvalid()`: the three anchor coordinates become `-FLT_MAX`; the axes are
not touched. -/
def setInvalid (b : ObjectOrientedBoundingBox F) : ObjectOrientedBoundingBox F :=
  { b with m_Anchor := ⟨-FLT_MAX F, -FLT_MAX F, -FLT_MAX F⟩ }

/-- The default constructor `ObjectOrientedBoundingBox()`: only `setInvalid()` runs. The
members start default-constructed; the default constructor of `point3d` is not in the
sources, so the box of default-constructed members is the parameter `raw`. -/
def ctorDefault (raw : ObjectOrientedBoundingBox F) : ObjectOrientedBoundingBox F :=
  setInvalid raw

/-- The three `assert`s at the head of `computeAnchorAndExtentsForGivenNormalizedAxis`. -/
def axesAssert (b : ObjectOrientedBoundingBox F) : Prop :=
  point3d.dot b.m_AxesScaled0 b.m_AxesScaled1 < 1 / 1000 ∧
  point3d.dot b.m_AxesScaled1 b.m_AxesScaled2 < 1 / 1000 ∧
  point3d.dot b.m_AxesScaled2 b.m_AxesScaled0 < 1 / 1000

/-- One round of the min/max loop of `computeAnchorAndExtentsForGivenNormalizedAxis`:
`curr = worldToOOBBSpace * points[i]` updates `minValues` and `maxValues`. -/
def minMaxStep (worldToOOBBSpace : Matrix3x3 F) (acc : point3d F × point3d F)
    (p : point3d F) : point3d F × point3d F :=
  let curr := worldToOOBBSpace.mulVec p
  let minValues := acc.1
  let maxValues := acc.2
  (⟨if curr.x < minValues.x then curr.x else minValues.x,
    if curr.y < minValues.y then curr.y else minValues.y,
    if curr.z < minValues.z then curr.z else minValues.z⟩,
   ⟨if curr.x > maxValues.x then curr.x else maxValues.x,
    if curr.y > maxValues.y then curr.y else maxValues.y,
    if curr.z > maxValues.z then curr.z else maxValues.z⟩)

/-- The min/max loop of `computeAnchorAndExtentsForGivenNormalizedAxis`, started at
`minValues = (FLT_MAX, FLT_MAX, FLT_MAX)` and `maxValues = (-FLT_MAX, -FLT_MAX, -FLT_MAX)`. -/
def minMaxValues (worldToOOBBSpace : Matrix3x3 F) (points : List (point3d F)) :
    point3d F × point3d F :=
  points.foldl (minMaxStep worldToOOBBSpace)
    (⟨FLT_MAX F, FLT_MAX F, FLT_MAX F⟩, ⟨-FLT_MAX F, -FLT_MAX F, -FLT_MAX F⟩)

/-- The method `computeAnchorAndExtentsForGivenNormalizedAxis(points, numPoints)`. -/
def computeAnchorAndExtentsForGivenNormalizedAxis (b : ObjectOrientedBoundingBox F)
    (points : List (point3d F)) : ObjectOrientedBoundingBox F :=
  let worldToOOBBSpace := Matrix3x3.ofRows b.m_AxesScaled0 b.m_AxesScaled1 b.m_AxesScaled2
  let OOBBSpaceToWorld := worldToOOBBSpace.getTranspose
  let mm := minMaxValues worldToOOBBSpace points
  let minValues := mm.1
  let maxValues := mm.2
  let b1 := { b with m_Anchor := OOBBSpaceToWorld.mulVec minValues }
  let extent0 := maxValues.x - minValues.x
  let extent1 := maxValues.y - minValues.y
  let extent2 := maxValues.z - minValues.z
  if extent0 < EPS F ∨ extent1 < EPS F ∨ extent2 < EPS F then
    setInvalid b1
  else
    { b1 with
      m_AxesScaled0 := b1.m_AxesScaled0.smul extent0
      m_AxesScaled1 := b1.m_AxesScaled1.smul extent1
      m_AxesScaled2 := b1.m_AxesScaled2.smul extent2 }

/-- The constructor `ObjectOrientedBoundingBox(points, numPoints, xAxis, yAxis, zAxis)`.
The anchor is assigned before it is ever read, so its initial value plays no role. -/
def ofAxes (sqrt : F → F) (points : List (point3d F)) (xAxis yAxis zAxis : point3d F) :
    ObjectOrientedBoundingBox F :=
  computeAnchorAndExtentsForGivenNormalizedAxis
    { m_Anchor := ⟨0, 0, 0⟩
      m_AxesScaled0 := xAxis.getNormalized sqrt
      m_AxesScaled1 := yAxis.getNormalized sqrt
      m_AxesScaled2 := zAxis.getNormalized sqrt } points

/-- The constructor `ObjectOrientedBoundingBox(points, numPoints, other)`: the axes of
`other`, normalized. -/
def ofOther (sqrt : F → F) (points : List (point3d F)) (other : ObjectOrientedBoundingBox F) :
    ObjectOrientedBoundingBox F :=
  computeAnchorAndExtentsForGivenNormalizedAxis
    { m_Anchor := ⟨0, 0, 0⟩
      m_AxesScaled0 := other.m_AxesScaled0.getNormalized sqrt
      m_AxesScaled1 := other.m_AxesScaled1.getNormalized sqrt
      m_AxesScaled2 := other.m_AxesScaled2.getNormalized sqrt } points

/-- The mean of the points, as `computeFromPCA` computes it. -/
def pcaMean (points : List (point3d F)) : point3d F :=
  (points.foldl point3d.add ⟨0, 0, 0⟩).sdiv (points.length : F)

/-- The covariance matrix of the points, as `computeFromPCA` computes it. -/
def pcaCov (points : List (point3d F)) : Matrix3x3 F :=
  (points.foldl
    (fun cov p => cov.add (Matrix3x3.tensorProduct (p.sub (pcaMean points)) (p.sub (pcaMean points))))
    Matrix3x3.zero).sdiv ((points.length : F) - 1)

/-- The method `computeFromPCA(points, numPoints)`. Fewer than 4 points: `setInvalid()`.
Otherwise the source computes the mean and the covariance matrix (`pcaMean`, `pcaCov`),
but the call of the eigen solver that would assign `m_AxesScaled` is commented out
(`TODO: implement this`): the axes the box had before are normalized and the points are
fitted to them. -/
def computeFromPCA (sqrt : F → F) (b : ObjectOrientedBoundingBox F) (points : List (point3d F)) :
    ObjectOrientedBoundingBox F :=
  if points.length < 4 then setInvalid b
  else
    computeAnchorAndExtentsForGivenNormalizedAxis
      { b with
        m_AxesScaled0 := b.m_AxesScaled0.getNormalized sqrt
        m_AxesScaled1 := b.m_AxesScaled1.getNormalized sqrt
        m_AxesScaled2 := b.m_AxesScaled2.getNormalized sqrt } points

/-- The overload `computeFromPCA(const std::vector<point3d>& points)`: its own size check,
then the pointer overload. -/
def computeFromPCAVector (sqrt : F → F) (b : ObjectOrientedBoundingBox F)
    (points : List (point3d F)) : ObjectOrientedBoundingBox F :=
  if points.length < 4 then setInvalid b
  else computeFromPCA sqrt b points

/-! ### Accessors and transformations -/

/-- The method `getCenter()`. -/
def getCenter (b : ObjectOrientedBoundingBox F) : point3d F :=
  b.m_Anchor.add (((b.m_AxesScaled0.add b.m_AxesScaled1).add b.m_AxesScaled2).smul (1 / 2))

/-- The method `getExtent()`. -/
def getExtent (sqrt : F → F) (b : ObjectOrientedBoundingBox F) : point3d F :=
  ⟨b.m_AxesScaled0.length sqrt, b.m_AxesScaled1.length sqrt, b.m_AxesScaled2.length sqrt⟩

/-- The method `getDiagonalLength()`. -/
def getDiagonalLength (sqrt : F → F) (b : ObjectOrientedBoundingBox F) : F :=
  ((b.m_AxesScaled0.add b.m_AxesScaled1).add b.m_AxesScaled2).length sqrt

/-- The method `getCornerPoints(points)`: the 8 corners, in the order of the source. -/
def getCornerPoints (b : ObjectOrientedBoundingBox F) : List (point3d F) :=
  [b.m_Anchor,
   b.m_Anchor.add b.m_AxesScaled0,
   (b.m_Anchor.add b.m_AxesScaled0).add b.m_AxesScaled1,
   b.m_Anchor.add b.m_AxesScaled1,
   b.m_Anchor.add b.m_AxesScaled2,
   (b.m_Anchor.add b.m_AxesScaled0).add b.m_AxesScaled2,
   ((b.m_Anchor.add b.m_AxesScaled0).add b.m_AxesScaled1).add b.m_AxesScaled2,
   (b.m_Anchor.add b.m_AxesScaled1).add b.m_AxesScaled2]

/-- The method `getEdgeIndices(edgeIndexList)`: 24 indices, two per edge. -/
def getEdgeIndices : List Nat :=
  [0, 1, 1, 2, 2, 3, 3, 0,
   0, 4, 1, 5, 2, 6, 3, 7,
   4, 5, 5, 6, 6, 7, 7, 4]

/-- The method `getEdgeList(edges)`: `edges[i] = corners[indices[i]]`. -/
def getEdgeList (b : ObjectOrientedBoundingBox F) : List (point3d F) :=
  getEdgeIndices.map (fun i => (getCornerPoints b).getD i ⟨0, 0, 0⟩)

/-- The operator `*=` with a scalar: scales the box about its center. -/
def scale (b : ObjectOrientedBoundingBox F) (s : F) : ObjectOrientedBoundingBox F :=
  let center := getCenter b
  let a0 := b.m_AxesScaled0.smul s
  let a1 := b.m_AxesScaled1.smul s
  let a2 := b.m_AxesScaled2.smul s
  { m_Anchor := center.sub (((a0.add a1).add a2).smul (1 / 2))
    m_AxesScaled0 := a0
    m_AxesScaled1 := a1
    m_AxesScaled2 := a2 }

/-- The operator `+=` with a scalar: extends every axis by `ext`, about the center. -/
def extend (sqrt : F → F) (b : ObjectOrientedBoundingBox F) (ext : F) :
    ObjectOrientedBoundingBox F :=
  let scaleValues0 := b.m_AxesScaled0.length sqrt
  let scaleValues1 := b.m_AxesScaled1.length sqrt
  let scaleValues2 := b.m_AxesScaled2.length sqrt
  let center := getCenter b
  let a0 := b.m_AxesScaled0.smul ((scaleValues0 + ext) / scaleValues0)
  let a1 := b.m_AxesScaled1.smul ((scaleValues1 + ext) / scaleValues1)
  let a2 := b.m_AxesScaled2.smul ((scaleValues2 + ext) / scaleValues2)
  { m_Anchor := center.sub (((a0.add a1).add a2).smul (1 / 2))
    m_AxesScaled0 := a0
    m_AxesScaled1 := a1
    m_AxesScaled2 := a2 }

/-- The operator `*=` with a `Matrix4x4` (and the free `operator*(mat, oobb)`, which
applies it to a copy). -/
def transform (b : ObjectOrientedBoundingBox F) (mat : Matrix4x4 F) :
    ObjectOrientedBoundingBox F :=
  let rot := mat.getMatrix3x3
  { m_Anchor := mat.mulPoint b.m_Anchor
    m_AxesScaled0 := rot.mulVec b.m_AxesScaled0
    m_AxesScaled1 := rot.mulVec b.m_AxesScaled1
    m_AxesScaled2 := rot.mulVec b.m_AxesScaled2 }

/-- The method `getOOBBToWorld()`. -/
def getOOBBToWorld (b : ObjectOrientedBoundingBox F) : Matrix4x4 F :=
  ⟨b.m_AxesScaled0.x, b.m_AxesScaled1.x, b.m_AxesScaled2.x, b.m_Anchor.x,
   b.m_AxesScaled0.y, b.m_AxesScaled1.y, b.m_AxesScaled2.y, b.m_Anchor.y,
   b.m_AxesScaled0.z, b.m_AxesScaled1.z, b.m_AxesScaled2.z, b.m_Anchor.z,
   0, 0, 0, 1⟩

/-- The method `getWorldToOOBB()`: the rows are the axes divided twice by their length,
the translation is that 3x3 matrix applied to `-m_Anchor`. -/
def getWorldToOOBB (sqrt : F → F) (b : ObjectOrientedBoundingBox F) : Matrix4x4 F :=
  let scaleValues0 := b.m_AxesScaled0.length sqrt
  let scaleValues1 := b.m_AxesScaled1.length sqrt
  let scaleValues2 := b.m_AxesScaled2.length sqrt
  let m := Matrix3x3.ofRows (b.m_AxesScaled0.sdiv scaleValues0) (b.m_AxesScaled1.sdiv scaleValues1)
    (b.m_AxesScaled2.sdiv scaleValues2)
  let worldToOOBB3x3 : Matrix3x3 F :=
    ⟨m.m00 / scaleValues0, m.m01 / scaleValues0, m.m02 / scaleValues0,
     m.m10 / scaleValues1, m.m11 / scaleValues1, m.m12 / scaleValues1,
     m.m20 / scaleValues2, m.m21 / scaleValues2, m.m22 / scaleValues2⟩
  let trans := worldToOOBB3x3.mulVec b.m_Anchor.neg
  let worldToOOBB := Matrix4x4.ofMatrix3x3 worldToOOBB3x3
  { worldToOOBB with m03 := trans.x, m13 := trans.y, m23 := trans.z }

/-- The method `getWorldToOOBBNormalized()`. -/
def getWorldToOOBBNormalized (sqrt : F → F) (b : ObjectOrientedBoundingBox F) : Matrix4x4 F :=
  let worldToOOBB := Matrix4x4.ofRows (b.m_AxesScaled0.getNormalized sqrt)
    (b.m_AxesScaled1.getNormalized sqrt) (b.m_AxesScaled2.getNormalized sqrt)
  let trans := worldToOOBB.mulPoint b.m_Anchor.neg
  { worldToOOBB with m03 := trans.x, m13 := trans.y, m23 := trans.z }

/-! ### Containment -/

/-- The private helper `isInUnitInterval(v, eps)`. -/
def isInUnitInterval (v eps : F) : Bool :=
  if v ≥ -eps ∧ v ≤ 1 + eps then true else false

/-- The private helper `isInUnitCube(p, eps)`. -/
def isInUnitCube (p : point3d F) (eps : F) : Bool :=
  if p.x ≥ -eps ∧ p.x ≤ 1 + eps ∧
     p.y ≥ -eps ∧ p.y ≤ 1 + eps ∧
     p.z ≥ -eps ∧ p.z ≤ 1 + eps then true else false

/-- The method `contains(p)` for one point (default `eps` of `isInUnitCube`), in exact
arithmetic; `Rounded.contains` is the same method with every operation rounded. -/
def contains (sqrt : F → F) (b : ObjectOrientedBoundingBox F) (p : point3d F) : Bool :=
  isInUnitCube ((getWorldToOOBB sqrt b).mulPoint p) (EPS F)

/-- The method `outside(p)` for one point. -/
def outside (sqrt : F → F) (b : ObjectOrientedBoundingBox F) (p : point3d F) : Bool :=
  !contains sqrt b p

/-- The method `contains(points, numPoints, eps)`: the loop returns false at the first
point that is not in the unit cube. -/
def containsPoints (sqrt : F → F) (b : ObjectOrientedBoundingBox F) (points : List (point3d F))
    (eps : F) : Bool :=
  let worldToOOBB := getWorldToOOBB sqrt b
  points.all (fun p => isInUnitCube (worldToOOBB.mulPoint p) eps)

/-- The method `contains(other)`: the 8 corners of `other`, default `eps`. -/
def containsBox (sqrt : F → F) (b other : ObjectOrientedBoundingBox F) : Bool :=
  containsPoints sqrt b (getCornerPoints other) (EPS F)

/-- The method `outside(points, numPoints, eps)`: the loop returns false at the first
point that is in the unit cube taken with `-eps`. -/
def outsidePoints (sqrt : F → F) (b : ObjectOrientedBoundingBox F) (points : List (point3d F))
    (eps : F) : Bool :=
  let worldToOOBB := getWorldToOOBB sqrt b
  points.all (fun p => !isInUnitCube (worldToOOBB.mulPoint p) (-eps))

end ObjectOrientedBoundingBox

/-! ## Planes -/

/-- Modelled from the spec: the plane type `Plane<FloatType>` (not in the sources): a
normal and the distance of the plane from the origin along it. -/
structure Plane (F : Type) where
  m_Normal : point3d F
  m_Distance : F
deriving DecidableEq, Repr

namespace Plane

variable {F : Type} [LinearOrderedField F]

/-- Modelled from the spec: `Plane(points)`, the plane through `points[0..2]`. The formula is
the one of the commented-out block at the head of `testFace`: the normalized cross product
of `points[1] - points[0]` and `points[2] - points[0]`, flipped so that the distance from
the origin is not negative. For three collinear points the cross product is the zero vector
and its length is 0: the floating point division `0 / 0` of `getNormalized` makes every
component of the normal, and with it the distance, not a number. That plane is `none`. -/
def ofPoints (sqrt : F → F) (points : List (point3d F)) : Option (Plane F) :=
  let p0 := points.getD 0 ⟨0, 0, 0⟩
  let p1 := points.getD 1 ⟨0, 0, 0⟩
  let p2 := points.getD 2 ⟨0, 0, 0⟩
  let cross := (p1.sub p0).cross (p2.sub p0)
  if cross.length sqrt = 0 then none
  else
    let planeNormal := cross.getNormalized sqrt
    let planeDistance := planeNormal.dot p0
    if planeDistance < 0 then some ⟨planeNormal.neg, -planeDistance⟩
    else some ⟨planeNormal, planeDistance⟩

/-- Modelled from the spec: `Plane(normal, p)`, the plane with the given normal through the
point `p`. -/
def ofNormalPoint (normal p : point3d F) : Plane F := ⟨normal, normal.dot p⟩

/-- Modelled from the spec: `getNormal()`. -/
def getNormal (pl : Plane F) : point3d F := pl.m_Normal

/-- Modelled from the spec: `distanceToPoint(p)`, the signed distance of `p` to the plane. -/
def distanceToPoint (pl : Plane F) (p : point3d F) : F := pl.m_Normal.dot p - pl.m_Distance

/-- Modelled from the spec: `distanceToPointAbs(p)`, the absolute value of the signed
distance. -/
def distanceToPointAbs (pl : Plane F) (p : point3d F) : F := |distanceToPoint pl p|

end Plane

namespace ObjectOrientedBoundingBox

variable {F : Type} [LinearOrderedField F]

/-! ### Faces and planes of a box -/

/-- The method `swapAxes()`. -/
def swapAxes (b : ObjectOrientedBoundingBox F) : ObjectOrientedBoundingBox F :=
  { b with
    m_AxesScaled0 := b.m_AxesScaled1
    m_AxesScaled1 := b.m_AxesScaled2
    m_AxesScaled2 := b.m_AxesScaled0 }

/-- The method `getFaceZFront(points)`. -/
def getFaceZFront (b : ObjectOrientedBoundingBox F) : List (point3d F) :=
  [b.m_Anchor,
   b.m_Anchor.add b.m_AxesScaled0,
   (b.m_Anchor.add b.m_AxesScaled0).add b.m_AxesScaled1,
   b.m_Anchor.add b.m_AxesScaled1]

/-- The method `getFaceZBack(points)`. -/
def getFaceZBack (b : ObjectOrientedBoundingBox F) : List (point3d F) :=
  [b.m_Anchor.add b.m_AxesScaled2,
   (b.m_Anchor.add b.m_AxesScaled0).add b.m_AxesScaled2,
   ((b.m_Anchor.add b.m_AxesScaled0).add b.m_AxesScaled1).add b.m_AxesScaled2,
   (b.m_Anchor.add b.m_AxesScaled1).add b.m_AxesScaled2]

/-- The enumeration `OOBB_PLANE`. -/
inductive OOBB_PLANE where
  | X_FRONT
  | X_BACK
  | Y_FRONT
  | Y_BACK
  | Z_FRONT
  | Z_BACK
deriving DecidableEq, Repr

/-- The method `getPlaneXFront()`. -/
def getPlaneXFront (sqrt : F → F) (b : ObjectOrientedBoundingBox F) : Plane F :=
  Plane.ofNormalPoint (b.m_AxesScaled0.getNormalized sqrt).neg b.m_Anchor

/-- The method `getPlaneXBack()`. -/
def getPlaneXBack (sqrt : F → F) (b : ObjectOrientedBoundingBox F) : Plane F :=
  Plane.ofNormalPoint (b.m_AxesScaled0.getNormalized sqrt) (b.m_Anchor.add b.m_AxesScaled0)

/-- The method `getPlaneYFront()`. -/
def getPlaneYFront (sqrt : F → F) (b : ObjectOrientedBoundingBox F) : Plane F :=
  Plane.ofNormalPoint (b.m_AxesScaled1.getNormalized sqrt).neg b.m_Anchor

/-- The method `getPlaneYBack()`. -/
def getPlaneYBack (sqrt : F → F) (b : ObjectOrientedBoundingBox F) : Plane F :=
  Plane.ofNormalPoint (b.m_AxesScaled1.getNormalized sqrt) (b.m_Anchor.add b.m_AxesScaled1)

/-- The method `getPlaneZFront()`. -/
def getPlaneZFront (sqrt : F → F) (b : ObjectOrientedBoundingBox F) : Plane F :=
  Plane.ofNormalPoint (b.m_AxesScaled2.getNormalized sqrt).neg b.m_Anchor

/-- The method `getPlaneZBack()`. -/
def getPlaneZBack (sqrt : F → F) (b : ObjectOrientedBoundingBox F) : Plane F :=
  Plane.ofNormalPoint (b.m_AxesScaled2.getNormalized sqrt) (b.m_Anchor.add b.m_AxesScaled2)

/-- The method `getPlane(which)`. -/
def getPlane (sqrt : F → F) (b : ObjectOrientedBoundingBox F) : OOBB_PLANE → Plane F
  | .X_FRONT => getPlaneXFront sqrt b
  | .X_BACK => getPlaneXBack sqrt b
  | .Y_FRONT => getPlaneYFront sqrt b
  | .Y_BACK => getPlaneYBack sqrt b
  | .Z_FRONT => getPlaneZFront sqrt b
  | .Z_BACK => getPlaneZBack sqrt b

/-- The method `extendInZBack(ext)`. -/
def extendInZBack (sqrt : F → F) (b : ObjectOrientedBoundingBox F) (ext : F) :
    ObjectOrientedBoundingBox F :=
  { b with m_AxesScaled2 := b.m_AxesScaled2.add ((b.m_AxesScaled2.getNormalized sqrt).smul ext) }

/-- The method `extendInZFront(ext)`. -/
def extendInZFront (sqrt : F → F) (b : ObjectOrientedBoundingBox F) (ext : F) :
    ObjectOrientedBoundingBox F :=
  { b with
    m_Anchor := b.m_Anchor.sub ((b.m_AxesScaled2.getNormalized sqrt).smul ext)
    m_AxesScaled2 := b.m_AxesScaled2.add ((b.m_AxesScaled2.getNormalized sqrt).smul ext) }

/-- The static method `interpolateLinear(oobb0, oobb1, t)`; every member of the result is
assigned. -/
def interpolateLinear (oobb0 oobb1 : ObjectOrientedBoundingBox F) (t : F) :
    ObjectOrientedBoundingBox F :=
  { m_Anchor := point3d.lerp oobb0.m_Anchor oobb1.m_Anchor t
    m_AxesScaled0 := point3d.lerp oobb0.m_AxesScaled0 oobb1.m_AxesScaled0 t
    m_AxesScaled1 := point3d.lerp oobb0.m_AxesScaled1 oobb1.m_AxesScaled1 t
    m_AxesScaled2 := point3d.lerp oobb0.m_AxesScaled2 oobb1.m_AxesScaled2 t }

/-! ### Plane and face tests -/

/-- The method `planeDistance(p)`. -/
def planeDistance (sqrt : F → F) (b : ObjectOrientedBoundingBox F) (p : Plane F) : F :=
  let extent := getExtent sqrt b
  let r := (1 / 2) * (
    extent.x * |p.getNormal.dot (b.m_AxesScaled0.sdiv extent.x)| +
    extent.y * |p.getNormal.dot (b.m_AxesScaled1.sdiv extent.y)| +
    extent.z * |p.getNormal.dot (b.m_AxesScaled2.sdiv extent.z)|)
  let s := p.distanceToPointAbs (getCenter b)
  s - r

/-- The method `testFace(points, eps)`. When the plane of the points is not a number (see
`Plane.ofPoints`), so is `planeDist`: the comparison `planeDist <= -eps` is false and the
method returns false. -/
def testFace (sqrt : F → F) (b : ObjectOrientedBoundingBox F) (points : List (point3d F))
    (eps : F) : Bool :=
  match Plane.ofPoints sqrt points with
  | none => false
  | some p =>
    let planeDist := planeDistance sqrt b p
    if planeDist ≤ -eps then
      let worldToOOBB := getWorldToOOBB sqrt b
      let pointsOOBB := (points.take 4).map worldToOOBB.mulPoint
      if pointsOOBB.all (fun q => decide (q.x ≥ 1 - eps)) then false
      else if pointsOOBB.all (fun q => decide (q.y ≥ 1 - eps)) then false
      else if pointsOOBB.all (fun q => decide (q.z ≥ 1 - eps)) then false
      else if pointsOOBB.all (fun q => decide (q.x ≤ eps)) then false
      else if pointsOOBB.all (fun q => decide (q.y ≤ eps)) then false
      else if pointsOOBB.all (fun q => decide (q.z ≤ eps)) then false
      else true
    else false

/-- The inner loop of `getMinPlaneExtension`: the most negative distance of a face point to
`currPlane`, or `FLT_MAX` when no face point has a negative distance. -/
def maxNegDist (currPlane : Plane F) (facePoints : List (point3d F)) : F :=
  (facePoints.take 4).foldl
    (fun acc q =>
      let dist := currPlane.distanceToPoint q
      if dist ≥ 0 then acc else if dist < acc then dist else acc)
    (FLT_MAX F)

/-- The method `getMinPlaneExtension(box, facePoints, faceNormal)`. -/
def getMinPlaneExtension (sqrt : F → F) (box : ObjectOrientedBoundingBox F)
    (facePoints : List (point3d F)) (faceNormal : point3d F) : F :=
  let minPlaneExtension :=
    [OOBB_PLANE.X_FRONT, .X_BACK, .Y_FRONT, .Y_BACK, .Z_FRONT, .Z_BACK].foldl
      (fun acc which =>
        let currPlane := getPlane sqrt box which
        if currPlane.getNormal.dot faceNormal < 1 / 10 then acc
        else
          let m := maxNegDist currPlane facePoints
          if m = FLT_MAX F then acc
          else
            let planeExt := -m / currPlane.getNormal.dot faceNormal
            if planeExt < acc then planeExt else acc)
      (FLT_MAX F)
  if minPlaneExtension = FLT_MAX F then 0 else minPlaneExtension

/-- The two scores `assess0`, `assess1` that `makeZPlaneOutsideBoxes` computes from the
distances of `box0` and `box1` to the Z front and Z back planes of the box, with the four
distances `dist0front`, `dist0back`, `dist1front`, `dist1back`. -/
def zPlaneAssess (sqrt : F → F) (b box0 box1 : ObjectOrientedBoundingBox F) :
    (F × F) × (F × F × F × F) :=
  let front := getPlaneZFront sqrt b
  let back := getPlaneZBack sqrt b
  let dist0front := planeDistance sqrt box0 front
  let dist0back := planeDistance sqrt box0 back
  let dist1front := planeDistance sqrt box1 front
  let dist1back := planeDistance sqrt box1 back
  let assess0 := min dist0front 0 + min dist1back 0
  let assess1 := min dist1front 0 + min dist0back 0
  ((assess0, assess1), (dist0front, dist0back, dist1front, dist1back))

/-- The first block of `makeZPlaneOutsideBoxes`: three rounds, each scores the current axis
assignment and then swaps the axes; returns the box (back at its first assignment after
three swaps) and `which`, the round of the best score (`(unsigned int)-1` when no round
improved on `-FLT_MAX`). -/
def bestAxisRound (sqrt : F → F) (b box0 box1 : ObjectOrientedBoundingBox F) :
    ObjectOrientedBoundingBox F × Nat :=
  let r := [0, 1, 2].foldl
    (fun (st : ObjectOrientedBoundingBox F × Nat × F) i =>
      let cur := st.1
      let a := (zPlaneAssess sqrt cur box0 box1).1
      let assess := max a.1 a.2
      if assess > st.2.2 then (swapAxes cur, i, assess) else (swapAxes cur, st.2.1, st.2.2))
    (b, 4294967295, -FLT_MAX F)
  (r.1, r.2.1)

/-- The method `makeZPlaneOutsideBoxes(box0, box1)`. -/
def makeZPlaneOutsideBoxes (sqrt : F → F) (b box0 box1 : ObjectOrientedBoundingBox F) :
    ObjectOrientedBoundingBox F :=
  let r := bestAxisRound sqrt b box0 box1
  let b1 := Nat.iterate swapAxes r.2 r.1
  let front := getPlaneZFront sqrt b1
  let back := getPlaneZBack sqrt b1
  let sc := zPlaneAssess sqrt b1 box0 box1
  let assess0 := sc.1.1
  let assess1 := sc.1.2
  let dist0front := sc.2.1
  let dist0back := sc.2.2.1
  let dist1front := sc.2.2.2.1
  let dist1back := sc.2.2.2.2
  let eps : F := 1 / 10000
  if assess0 > assess1 then
    let zFront := getFaceZFront b1
    let extFront := min (getMinPlaneExtension sqrt box0 zFront front.getNormal) |dist0front|
    let b2 := extendInZFront sqrt b1 (|extFront| + eps)
    let zBack := getFaceZBack b2
    let extBack := min (getMinPlaneExtension sqrt box1 zBack back.getNormal) |dist1back|
    extendInZBack sqrt b2 (|extBack| + eps)
  else
    let zBack := getFaceZBack b1
    let extBack := min (getMinPlaneExtension sqrt box0 zBack back.getNormal) |dist0back|
    let b2 := extendInZBack sqrt b1 (|extBack| + eps)
    let zFront := getFaceZFront b2
    let extFront := min (getMinPlaneExtension sqrt box1 zFront front.getNormal) |dist1front|
    extendInZFront sqrt b2 (|extFront| + eps)

/-! ### Intersection -/

/-- One of the six plane tests of `computeContactPoints` for the edge `o + t * d`:
`t = num / den`, the point `o + t * d` is a contact point when `t` is in the unit interval
and the point in the unit cube. For `den = 0` the floating point quotient is infinite or
not a number and fails `isInUnitInterval`, so nothing is added. -/
def edgePlaneContact (o d : point3d F) (num den : F) : List (point3d F) :=
  if den = 0 then []
  else
    let t := num / den
    let p := o.add (d.smul t)
    if isInUnitInterval t (EPS F) && isInUnitCube p (EPS F) then [p] else []

/-- The body of the edge loop of `computeContactPoints`: the six plane tests, in the order
`x = 0`, `x = 1`, `y = 0`, `y = 1`, `z = 0`, `z = 1`. -/
def edgeContacts (o d : point3d F) : List (point3d F) :=
  edgePlaneContact o d (-o.x) d.x ++ edgePlaneContact o d (1 - o.x) d.x ++
  edgePlaneContact o d (-o.y) d.y ++ edgePlaneContact o d (1 - o.y) d.y ++
  edgePlaneContact o d (-o.z) d.z ++ edgePlaneContact o d (1 - o.z) d.z

/-- The method `computeContactPoints(other, contactPoints)` started with an empty vector, in
exact arithmetic; `Rounded.computeContactPoints` is the same method with every operation
rounded. -/
def computeContactPoints (sqrt : F → F) (b other : ObjectOrientedBoundingBox F) :
    List (point3d F) :=
  let OOBBToWorld := getOOBBToWorld b
  let worldToOOBB := getWorldToOOBB sqrt b
  let otherPoints := (getCornerPoints other).map worldToOOBB.mulPoint
  let corners := otherPoints.filter (fun q => isInUnitCube q (EPS F))
  let edges := (List.range 12).flatMap (fun i =>
    let o := otherPoints.getD (getEdgeIndices.getD (2 * i + 0) 0) ⟨0, 0, 0⟩
    let d := (otherPoints.getD (getEdgeIndices.getD (2 * i + 1) 0) ⟨0, 0, 0⟩).sub o
    edgeContacts o d)
  (corners ++ edges).map OOBBToWorld.mulPoint

/-- The condition of the validation loop of `intersect`: the Z faces of `res` separate the
two boxes (default `eps` of `testFace`). -/
def facesSeparate (sqrt : F → F) (b other res : ObjectOrientedBoundingBox F) : Bool :=
  let zFront := getFaceZFront res
  let zBack := getFaceZBack res
  (!testFace sqrt b zFront (EPS F) && !testFace sqrt other zBack (EPS F)) ||
  (!testFace sqrt b zBack (EPS F) && !testFace sqrt other zFront (EPS F))

/-- The validation loop of `intersect` with `n` rounds left (`i = 4 - n`): stop when the
faces separate the boxes, else swap the axes; in the last round (`i = 3`) the swap is
followed by `makeZPlaneOutsideBoxes`. -/
def intersectLoop (sqrt : F → F) (b other : ObjectOrientedBoundingBox F) :
    Nat → ObjectOrientedBoundingBox F → ObjectOrientedBoundingBox F
  | 0, res => res
  | n + 1, res =>
    if facesSeparate sqrt b other res then res
    else
      let res1 := swapAxes res
      if n = 0 then makeZPlaneOutsideBoxes sqrt res1 b other
      else intersectLoop sqrt b other n res1

/-- The method `intersect(other)`. `sameObject` is the outcome of the test
`this == &other`; `raw` holds the default-constructed members of the local `res` (see
`ctorDefault`). -/
def intersect (sqrt : F → F) (sameObject : Bool) (raw : ObjectOrientedBoundingBox F)
    (b other : ObjectOrientedBoundingBox F) : ObjectOrientedBoundingBox F :=
  if sameObject then b
  else
    let res := ctorDefault raw
    if ((getCenter b).sub (getCenter other)).length sqrt >
        (1 / 2) * (getDiagonalLength sqrt b + getDiagonalLength sqrt other) then res
    else
      let contactPoints := computeContactPoints sqrt b other ++ computeContactPoints sqrt other b
      let res1 := computeFromPCAVector sqrt res contactPoints
      if isValid res1 then intersectLoop sqrt b other 4 res1 else res1

end ObjectOrientedBoundingBox

/-! ## The constructor with a given z axis -/

/-- Modelled from the spec: the 2D point type `point2d<FloatType>` (not in the sources): two
coordinates `x`, `y`. -/
structure point2d (F : Type) where
  x : F
  y : F
deriving DecidableEq, Repr

/-- Modelled from the spec: the 2x2 matrix type `Matrix2D<FloatType>` (not in the sources),
with the entries `a`, `b` (first row) and `c`, `d` (second row). -/
structure Matrix2D (F : Type) where
  a : F
  b : F
  c : F
  d : F
deriving DecidableEq, Repr

namespace ObjectOrientedBoundingBox

variable {F : Type} [LinearOrderedField F]

/-- The vector `v` of the constructor `ObjectOrientedBoundingBox(points, numPoints, zAxis)`:
a signed permutation of the normalized z axis `z`, chosen by the first non-zero coordinate
of `z`. -/
def zAxisPermuted (z : point3d F) : point3d F :=
  if z.x ≠ 0 then ⟨z.z, -z.x, z.y⟩
  else if z.y ≠ 0 then ⟨z.z, z.x, -z.y⟩
  else ⟨-z.z, z.x, z.y⟩

/-- The helper vectors of the constructor with a given z axis before they are normalized:
`v0 = v ^ z` and `v1 = v0 ^ z`, with `z` the normalized `zAxis`. -/
def zAxisCross (sqrt : F → F) (zAxis : point3d F) : point3d F × point3d F :=
  let z := zAxis.getNormalized sqrt
  let v := zAxisPermuted z
  let v0 := v.cross z
  let v1 := v0.cross z
  (v0, v1)

/-- The helper vectors `v0`, `v1` of the constructor with a given z axis, after
`v0.normalize()` and `v1.normalize()`. -/
def zAxisFrame (sqrt : F → F) (zAxis : point3d F) : point3d F × point3d F :=
  ((zAxisCross sqrt zAxis).1.getNormalized sqrt, (zAxisCross sqrt zAxis).2.getNormalized sqrt)

/-- The covariance loop of the constructor with a given z axis: the entries of `cov` are
accumulated on top of the default-constructed matrix `cov0`, then divided by
`numPoints - 1`. -/
def projCov (cov0 : Matrix2D F) (pointsProj : List (point2d F)) : Matrix2D F :=
  let s := pointsProj.foldl (fun (m : point2d F) q => ⟨m.x + q.x, m.y + q.y⟩) ⟨0, 0⟩
  let pointsProjMean : point2d F := ⟨s.x / (pointsProj.length : F), s.y / (pointsProj.length : F)⟩
  let cov := pointsProj.foldl
    (fun (m : Matrix2D F) q =>
      let curr : point2d F := ⟨q.x - pointsProjMean.x, q.y - pointsProjMean.y⟩
      ⟨m.a + curr.x * curr.x, m.b + curr.x * curr.y, m.c + curr.x * curr.y, m.d + curr.y * curr.y⟩)
    cov0
  let n1 : F := (pointsProj.length : F) - 1
  ⟨cov.a / n1, cov.b / n1, cov.c / n1, cov.d / n1⟩

/-- The constructor `ObjectOrientedBoundingBox(points, numPoints, zAxis)`. The eigenvector
routine `Matrix2D::calc_e_vectors` and the default constructor of `Matrix2D` are not in the
sources: they are the parameters `calc_e_vectors` and `cov0`. -/
def ofZAxis (sqrt : F → F) (calc_e_vectors : Matrix2D F → point2d F × point2d F)
    (cov0 : Matrix2D F) (points : List (point3d F)) (zAxis : point3d F) :
    ObjectOrientedBoundingBox F :=
  let a2 := zAxis.getNormalized sqrt
  let v0 := (zAxisFrame sqrt zAxis).1
  let v1 := (zAxisFrame sqrt zAxis).2
  let pointsProj : List (point2d F) := points.map (fun p => ⟨p.dot v0, p.dot v1⟩)
  let ev := calc_e_vectors (projCov cov0 pointsProj)
  let ev0 := ev.1
  let ev1 := ev.2
  let a0 := ((v0.smul ev0.x).add (v1.smul ev0.y)).getNormalized sqrt
  let a1 := ((v0.smul ev1.x).add (v1.smul ev1.y)).getNormalized sqrt
  computeAnchorAndExtentsForGivenNormalizedAxis
    { m_Anchor := ⟨0, 0, 0⟩, m_AxesScaled0 := a0, m_AxesScaled1 := a1, m_AxesScaled2 := a2 } points

end ObjectOrientedBoundingBox

/-! ## Operators that return a new box -/

namespace ObjectOrientedBoundingBox

variable {F : Type} [LinearOrderedField F]

/-- The operator `*` with a scalar: `res = *this; res *= scale; return res;`. The pair is
the operand after the call and the returned box. -/
def scaled (b : ObjectOrientedBoundingBox F) (s : F) :
    ObjectOrientedBoundingBox F × ObjectOrientedBoundingBox F :=
  let res := b
  let res := scale res s
  (b, res)

/-- The operator `+` with a scalar: `res = *this; res += ext; return res;`. The pair is the
operand after the call and the returned box. -/
def extended (sqrt : F → F) (b : ObjectOrientedBoundingBox F) (ext : F) :
    ObjectOrientedBoundingBox F × ObjectOrientedBoundingBox F :=
  let res := b
  let res := extend sqrt res ext
  (b, res)

end ObjectOrientedBoundingBox

/-! ## Single precision

The type `float` of `OOBBf = ObjectOrientedBoundingBox<float>` (IEEE 754 binary32) as a set
of rational numbers: every operation is the exact operation followed by `Float32.round`,
rounding to the nearest value, ties to the even significand, with gradual underflow.
Infinities and NaN have no counterpart: a result beyond `FLT_MAX` is rounded like any other
number, and the division by zero keeps the value 0 of the rational division (the header
tests its quotients for being in the unit interval; see `Rounded.edgePlaneContact`). -/

namespace Float32

/-- The number of binary digits of `n` after the leading one (0 for `n < 2`), found in at
most `fuel` halvings. -/
def log2Floor : Nat → Nat → Nat
  | 0, _ => 0
  | fuel + 1, n => if n < 2 then 0 else log2Floor fuel (n / 2) + 1

/-- The exponent of a non-zero rational number: the integer `e` with
`2 ^ e ≤ |q| < 2 ^ (e + 1)`. -/
def exponent (q : ℚ) : Int :=
  let e : Int := (log2Floor q.num.natAbs q.num.natAbs : Int) - (log2Floor q.den q.den : Int)
  if (2 : ℚ) ^ e ≤ |q| then e else e - 1

/-- The integer nearest to a non-negative rational number, ties to the even one. -/
def nearestEven (n : ℚ) : Int :=
  let f : Int := Rat.floor n
  let r : ℚ := n - f
  if r < 1 / 2 then f else if 1 / 2 < r then f + 1 else if f % 2 = 0 then f else f + 1

/-- The value of `float` nearest to `q`: a multiple of `2 ^ (e - 23)`, where `e` is the
exponent of `q`, at least `-126`. -/
def round (q : ℚ) : ℚ :=
  if q = 0 then 0
  else
    let ulp : ℚ := (2 : ℚ) ^ (max (exponent q) (-126) - 23)
    if q < 0 then -((nearestEven (-q / ulp) : ℚ) * ulp) else (nearestEven (q / ulp) : ℚ) * ulp

/-- The integer square root by bisection: the `lo` with `lo * lo ≤ n < (lo + 1) * (lo + 1)`,
given `lo * lo ≤ n < hi * hi` and `fuel` at least the number of halvings of `hi - lo`. -/
def sqrtFloor : Nat → Nat → Nat → Nat → Nat
  | 0, lo, _, _ => lo
  | fuel + 1, lo, hi, n =>
    if hi ≤ lo + 1 then lo
    else if ((lo + hi) / 2) * ((lo + hi) / 2) ≤ n then sqrtFloor fuel ((lo + hi) / 2) hi n
    else sqrtFloor fuel lo ((lo + hi) / 2) n

/-- The function `sqrt` on `float`: the value of `float` nearest to the square root. With
`e` half the exponent of `q` (rounded down), the root lies in `[2 ^ e, 2 ^ (e + 1))`, so it
is `m * 2 ^ (e - 23)` with `m` the integer in `[2 ^ 23, 2 ^ 24]` nearest to the root of
`t = q / 2 ^ (2 * (e - 23))`. -/
def sqrt (q : ℚ) : ℚ :=
  if q ≤ 0 then 0
  else
    let e : Int := exponent q / 2
    let ulp : ℚ := (2 : ℚ) ^ (e - 23)
    let t : ℚ := q / (ulp * ulp)
    let f : Nat := sqrtFloor 32 (2 ^ 23) (2 ^ 24) (Rat.floor t).toNat
    let h : ℚ := ((f : ℚ) + 1 / 2) * ((f : ℚ) + 1 / 2)
    let m : Nat := if t < h then f else if h < t then f + 1 else if f % 2 = 0 then f else f + 1
    (m : ℚ) * ulp

end Float32

/-! ## The box in rounded arithmetic

The methods of the header that the containment test and the contact points run through,
once more, with the result of every arithmetic operation passed through `rnd`. With
`rnd = id` these are the definitions above; with `rnd = Float32.round` and
`sqrt = Float32.sqrt` they are the computation of `OOBBf`. -/

namespace Rounded

variable {F : Type} [LinearOrderedField F]

/-- Modelled from the spec: `a + b` on `point3d` (componentwise). -/
def add (rnd : F → F) (a b : point3d F) : point3d F :=
  ⟨rnd (a.x + b.x), rnd (a.y + b.y), rnd (a.z + b.z)⟩

/-- Modelled from the spec: `a - b` on `point3d` (componentwise). -/
def sub (rnd : F → F) (a b : point3d F) : point3d F :=
  ⟨rnd (a.x - b.x), rnd (a.y - b.y), rnd (a.z - b.z)⟩

/-- Modelled from the spec: `a * s` (and `s * a`) for a scalar `s`. -/
def smul (rnd : F → F) (a : point3d F) (s : F) : point3d F :=
  ⟨rnd (a.x * s), rnd (a.y * s), rnd (a.z * s)⟩

/-- Modelled from the spec: `a / s` for a scalar `s`. -/
def sdiv (rnd : F → F) (a : point3d F) (s : F) : point3d F :=
  ⟨rnd (a.x / s), rnd (a.y / s), rnd (a.z / s)⟩

/-- Modelled from the spec: the dot product `a | b`, summed from the left. -/
def dot (rnd : F → F) (a b : point3d F) : F :=
  rnd (rnd (rnd (a.x * b.x) + rnd (a.y * b.y)) + rnd (a.z * b.z))

/-- Modelled from the spec: `length()`, the square root of the dot product of the vector
with itself. -/
def length (rnd sqrt : F → F) (a : point3d F) : F := sqrt (dot rnd a a)

/-- Modelled from the spec: `getNormalized()`, the vector divided by its length. -/
def getNormalized (rnd sqrt : F → F) (a : point3d F) : point3d F :=
  sdiv rnd a (length rnd sqrt a)

/-- Modelled from the spec: matrix times vector, `m * v`, each row summed from the left. -/
def mulVec (rnd : F → F) (m : Matrix3x3 F) (v : point3d F) : point3d F :=
  ⟨rnd (rnd (rnd (m.m00 * v.x) + rnd (m.m01 * v.y)) + rnd (m.m02 * v.z)),
   rnd (rnd (rnd (m.m10 * v.x) + rnd (m.m11 * v.y)) + rnd (m.m12 * v.z)),
   rnd (rnd (rnd (m.m20 * v.x) + rnd (m.m21 * v.y)) + rnd (m.m22 * v.z))⟩

/-- Modelled from the spec: affine transform application `m * p` to a 3D point, each row
summed from the left, the translation last. -/
def mulPoint (rnd : F → F) (m : Matrix4x4 F) (p : point3d F) : point3d F :=
  ⟨rnd (rnd (rnd (rnd (m.m00 * p.x) + rnd (m.m01 * p.y)) + rnd (m.m02 * p.z)) + m.m03),
   rnd (rnd (rnd (rnd (m.m10 * p.x) + rnd (m.m11 * p.y)) + rnd (m.m12 * p.z)) + m.m13),
   rnd (rnd (rnd (rnd (m.m20 * p.x) + rnd (m.m21 * p.y)) + rnd (m.m22 * p.z)) + m.m23)⟩

/-- The literal `(FloatType)0.00001`. -/
def EPS (rnd : F → F) : F := rnd (1 / 100000)

/-- One round of the min/max loop of `computeAnchorAndExtentsForGivenNormalizedAxis`. -/
def minMaxStep (rnd : F → F) (worldToOOBBSpace : Matrix3x3 F) (acc : point3d F × point3d F)
    (p : point3d F) : point3d F × point3d F :=
  let curr := mulVec rnd worldToOOBBSpace p
  let minValues := acc.1
  let maxValues := acc.2
  (⟨if curr.x < minValues.x then curr.x else minValues.x,
    if curr.y < minValues.y then curr.y else minValues.y,
    if curr.z < minValues.z then curr.z else minValues.z⟩,
   ⟨if curr.x > maxValues.x then curr.x else maxValues.x,
    if curr.y > maxValues.y then curr.y else maxValues.y,
    if curr.z > maxValues.z then curr.z else maxValues.z⟩)

/-- The min/max loop of `computeAnchorAndExtentsForGivenNormalizedAxis`. -/
def minMaxValues (rnd : F → F) (worldToOOBBSpace : Matrix3x3 F) (points : List (point3d F)) :
    point3d F × point3d F :=
  points.foldl (minMaxStep rnd worldToOOBBSpace)
    (⟨FLT_MAX F, FLT_MAX F, FLT_MAX F⟩, ⟨-FLT_MAX F, -FLT_MAX F, -FLT_MAX F⟩)

/-- The method `computeAnchorAndExtentsForGivenNormalizedAxis(points, numPoints)`. -/
def computeAnchorAndExtentsForGivenNormalizedAxis (rnd : F → F)
    (b : ObjectOrientedBoundingBox F) (points : List (point3d F)) :
    ObjectOrientedBoundingBox F :=
  let worldToOOBBSpace := Matrix3x3.ofRows b.m_AxesScaled0 b.m_AxesScaled1 b.m_AxesScaled2
  let OOBBSpaceToWorld := worldToOOBBSpace.getTranspose
  let mm := minMaxValues rnd worldToOOBBSpace points
  let minValues := mm.1
  let maxValues := mm.2
  let b1 := { b with m_Anchor := mulVec rnd OOBBSpaceToWorld minValues }
  let extent0 := rnd (maxValues.x - minValues.x)
  let extent1 := rnd (maxValues.y - minValues.y)
  let extent2 := rnd (maxValues.z - minValues.z)
  if extent0 < EPS rnd ∨ extent1 < EPS rnd ∨ extent2 < EPS rnd then
    ObjectOrientedBoundingBox.setInvalid b1
  else
    { b1 with
      m_AxesScaled0 := smul rnd b1.m_AxesScaled0 extent0
      m_AxesScaled1 := smul rnd b1.m_AxesScaled1 extent1
      m_AxesScaled2 := smul rnd b1.m_AxesScaled2 extent2 }

/-- The constructor `ObjectOrientedBoundingBox(points, numPoints, xAxis, yAxis, zAxis)`. -/
def ofAxes (rnd sqrt : F → F) (points : List (point3d F)) (xAxis yAxis zAxis : point3d F) :
    ObjectOrientedBoundingBox F :=
  computeAnchorAndExtentsForGivenNormalizedAxis rnd
    { m_Anchor := ⟨0, 0, 0⟩
      m_AxesScaled0 := getNormalized rnd sqrt xAxis
      m_AxesScaled1 := getNormalized rnd sqrt yAxis
      m_AxesScaled2 := getNormalized rnd sqrt zAxis } points

/-- The method `getCornerPoints(points)`. -/
def getCornerPoints (rnd : F → F) (b : ObjectOrientedBoundingBox F) : List (point3d F) :=
  [b.m_Anchor,
   add rnd b.m_Anchor b.m_AxesScaled0,
   add rnd (add rnd b.m_Anchor b.m_AxesScaled0) b.m_AxesScaled1,
   add rnd b.m_Anchor b.m_AxesScaled1,
   add rnd b.m_Anchor b.m_AxesScaled2,
   add rnd (add rnd b.m_Anchor b.m_AxesScaled0) b.m_AxesScaled2,
   add rnd (add rnd (add rnd b.m_Anchor b.m_AxesScaled0) b.m_AxesScaled1) b.m_AxesScaled2,
   add rnd (add rnd b.m_Anchor b.m_AxesScaled1) b.m_AxesScaled2]

/-- The method `getWorldToOOBB()`. -/
def getWorldToOOBB (rnd sqrt : F → F) (b : ObjectOrientedBoundingBox F) : Matrix4x4 F :=
  let scaleValues0 := length rnd sqrt b.m_AxesScaled0
  let scaleValues1 := length rnd sqrt b.m_AxesScaled1
  let scaleValues2 := length rnd sqrt b.m_AxesScaled2
  let m := Matrix3x3.ofRows (sdiv rnd b.m_AxesScaled0 scaleValues0)
    (sdiv rnd b.m_AxesScaled1 scaleValues1) (sdiv rnd b.m_AxesScaled2 scaleValues2)
  let worldToOOBB3x3 : Matrix3x3 F :=
    ⟨rnd (m.m00 / scaleValues0), rnd (m.m01 / scaleValues0), rnd (m.m02 / scaleValues0),
     rnd (m.m10 / scaleValues1), rnd (m.m11 / scaleValues1), rnd (m.m12 / scaleValues1),
     rnd (m.m20 / scaleValues2), rnd (m.m21 / scaleValues2), rnd (m.m22 / scaleValues2)⟩
  let trans := mulVec rnd worldToOOBB3x3 b.m_Anchor.neg
  let worldToOOBB := Matrix4x4.ofMatrix3x3 worldToOOBB3x3
  { worldToOOBB with m03 := trans.x, m13 := trans.y, m23 := trans.z }

/-- The private helper `isInUnitInterval(v, eps)`. -/
def isInUnitInterval (rnd : F → F) (v eps : F) : Bool :=
  if v ≥ -eps ∧ v ≤ rnd (1 + eps) then true else false

/-- The private helper `isInUnitCube(p, eps)`. -/
def isInUnitCube (rnd : F → F) (p : point3d F) (eps : F) : Bool :=
  if p.x ≥ -eps ∧ p.x ≤ rnd (1 + eps) ∧
     p.y ≥ -eps ∧ p.y ≤ rnd (1 + eps) ∧
     p.z ≥ -eps ∧ p.z ≤ rnd (1 + eps) then true else false

/-- The method `contains(p)` for one point (default `eps` of `isInUnitCube`). -/
def contains (rnd sqrt : F → F) (b : ObjectOrientedBoundingBox F) (p : point3d F) : Bool :=
  isInUnitCube rnd (mulPoint rnd (getWorldToOOBB rnd sqrt b) p) (EPS rnd)

/-- One of the six plane tests of `computeContactPoints` for the edge `o + t * d`, with
`t = num / den`. For `den = 0` the floating point quotient is infinite or not a number and
fails `isInUnitInterval`, so nothing is added. -/
def edgePlaneContact (rnd : F → F) (o d : point3d F) (num den : F) : List (point3d F) :=
  if den = 0 then []
  else
    let t := rnd (num / den)
    let p := add rnd o (smul rnd d t)
    if isInUnitInterval rnd t (EPS rnd) && isInUnitCube rnd p (EPS rnd) then [p] else []

/-- The body of the edge loop of `computeContactPoints`: the six plane tests. -/
def edgeContacts (rnd : F → F) (o d : point3d F) : List (point3d F) :=
  edgePlaneContact rnd o d (-o.x) d.x ++ edgePlaneContact rnd o d (rnd (1 - o.x)) d.x ++
  edgePlaneContact rnd o d (-o.y) d.y ++ edgePlaneContact rnd o d (rnd (1 - o.y)) d.y ++
  edgePlaneContact rnd o d (-o.z) d.z ++ edgePlaneContact rnd o d (rnd (1 - o.z)) d.z

/-- The method `computeContactPoints(other, contactPoints)` started with an empty vector. -/
def computeContactPoints (rnd sqrt : F → F) (b other : ObjectOrientedBoundingBox F) :
    List (point3d F) :=
  let OOBBToWorld := ObjectOrientedBoundingBox.getOOBBToWorld b
  let worldToOOBB := getWorldToOOBB rnd sqrt b
  let otherPoints := (getCornerPoints rnd other).map (mulPoint rnd worldToOOBB)
  let corners := otherPoints.filter (fun q => isInUnitCube rnd q (EPS rnd))
  let edges := (List.range 12).flatMap (fun i =>
    let o := otherPoints.getD (ObjectOrientedBoundingBox.getEdgeIndices.getD (2 * i + 0) 0)
      ⟨0, 0, 0⟩
    let d := sub rnd
      (otherPoints.getD (ObjectOrientedBoundingBox.getEdgeIndices.getD (2 * i + 1) 0) ⟨0, 0, 0⟩)
      o
    edgeContacts rnd o d)
  (corners ++ edges).map (mulPoint rnd OOBBToWorld)

end Rounded

/-! ## The command line reader -/

/-- The class `CommandLineReader` (`include/core-util/commandLineReader.h`): its three
members. -/
structure CommandLineReader where
  m_args : List String
  m_commandLine : String
  m_usage : String
deriving DecidableEq, Repr

namespace CommandLineReader

/-- The loop `for (int arg = 1; arg < argc; arg++) m_commandLine += argv[arg];` started with
the empty string. -/
def commandLineOfArgv (argc : Int) (argv : List String) : String :=
  ((List.range argc.toNat).drop 1).foldl (fun acc arg => acc ++ argv.getD arg "") ""

/-- The constructor `CommandLineReader(usage, argc, argv)`. The function `StringUtil::split`
is not in the sources: it is the parameter `split`. -/
def ofArgv (split : String → String → List String) (usage : String) (argc : Int)
    (argv : List String) : CommandLineReader :=
  let m_commandLine := commandLineOfArgv argc argv
  { m_args := split m_commandLine " ", m_commandLine := m_commandLine, m_usage := usage }

/-- The constructor `CommandLineReader(usage, commandLine)`. -/
def ofString (split : String → String → List String) (usage : String) (commandLine : String) :
    CommandLineReader :=
  { m_args := split commandLine " ", m_commandLine := commandLine, m_usage := usage }

/-- The method `args()`. -/
def args (r : CommandLineReader) : List String := r.m_args

/-- The method `arg(argIndex)`: the program exits when the index is out of range. -/
def arg (r : CommandLineReader) (argIndex : Nat) : Option String :=
  if argIndex ≥ r.m_args.length then none else r.m_args.get? argIndex

end CommandLineReader

end ml

/-! ## Specification side

Predicates and reference functions used to state the properties, and sample inputs. -/

namespace ml

variable {F : Type} [LinearOrderedField F]

/-- The assumption on the square root of `point3d::length`: on the non-negative numbers it
is the non-negative exact square root. -/
def IsSqrt {F : Type} [LinearOrderedField F] (sqrt : F → F) : Prop :=
  ∀ x, 0 ≤ x → 0 ≤ sqrt x ∧ sqrt x * sqrt x = x

/-- The zero vector. -/
def point3d.zero (F : Type) [LinearOrderedField F] : point3d F := ⟨0, 0, 0⟩

namespace ObjectOrientedBoundingBox

/-- The axes of the box are pairwise orthogonal: the three dot products are exactly 0. -/
def axesOrthogonal (b : ObjectOrientedBoundingBox F) : Prop :=
  point3d.dot b.m_AxesScaled0 b.m_AxesScaled1 = 0 ∧
  point3d.dot b.m_AxesScaled1 b.m_AxesScaled2 = 0 ∧
  point3d.dot b.m_AxesScaled2 b.m_AxesScaled0 = 0

/-- None of the three axes of the box is the zero vector. -/
def axesNonzero (b : ObjectOrientedBoundingBox F) : Prop :=
  b.m_AxesScaled0 ≠ point3d.zero F ∧ b.m_AxesScaled1 ≠ point3d.zero F ∧
  b.m_AxesScaled2 ≠ point3d.zero F

end ObjectOrientedBoundingBox

/-- A box with anchor `(1, 2, 3)` and the axes `(2, 0, 0)`, `(0, 3, 0)`, `(0, 0, 4)`. -/
def sampleBox (F : Type) [LinearOrderedField F] : ObjectOrientedBoundingBox F :=
  ⟨⟨1, 2, 3⟩, ⟨2, 0, 0⟩, ⟨0, 3, 0⟩, ⟨0, 0, 4⟩⟩

/-- A box whose anchor `(-FLT_MAX, 0, 0)` has one coordinate equal to `-FLT_MAX`. -/
def halfSentinelBox (F : Type) [LinearOrderedField F] : ObjectOrientedBoundingBox F :=
  ⟨⟨-FLT_MAX F, 0, 0⟩, ⟨1, 0, 0⟩, ⟨0, 1, 0⟩, ⟨0, 0, 1⟩⟩

/-- A box of diagonal length 1 with its anchor at `(s, 0, 0)`: the axes are `(1/3, 0, 0)`,
`(0, 2/3, 0)` and `(0, 0, 2/3)`. -/
def diagOneBox (F : Type) [LinearOrderedField F] (s : F) : ObjectOrientedBoundingBox F :=
  ⟨⟨s, 0, 0⟩, ⟨1 / 3, 0, 0⟩, ⟨0, 2 / 3, 0⟩, ⟨0, 0, 2 / 3⟩⟩

/-- The running minimum of the min/max loop on one coordinate. -/
def runMin (init : F) (l : List F) : F := l.foldl (fun m c => if c < m then c else m) init

/-- The running maximum of the min/max loop on one coordinate. -/
def runMax (init : F) (l : List F) : F := l.foldl (fun m c => if c > m then c else m) init

/-- The three vectors are unit vectors and pairwise orthogonal. -/
def Orthonormal (u0 u1 u2 : point3d F) : Prop :=
  point3d.dot u0 u0 = 1 ∧ point3d.dot u1 u1 = 1 ∧ point3d.dot u2 u2 = 1 ∧
  point3d.dot u0 u1 = 0 ∧ point3d.dot u1 u2 = 0 ∧ point3d.dot u2 u0 = 0

namespace ObjectOrientedBoundingBox

/-- The box that `computeAnchorAndExtentsForGivenNormalizedAxis` produces when no extent is
below the threshold: the anchor is the transposed axis matrix applied to `minValues`, the
axes are scaled by the extents. -/
def fittedBox (u0 u1 u2 : point3d F) (mn mx : point3d F) : ObjectOrientedBoundingBox F :=
  { m_Anchor := (Matrix3x3.ofRows u0 u1 u2).getTranspose.mulVec mn
    m_AxesScaled0 := u0.smul (mx.x - mn.x)
    m_AxesScaled1 := u1.smul (mx.y - mn.y)
    m_AxesScaled2 := u2.smul (mx.z - mn.z) }

end ObjectOrientedBoundingBox

/-- Three sample points: two opposite corners of the unit cube and a point inside. -/
def samplePoints (F : Type) [LinearOrderedField F] : List (point3d F) :=
  [⟨0, 0, 0⟩, ⟨1, 1, 1⟩, ⟨1 / 2, 1 / 4, 3 / 4⟩]

/-- The least projection `p · u` of the points of a list on the direction `u` (0 for the
empty list). -/
def minProj (u : point3d F) : List (point3d F) → F
  | [] => 0
  | p :: ps => ps.foldl (fun m q => min m (point3d.dot u q)) (point3d.dot u p)

/-- The greatest projection `p · u` of the points of a list on the direction `u` (0 for the
empty list). -/
def maxProj (u : point3d F) : List (point3d F) → F
  | [] => 0
  | p :: ps => ps.foldl (fun m q => max m (point3d.dot u q)) (point3d.dot u p)

/-- The spread of the projections on `u`: greatest minus least. -/
def spread (u : point3d F) (points : List (point3d F)) : F := maxProj u points - minProj u points

/-- The projections on `u` reach into the range of `float`: the least one is at most
`FLT_MAX` and the greatest one at least `-FLT_MAX` (true when all of them lie in
`[-FLT_MAX, FLT_MAX]`). -/
def ProjInRange (u : point3d F) (points : List (point3d F)) : Prop :=
  minProj u points ≤ FLT_MAX F ∧ -FLT_MAX F ≤ maxProj u points

/-- The sum `e0 * u0 + e1 * u1 + e2 * u2`. -/
def point3d.combine (u0 u1 u2 : point3d F) (e0 e1 e2 : F) : point3d F :=
  ((u0.smul e0).add (u1.smul e1)).add (u2.smul e2)

/-- The unit cube at the origin: anchor `(0, 0, 0)`, axes `(1, 0, 0)`, `(0, 1, 0)`,
`(0, 0, 1)`. -/
def unitBox (F : Type) [LinearOrderedField F] : ObjectOrientedBoundingBox F :=
  ⟨⟨0, 0, 0⟩, ⟨1, 0, 0⟩, ⟨0, 1, 0⟩, ⟨0, 0, 1⟩⟩

/-- Two points whose `x` coordinates `2 * FLT_MAX` and `3 * FLT_MAX` exceed `FLT_MAX` (both
are values of `double`). -/
def farPoints (F : Type) [LinearOrderedField F] : List (point3d F) :=
  [⟨2 * FLT_MAX F, 0, 0⟩, ⟨3 * FLT_MAX F, 1, 1⟩]

/-- A single point all of whose coordinates are `2 * FLT_MAX` (a value of `double`). -/
def farPoint (F : Type) [LinearOrderedField F] : List (point3d F) :=
  [⟨2 * FLT_MAX F, 2 * FLT_MAX F, 2 * FLT_MAX F⟩]

/-- Two opposite corners of the unit cube. -/
def twoPoints (F : Type) [LinearOrderedField F] : List (point3d F) :=
  [⟨0, 0, 0⟩, ⟨1, 1, 1⟩]

/-- A box whose axes `(1, 0, 0)`, `(-3, 4, 0)`, `(0, 0, 1)` are not orthogonal: the first two
have dot product `-3`. -/
def skewBox (F : Type) [LinearOrderedField F] : ObjectOrientedBoundingBox F :=
  ⟨⟨0, 0, 0⟩, ⟨1, 0, 0⟩, ⟨-3, 4, 0⟩, ⟨0, 0, 1⟩⟩

/-- The affine matrix that maps the unit cube to `skewBox`. -/
def skewMatrix (F : Type) [LinearOrderedField F] : Matrix4x4 F :=
  ⟨1, -3, 0, 0,
   0, 4, 0, 0,
   0, 0, 1, 0,
   0, 0, 0, 1⟩

/-- Four points that are not coplanar: the origin and the three unit points. -/
def tetraPoints (F : Type) [LinearOrderedField F] : List (point3d F) :=
  [⟨0, 0, 0⟩, ⟨1, 0, 0⟩, ⟨0, 1, 0⟩, ⟨0, 0, 1⟩]

/-- The corner of a box with the given three coefficients (0 or 1) of the axes. -/
def ObjectOrientedBoundingBox.cornerAt (b : ObjectOrientedBoundingBox F) (s0 s1 s2 : F) :
    point3d F :=
  ((b.m_Anchor.add (b.m_AxesScaled0.smul s0)).add (b.m_AxesScaled1.smul s1)).add
    (b.m_AxesScaled2.smul s2)

/-- The unit cube moved by `1/2` along `x`: anchor `(1/2, 0, 0)`, axes `(1, 0, 0)`,
`(0, 1, 0)`, `(0, 0, 1)`. -/
def shiftedUnitBox (F : Type) [LinearOrderedField F] : ObjectOrientedBoundingBox F :=
  ⟨⟨1 / 2, 0, 0⟩, ⟨1, 0, 0⟩, ⟨0, 1, 0⟩, ⟨0, 0, 1⟩⟩

/-- A box of default-constructed members that are all zero. -/
def zeroRaw (F : Type) [LinearOrderedField F] : ObjectOrientedBoundingBox F :=
  ⟨⟨0, 0, 0⟩, ⟨0, 0, 0⟩, ⟨0, 0, 0⟩, ⟨0, 0, 0⟩⟩

/-- An affine matrix: a shear with a translation. -/
def sampleAffine (F : Type) [LinearOrderedField F] : Matrix4x4 F :=
  ⟨1, 2, 0, 5,
   0, 1, 3, 6,
   0, 0, 1, 7,
   0, 0, 0, 1⟩

/-- The tie of the repair step: at the axis assignment `makeZPlaneOutsideBoxes` settles on,
starting from `r`, the two scores `assess0` and `assess1` are equal. -/
def ObjectOrientedBoundingBox.repairTie (sqrt : F → F) (r a b : ObjectOrientedBoundingBox F) :
    Prop :=
  let br := ObjectOrientedBoundingBox.bestAxisRound sqrt r a b
  let b1 := Nat.iterate ObjectOrientedBoundingBox.swapAxes br.2 br.1
  (ObjectOrientedBoundingBox.zPlaneAssess sqrt b1 a b).1.1 =
    (ObjectOrientedBoundingBox.zPlaneAssess sqrt b1 a b).1.2

/-- The cube `[-1, 2]³`: anchor `(-1, -1, -1)`, axes `(3, 0, 0)`, `(0, 3, 0)`, `(0, 0, 3)`. -/
def bigBox (F : Type) [LinearOrderedField F] : ObjectOrientedBoundingBox F :=
  ⟨⟨-1, -1, -1⟩, ⟨3, 0, 0⟩, ⟨0, 3, 0⟩, ⟨0, 0, 3⟩⟩

/-- The unit cube after one `swapAxes()`: axes `(0, 1, 0)`, `(0, 0, 1)`, `(1, 0, 0)`. -/
def unitBoxSwapped (F : Type) [LinearOrderedField F] : ObjectOrientedBoundingBox F :=
  ⟨⟨0, 0, 0⟩, ⟨0, 1, 0⟩, ⟨0, 0, 1⟩, ⟨1, 0, 0⟩⟩

/-- Two points about 1500 units from the origin, with coordinates that are values of
`float`. -/
def farPair : List (point3d ℚ) := [⟨1534, 0, 0⟩, ⟨1537, 1, 1⟩]

/-- The box from `x = 1534` to `x = 1537` over the unit square: anchor `(1534, 0, 0)`, axes
`(3, 0, 0)`, `(0, 1, 0)`, `(0, 0, 1)`. -/
def farBox : ObjectOrientedBoundingBox ℚ := ⟨⟨1534, 0, 0⟩, ⟨3, 0, 0⟩, ⟨0, 1, 0⟩, ⟨0, 0, 1⟩⟩

/-- A box across the face `x = 1537` of `farBox`: anchor `(1536, 1/4, 1/4)`, axes
`(2, 0, 0)`, `(0, 1/2, 0)`, `(0, 0, 1/2)`. -/
def acrossBox : ObjectOrientedBoundingBox ℚ :=
  ⟨⟨1536, 1 / 4, 1 / 4⟩, ⟨2, 0, 0⟩, ⟨0, 1 / 2, 0⟩, ⟨0, 0, 1 / 2⟩⟩

/-- The 12 edges as pairs of corner numbers: entry `k` is
`(edgeIndexList[2 * k], edgeIndexList[2 * k + 1])`. -/
def ObjectOrientedBoundingBox.edgePairs : List (Nat × Nat) :=
  (List.range 12).map (fun k =>
    (ObjectOrientedBoundingBox.getEdgeIndices.getD (2 * k) 0,
      ObjectOrientedBoundingBox.getEdgeIndices.getD (2 * k + 1) 0))

/-- The corner number `i` of a box (the zero vector for `i ≥ 8`). -/
def ObjectOrientedBoundingBox.corner (b : ObjectOrientedBoundingBox F) (i : Nat) : point3d F :=
  (ObjectOrientedBoundingBox.getCornerPoints b).getD i ⟨0, 0, 0⟩

namespace point3d

theorem dot_self_nonneg (a : point3d F) : 0 ≤ dot a a := by
  unfold dot
  nlinarith [mul_self_nonneg a.x, mul_self_nonneg a.y, mul_self_nonneg a.z]

theorem dot_self_pos {a : point3d F} (h : a ≠ point3d.zero F) : 0 < dot a a := by
  rcases lt_or_eq_of_le (dot_self_nonneg a) with h1 | h1
  · exact h1
  · exfalso
    apply h
    unfold dot at h1
    have hx : a.x = 0 := by
      nlinarith [mul_self_nonneg a.x, mul_self_nonneg a.y, mul_self_nonneg a.z]
    have hy : a.y = 0 := by
      nlinarith [mul_self_nonneg a.x, mul_self_nonneg a.y, mul_self_nonneg a.z]
    have hz : a.z = 0 := by
      nlinarith [mul_self_nonneg a.x, mul_self_nonneg a.y, mul_self_nonneg a.z]
    cases a
    simp only [point3d.zero, point3d.mk.injEq]
    exact ⟨hx, hy, hz⟩

theorem length_mul_self {sqrt : F → F} (hs : IsSqrt sqrt) (a : point3d F) :
    length sqrt a * length sqrt a = dot a a :=
  (hs _ (dot_self_nonneg a)).2

theorem length_nonneg {sqrt : F → F} (hs : IsSqrt sqrt) (a : point3d F) :
    0 ≤ length sqrt a :=
  (hs _ (dot_self_nonneg a)).1

theorem length_pos {sqrt : F → F} (hs : IsSqrt sqrt) {a : point3d F}
    (h : a ≠ point3d.zero F) : 0 < length sqrt a := by
  rcases lt_or_eq_of_le (length_nonneg hs a) with h1 | h1
  · exact h1
  · have h2 := length_mul_self hs a
    rw [← h1] at h2
    have h3 := dot_self_pos h
    simp at h2
    linarith

end point3d

/-- Three pairwise orthogonal vectors `a`, `b`, `c` with non-zero squared lengths `da`,
`db`, `dc` resolve the identity: the sum of the outer products `v vᵀ / |v|²` is the unit
matrix. -/
theorem gram_complete {F : Type} [LinearOrderedField F]
    (a1 a2 a3 b1 b2 b3 c1 c2 c3 da db dc : F)
    (hda : a1 * a1 + a2 * a2 + a3 * a3 = da) (hdb : b1 * b1 + b2 * b2 + b3 * b3 = db)
    (hdc : c1 * c1 + c2 * c2 + c3 * c3 = dc)
    (ha : da ≠ 0) (hb : db ≠ 0) (hc : dc ≠ 0)
    (hab : a1 * b1 + a2 * b2 + a3 * b3 = 0) (hbc : b1 * c1 + b2 * c2 + b3 * c3 = 0)
    (hca : c1 * a1 + c2 * a2 + c3 * a3 = 0) :
    (a1 * a1 / da + b1 * b1 / db + c1 * c1 / dc = 1 ∧
     a1 * a2 / da + b1 * b2 / db + c1 * c2 / dc = 0 ∧
     a1 * a3 / da + b1 * b3 / db + c1 * c3 / dc = 0) ∧
    (a2 * a2 / da + b2 * b2 / db + c2 * c2 / dc = 1 ∧
     a2 * a3 / da + b2 * b3 / db + c2 * c3 / dc = 0 ∧
     a3 * a3 / da + b3 * b3 / db + c3 * c3 / dc = 1) := by
  have key : (!![a1 / da, a2 / da, a3 / da; b1 / db, b2 / db, b3 / db; c1 / dc, c2 / dc, c3 / dc] :
      Matrix (Fin 3) (Fin 3) F) * !![a1, b1, c1; a2, b2, c2; a3, b3, c3] = 1 := by
    ext i j
    fin_cases i <;> fin_cases j <;>
      simp [Matrix.mul_apply, Fin.sum_univ_three] <;> field_simp <;>
      first
        | linear_combination hda
        | linear_combination hdb
        | linear_combination hdc
        | linear_combination hab
        | linear_combination hbc
        | linear_combination hca
  have key2 := Matrix.mul_eq_one_comm.mp key
  have e := fun i j => congrFun (congrFun key2 i) j
  have e00 := e 0 0
  have e01 := e 0 1
  have e02 := e 0 2
  have e11 := e 1 1
  have e12 := e 1 2
  have e22 := e 2 2
  simp [Matrix.mul_apply, Fin.sum_univ_three] at e00 e01 e02 e11 e12 e22
  refine ⟨⟨?_, ?_, ?_⟩, ?_, ?_, ?_⟩
  · rw [← e00]; ring
  · rw [← e01]; ring
  · rw [← e02]; ring
  · rw [← e11]; ring
  · rw [← e12]; ring
  · rw [← e22]; ring

namespace ObjectOrientedBoundingBox

/-- The coordinates of `getWorldToOOBB() * p`: the dot product of each axis with
`p - m_Anchor`, divided by the squared length of the axis. -/
theorem getWorldToOOBB_mulPoint {sqrt : F → F} (hs : IsSqrt sqrt)
    (b : ObjectOrientedBoundingBox F) (hn : axesNonzero b) (p : point3d F) :
    (getWorldToOOBB sqrt b).mulPoint p =
      ⟨point3d.dot b.m_AxesScaled0 (p.sub b.m_Anchor) / point3d.dot b.m_AxesScaled0 b.m_AxesScaled0,
       point3d.dot b.m_AxesScaled1 (p.sub b.m_Anchor) / point3d.dot b.m_AxesScaled1 b.m_AxesScaled1,
       point3d.dot b.m_AxesScaled2 (p.sub b.m_Anchor) / point3d.dot b.m_AxesScaled2 b.m_AxesScaled2⟩ := by
  obtain ⟨h0, h1, h2⟩ := hn
  have l0 := point3d.length_mul_self hs b.m_AxesScaled0
  have l1 := point3d.length_mul_self hs b.m_AxesScaled1
  have l2 := point3d.length_mul_self hs b.m_AxesScaled2
  have p0 := (point3d.length_pos hs h0).ne.symm
  have p1 := (point3d.length_pos hs h1).ne.symm
  have p2 := (point3d.length_pos hs h2).ne.symm
  simp only [getWorldToOOBB, Matrix4x4.mulPoint, Matrix4x4.ofMatrix3x3, Matrix3x3.ofRows,
    Matrix3x3.mulVec, point3d.sdiv, point3d.neg, point3d.sub, point3d.mk.injEq]
  rw [← l0, ← l1, ← l2]
  simp only [point3d.dot]
  refine ⟨?_, ?_, ?_⟩ <;> field_simp <;> ring

/-- C1: for a box with non-zero, pairwise orthogonal axes, `getWorldToOOBB()` and
`getOOBBToWorld()` are inverse to each other on every point (exact arithmetic). -/
theorem C1_roundtrip {sqrt : F → F} (hs : IsSqrt sqrt) (b : ObjectOrientedBoundingBox F)
    (hn : axesNonzero b) (ho : axesOrthogonal b) (p : point3d F) :
    (getWorldToOOBB sqrt b).mulPoint ((getOOBBToWorld b).mulPoint p) = p ∧
    (getOOBBToWorld b).mulPoint ((getWorldToOOBB sqrt b).mulPoint p) = p := by
  have d0 := (point3d.dot_self_pos hn.1).ne.symm
  have d1 := (point3d.dot_self_pos hn.2.1).ne.symm
  have d2 := (point3d.dot_self_pos hn.2.2).ne.symm
  obtain ⟨h01, h12, h20⟩ := ho
  rw [getWorldToOOBB_mulPoint hs b hn, getWorldToOOBB_mulPoint hs b hn]
  obtain ⟨A, a, bb, c⟩ := b
  obtain ⟨px, py, pz⟩ := p
  simp only [point3d.dot] at d0 d1 d2 h01 h12 h20
  constructor
  · simp only [getOOBBToWorld, Matrix4x4.mulPoint, point3d.dot, point3d.sub, point3d.mk.injEq]
    refine ⟨?_, ?_, ?_⟩
    · field_simp
      linear_combination (py : F) * h01 + pz * h20
    · field_simp
      linear_combination (px : F) * h01 + pz * h12
    · field_simp
      linear_combination (px : F) * h20 + py * h12
  · obtain ⟨⟨g00, g01, g02⟩, g11, g12, g22⟩ :=
      gram_complete a.x a.y a.z bb.x bb.y bb.z c.x c.y c.z _ _ _ rfl rfl rfl d0 d1 d2 h01 h12 h20
    simp only [getOOBBToWorld, Matrix4x4.mulPoint, point3d.dot, point3d.sub, point3d.mk.injEq]
    refine ⟨?_, ?_, ?_⟩
    · linear_combination (px - A.x) * g00 + (py - A.y) * g01 + (pz - A.z) * g02
    · linear_combination (px - A.x) * g01 + (py - A.y) * g11 + (pz - A.z) * g12
    · linear_combination (px - A.x) * g02 + (py - A.y) * g12 + (pz - A.z) * g22

end ObjectOrientedBoundingBox

/-- The real square root is an exact non-negative square root. -/
theorem isSqrt_real : IsSqrt Real.sqrt :=
  fun x hx => ⟨Real.sqrt_nonneg x, Real.mul_self_sqrt hx⟩

namespace ObjectOrientedBoundingBox

/-- C1 at a concrete input: the box with anchor `(1, 2, 3)` and axes `(2, 0, 0)`,
`(0, 3, 0)`, `(0, 0, 4)` over the reals, and the point `(5, 6, 7)`. -/
theorem C1_roundtrip_witness :
    IsSqrt Real.sqrt ∧ axesNonzero (sampleBox ℝ) ∧ axesOrthogonal (sampleBox ℝ) ∧
    (getWorldToOOBB Real.sqrt (sampleBox ℝ)).mulPoint
        ((getOOBBToWorld (sampleBox ℝ)).mulPoint ⟨5, 6, 7⟩) = ⟨5, 6, 7⟩ ∧
    (getOOBBToWorld (sampleBox ℝ)).mulPoint
        ((getWorldToOOBB Real.sqrt (sampleBox ℝ)).mulPoint ⟨5, 6, 7⟩) = ⟨5, 6, 7⟩ :=
  have hn : axesNonzero (sampleBox ℝ) := by
    simp [axesNonzero, sampleBox, point3d.zero]
  have ho : axesOrthogonal (sampleBox ℝ) := by
    simp [axesOrthogonal, sampleBox, point3d.dot]
  ⟨isSqrt_real, hn, ho, C1_roundtrip isSqrt_real (sampleBox ℝ) hn ho ⟨5, 6, 7⟩⟩

/-- After `setInvalid()` the box is not valid. -/
theorem isValid_setInvalid (b : ObjectOrientedBoundingBox F) : isValid (setInvalid b) = false := by
  simp [isValid, setInvalid]

/-- C6 as stated fails: the anchor `(-FLT_MAX, 0, 0)` differs from the sentinel
`(-FLT_MAX, -FLT_MAX, -FLT_MAX)`, yet `isValid()` is false. -/
theorem C6_counterexample :
    (halfSentinelBox ℚ).m_Anchor ≠ ⟨-FLT_MAX ℚ, -FLT_MAX ℚ, -FLT_MAX ℚ⟩ ∧
    isValid (halfSentinelBox ℚ) = false := by
  constructor
  · simp [halfSentinelBox, FLT_MAX]
  · simp [isValid, halfSentinelBox]

/-- C6 (amended): `isValid()` is true exactly when no coordinate of the anchor equals
`-FLT_MAX`; the default constructor and `setInvalid()` give a box that is not valid. -/
theorem C6_isValid_iff (b raw : ObjectOrientedBoundingBox F) :
    (isValid b = true ↔
      b.m_Anchor.x ≠ -FLT_MAX F ∧ b.m_Anchor.y ≠ -FLT_MAX F ∧ b.m_Anchor.z ≠ -FLT_MAX F) ∧
    isValid (ctorDefault raw) = false ∧ isValid (setInvalid b) = false := by
  refine ⟨?_, isValid_setInvalid raw, isValid_setInvalid b⟩
  simp only [isValid]
  split_ifs with h
  · simp only [Bool.false_eq_true, false_iff]
    tauto
  · simp only [true_iff]
    tauto

/-- C5: with fewer than 4 points both overloads of `computeFromPCA` leave the box
invalid. -/
theorem C5_computeFromPCA_few_points (sqrt : F → F) (b : ObjectOrientedBoundingBox F)
    (points : List (point3d F)) (h : points.length < 4) :
    isValid (computeFromPCA sqrt b points) = false ∧
    isValid (computeFromPCAVector sqrt b points) = false := by
  simp [computeFromPCA, computeFromPCAVector, h, isValid_setInvalid]

/-- C5 at a concrete input: three points. -/
theorem C5_computeFromPCA_few_points_witness :
    ([⟨0, 0, 0⟩, ⟨1, 0, 0⟩, ⟨0, 1, 1⟩] : List (point3d ℝ)).length < 4 ∧
    isValid (computeFromPCA Real.sqrt (sampleBox ℝ) [⟨0, 0, 0⟩, ⟨1, 0, 0⟩, ⟨0, 1, 1⟩]) = false ∧
    isValid (computeFromPCAVector Real.sqrt (sampleBox ℝ)
      [⟨0, 0, 0⟩, ⟨1, 0, 0⟩, ⟨0, 1, 1⟩]) = false :=
  ⟨by simp, C5_computeFromPCA_few_points Real.sqrt (sampleBox ℝ) _ (by simp)⟩

/-- C4: for two distinct box objects (`this == &other` is false) whose centers are farther
apart than half the sum of their diagonal lengths, `intersect` returns the
default-constructed box, which is not valid; in particular so for diagonal lengths 1 and
centers 10 apart, since `10 > 0.5 * (1 + 1)`. -/
theorem C4_intersect_early_reject (sqrt : F → F) (raw a b : ObjectOrientedBoundingBox F)
    (h : ((getCenter a).sub (getCenter b)).length sqrt >
      (1 / 2) * (getDiagonalLength sqrt a + getDiagonalLength sqrt b)) :
    isValid (intersect sqrt false raw a b) = false := by
  simp only [intersect, Bool.false_eq_true, if_false, if_pos h]
  exact isValid_setInvalid raw

/-- The centers of `diagOneBox 0` and `diagOneBox s` are `|s|` apart. -/
theorem diagOneBox_center_dist (s : ℝ) :
    ((getCenter (diagOneBox ℝ 0)).sub (getCenter (diagOneBox ℝ s))).length Real.sqrt = |s| := by
  simp only [getCenter, diagOneBox, point3d.add, point3d.sub, point3d.smul, point3d.length,
    point3d.dot]
  norm_num
  rw [← sq, Real.sqrt_sq_eq_abs]

/-- The diagonal of `diagOneBox s` has length 1. -/
theorem diagOneBox_diag (s : ℝ) : getDiagonalLength Real.sqrt (diagOneBox ℝ s) = 1 := by
  simp only [getDiagonalLength, diagOneBox, point3d.add, point3d.length, point3d.dot]
  norm_num

/-- C4 at a concrete input, the scenario of the claim: two boxes of diagonal length 1 whose centers are 10 units
apart have an invalid intersection. -/
theorem C4_intersect_early_reject_witness :
    getDiagonalLength Real.sqrt (diagOneBox ℝ 0) = 1 ∧
    getDiagonalLength Real.sqrt (diagOneBox ℝ 10) = 1 ∧
    ((getCenter (diagOneBox ℝ 0)).sub (getCenter (diagOneBox ℝ 10))).length Real.sqrt = 10 ∧
    isValid (intersect Real.sqrt false (sampleBox ℝ) (diagOneBox ℝ 0) (diagOneBox ℝ 10)) = false :=
  ⟨diagOneBox_diag 0, diagOneBox_diag 10, by rw [diagOneBox_center_dist]; norm_num,
    C4_intersect_early_reject Real.sqrt (sampleBox ℝ) (diagOneBox ℝ 0) (diagOneBox ℝ 10)
      (by rw [diagOneBox_center_dist, diagOneBox_diag, diagOneBox_diag]; norm_num)⟩

end ObjectOrientedBoundingBox

theorem runMin_cons (init c : F) (l : List F) :
    runMin init (c :: l) = runMin (if c < init then c else init) l := rfl

theorem runMax_cons (init c : F) (l : List F) :
    runMax init (c :: l) = runMax (if c > init then c else init) l := rfl

theorem runMin_le_init (l : List F) : ∀ init : F, runMin init l ≤ init := by
  induction l with
  | nil => intro init; exact le_refl _
  | cons c l ih =>
    intro init
    rw [runMin_cons]
    refine le_trans (ih _) ?_
    split_ifs with h
    · exact le_of_lt h
    · exact le_refl _

theorem runMax_ge_init (l : List F) : ∀ init : F, init ≤ runMax init l := by
  induction l with
  | nil => intro init; exact le_refl _
  | cons c l ih =>
    intro init
    rw [runMax_cons]
    refine le_trans ?_ (ih _)
    split_ifs with h
    · exact le_of_lt h
    · exact le_refl _

theorem runMin_le_mem (l : List F) : ∀ (init c : F), c ∈ l → runMin init l ≤ c := by
  induction l with
  | nil => intro init c hc; simp at hc
  | cons d l ih =>
    intro init c hc
    rw [runMin_cons]
    rcases List.mem_cons.mp hc with rfl | hc
    · refine le_trans (runMin_le_init l _) ?_
      split_ifs with h
      · exact le_refl _
      · exact not_lt.mp h
    · exact ih _ c hc

theorem runMax_ge_mem (l : List F) : ∀ (init c : F), c ∈ l → c ≤ runMax init l := by
  induction l with
  | nil => intro init c hc; simp at hc
  | cons d l ih =>
    intro init c hc
    rw [runMax_cons]
    rcases List.mem_cons.mp hc with rfl | hc
    · refine le_trans ?_ (runMax_ge_init l _)
      split_ifs with h
      · exact le_refl _
      · exact not_lt.mp h
    · exact ih _ c hc

theorem runMin_eq_or_mem (l : List F) : ∀ init : F, runMin init l = init ∨ runMin init l ∈ l := by
  induction l with
  | nil => intro init; exact Or.inl rfl
  | cons d l ih =>
    intro init
    rw [runMin_cons]
    rcases ih (if d < init then d else init) with h | h
    · rw [h]
      split_ifs with h1
      · exact Or.inr (List.mem_cons_self _ _)
      · exact Or.inl rfl
    · exact Or.inr (List.mem_cons_of_mem _ h)

theorem runMax_eq_or_mem (l : List F) : ∀ init : F, runMax init l = init ∨ runMax init l ∈ l := by
  induction l with
  | nil => intro init; exact Or.inl rfl
  | cons d l ih =>
    intro init
    rw [runMax_cons]
    rcases ih (if d > init then d else init) with h | h
    · rw [h]
      split_ifs with h1
      · exact Or.inr (List.mem_cons_self _ _)
      · exact Or.inl rfl
    · exact Or.inr (List.mem_cons_of_mem _ h)

/-- On a non-empty list whose entries do not exceed the start value, the running minimum is
an entry of the list. -/
theorem runMin_mem (l : List F) (init : F) (hne : l ≠ []) (hr : ∀ c ∈ l, c ≤ init) :
    runMin init l ∈ l := by
  rcases runMin_eq_or_mem l init with h | h
  · obtain ⟨c, hc⟩ := List.exists_mem_of_ne_nil l hne
    have h1 := runMin_le_mem l init c hc
    have h2 := hr c hc
    have : c = runMin init l := le_antisymm (by rw [h]; exact h2) h1
    rw [← this]
    exact hc
  · exact h

/-- On a non-empty list whose entries are not below the start value, the running maximum is
an entry of the list. -/
theorem runMax_mem (l : List F) (init : F) (hne : l ≠ []) (hr : ∀ c ∈ l, init ≤ c) :
    runMax init l ∈ l := by
  rcases runMax_eq_or_mem l init with h | h
  · obtain ⟨c, hc⟩ := List.exists_mem_of_ne_nil l hne
    have h1 := runMax_ge_mem l init c hc
    have h2 := hr c hc
    have : c = runMax init l := le_antisymm h1 (by rw [h]; exact h2)
    rw [← this]
    exact hc
  · exact h

namespace ObjectOrientedBoundingBox

theorem minMax_foldl (W : Matrix3x3 F) (points : List (point3d F)) :
    ∀ acc : point3d F × point3d F,
    points.foldl (minMaxStep W) acc =
      (⟨runMin acc.1.x (points.map fun p => (W.mulVec p).x),
        runMin acc.1.y (points.map fun p => (W.mulVec p).y),
        runMin acc.1.z (points.map fun p => (W.mulVec p).z)⟩,
       ⟨runMax acc.2.x (points.map fun p => (W.mulVec p).x),
        runMax acc.2.y (points.map fun p => (W.mulVec p).y),
        runMax acc.2.z (points.map fun p => (W.mulVec p).z)⟩) := by
  induction points with
  | nil => intro acc; rfl
  | cons p ps ih =>
    intro acc
    rw [List.foldl_cons, ih]
    simp only [List.map_cons, runMin_cons, runMax_cons, minMaxStep]

/-- The result of the min/max loop, coordinate by coordinate, as running minima and
maxima of the projections. -/
theorem minMaxValues_eq (W : Matrix3x3 F) (points : List (point3d F)) :
    minMaxValues W points =
      (⟨runMin (FLT_MAX F) (points.map fun p => (W.mulVec p).x),
        runMin (FLT_MAX F) (points.map fun p => (W.mulVec p).y),
        runMin (FLT_MAX F) (points.map fun p => (W.mulVec p).z)⟩,
       ⟨runMax (-FLT_MAX F) (points.map fun p => (W.mulVec p).x),
        runMax (-FLT_MAX F) (points.map fun p => (W.mulVec p).y),
        runMax (-FLT_MAX F) (points.map fun p => (W.mulVec p).z)⟩) := by
  unfold minMaxValues
  rw [minMax_foldl]

end ObjectOrientedBoundingBox

namespace point3d

theorem getNormalized_dot {sqrt : F → F} (a b : point3d F) :
    dot (getNormalized sqrt a) (getNormalized sqrt b) =
      dot a b / (length sqrt a * length sqrt b) := by
  simp only [getNormalized, sdiv, dot]
  by_cases ha : length sqrt a = 0
  · simp [ha]
  by_cases hb : length sqrt b = 0
  · simp [hb]
  field_simp

theorem getNormalized_dot_self {sqrt : F → F} (hs : IsSqrt sqrt) {a : point3d F}
    (h : a ≠ point3d.zero F) : dot (getNormalized sqrt a) (getNormalized sqrt a) = 1 := by
  rw [getNormalized_dot, length_mul_self hs]
  exact div_self (dot_self_pos h).ne.symm

theorem dot_comm (a b : point3d F) : dot a b = dot b a := by
  simp only [dot]; ring

end point3d

/-- Normalizing three non-zero, pairwise orthogonal vectors gives an orthonormal triple. -/
theorem orthonormal_getNormalized {sqrt : F → F} (hs : IsSqrt sqrt) {x y z : point3d F}
    (hx : x ≠ point3d.zero F) (hy : y ≠ point3d.zero F) (hz : z ≠ point3d.zero F)
    (hxy : point3d.dot x y = 0) (hyz : point3d.dot y z = 0) (hzx : point3d.dot z x = 0) :
    Orthonormal (x.getNormalized sqrt) (y.getNormalized sqrt) (z.getNormalized sqrt) := by
  refine ⟨point3d.getNormalized_dot_self hs hx, point3d.getNormalized_dot_self hs hy,
    point3d.getNormalized_dot_self hs hz, ?_, ?_, ?_⟩
  · rw [point3d.getNormalized_dot, hxy, zero_div]
  · rw [point3d.getNormalized_dot, hyz, zero_div]
  · rw [point3d.getNormalized_dot, hzx, zero_div]

namespace ObjectOrientedBoundingBox

/-- The two outcomes of `computeAnchorAndExtentsForGivenNormalizedAxis`. -/
theorem computeAnchor_cases (b : ObjectOrientedBoundingBox F) (points : List (point3d F)) :
    let W := Matrix3x3.ofRows b.m_AxesScaled0 b.m_AxesScaled1 b.m_AxesScaled2
    let mm := minMaxValues W points
    ((mm.2.x - mm.1.x < EPS F ∨ mm.2.y - mm.1.y < EPS F ∨ mm.2.z - mm.1.z < EPS F) ∧
      isValid (computeAnchorAndExtentsForGivenNormalizedAxis b points) = false) ∨
    ((EPS F ≤ mm.2.x - mm.1.x ∧ EPS F ≤ mm.2.y - mm.1.y ∧ EPS F ≤ mm.2.z - mm.1.z) ∧
      computeAnchorAndExtentsForGivenNormalizedAxis b points =
        fittedBox b.m_AxesScaled0 b.m_AxesScaled1 b.m_AxesScaled2 mm.1 mm.2) := by
  intro W mm
  by_cases h : mm.2.x - mm.1.x < EPS F ∨ mm.2.y - mm.1.y < EPS F ∨ mm.2.z - mm.1.z < EPS F
  · left
    refine ⟨h, ?_⟩
    simp only [computeAnchorAndExtentsForGivenNormalizedAxis]
    rw [if_pos h]
    simp [isValid, setInvalid]
  · right
    have h2 := h
    simp only [not_or, not_lt] at h2
    refine ⟨h2, ?_⟩
    simp only [computeAnchorAndExtentsForGivenNormalizedAxis]
    rw [if_neg h]
    rfl

theorem EPS_pos : (0 : F) < EPS F := by
  unfold EPS; positivity

/-- The normalized local coordinates of a point in a fitted box with orthonormal axes: the
projection on the axis minus the minimum, divided by the extent. -/
theorem fittedBox_coords {sqrt : F → F} (hs : IsSqrt sqrt) {u0 u1 u2 : point3d F}
    (hu : Orthonormal u0 u1 u2) (mn mx : point3d F)
    (h0 : 0 < mx.x - mn.x) (h1 : 0 < mx.y - mn.y) (h2 : 0 < mx.z - mn.z) (p : point3d F) :
    (getWorldToOOBB sqrt (fittedBox u0 u1 u2 mn mx)).mulPoint p =
      ⟨(point3d.dot u0 p - mn.x) / (mx.x - mn.x),
       (point3d.dot u1 p - mn.y) / (mx.y - mn.y),
       (point3d.dot u2 p - mn.z) / (mx.z - mn.z)⟩ := by
  obtain ⟨n0, n1, n2, o01, o12, o20⟩ := hu
  have hne : ∀ (u : point3d F) (e : F), point3d.dot u u = 1 → 0 < e →
      u.smul e ≠ point3d.zero F := by
    intro u e hu1 he hz
    have : point3d.dot (u.smul e) (u.smul e) = 0 := by
      rw [hz]; simp [point3d.zero, point3d.dot]
    have h3 : point3d.dot (u.smul e) (u.smul e) = e * e * point3d.dot u u := by
      simp only [point3d.dot, point3d.smul]; ring
    rw [h3, hu1, mul_one] at this
    have := mul_self_eq_zero.mp this
    linarith
  rw [getWorldToOOBB_mulPoint hs _ ⟨hne _ _ n0 h0, hne _ _ n1 h1, hne _ _ n2 h2⟩]
  have e0 := h0.ne.symm
  have e1 := h1.ne.symm
  have e2 := h2.ne.symm
  simp only [fittedBox, point3d.dot, point3d.smul, point3d.sub, Matrix3x3.ofRows,
    Matrix3x3.getTranspose, Matrix3x3.mulVec, point3d.mk.injEq] at *
  refine ⟨?_, ?_, ?_⟩
  · have hd : u0.x * (mx.x - mn.x) * (u0.x * (mx.x - mn.x)) + u0.y * (mx.x - mn.x) * (u0.y * (mx.x - mn.x)) +
        u0.z * (mx.x - mn.x) * (u0.z * (mx.x - mn.x)) = (mx.x - mn.x) * (mx.x - mn.x) := by
      linear_combination (mx.x - mn.x) * (mx.x - mn.x) * n0
    have hn : u0.x * (mx.x - mn.x) * (p.x - (u0.x * mn.x + u1.x * mn.y + u2.x * mn.z)) +
        u0.y * (mx.x - mn.x) * (p.y - (u0.y * mn.x + u1.y * mn.y + u2.y * mn.z)) +
        u0.z * (mx.x - mn.x) * (p.z - (u0.z * mn.x + u1.z * mn.y + u2.z * mn.z)) =
        (mx.x - mn.x) * (u0.x * p.x + u0.y * p.y + u0.z * p.z - mn.x) := by
      linear_combination (-(mx.x - mn.x) * mn.x) * n0
        - (mx.x - mn.x) * mn.y * o01 - (mx.x - mn.x) * mn.z * o20
    rw [hd, hn]
    field_simp
    ring
  · have hd : u1.x * (mx.y - mn.y) * (u1.x * (mx.y - mn.y)) + u1.y * (mx.y - mn.y) * (u1.y * (mx.y - mn.y)) +
        u1.z * (mx.y - mn.y) * (u1.z * (mx.y - mn.y)) = (mx.y - mn.y) * (mx.y - mn.y) := by
      linear_combination (mx.y - mn.y) * (mx.y - mn.y) * n1
    have hn : u1.x * (mx.y - mn.y) * (p.x - (u0.x * mn.x + u1.x * mn.y + u2.x * mn.z)) +
        u1.y * (mx.y - mn.y) * (p.y - (u0.y * mn.x + u1.y * mn.y + u2.y * mn.z)) +
        u1.z * (mx.y - mn.y) * (p.z - (u0.z * mn.x + u1.z * mn.y + u2.z * mn.z)) =
        (mx.y - mn.y) * (u1.x * p.x + u1.y * p.y + u1.z * p.z - mn.y) := by
      linear_combination (-(mx.y - mn.y) * mn.y) * n1
        - (mx.y - mn.y) * mn.x * o01 - (mx.y - mn.y) * mn.z * o12
    rw [hd, hn]
    field_simp
    ring
  · have hd : u2.x * (mx.z - mn.z) * (u2.x * (mx.z - mn.z)) + u2.y * (mx.z - mn.z) * (u2.y * (mx.z - mn.z)) +
        u2.z * (mx.z - mn.z) * (u2.z * (mx.z - mn.z)) = (mx.z - mn.z) * (mx.z - mn.z) := by
      linear_combination (mx.z - mn.z) * (mx.z - mn.z) * n2
    have hn : u2.x * (mx.z - mn.z) * (p.x - (u0.x * mn.x + u1.x * mn.y + u2.x * mn.z)) +
        u2.y * (mx.z - mn.z) * (p.y - (u0.y * mn.x + u1.y * mn.y + u2.y * mn.z)) +
        u2.z * (mx.z - mn.z) * (p.z - (u0.z * mn.x + u1.z * mn.y + u2.z * mn.z)) =
        (mx.z - mn.z) * (u2.x * p.x + u2.y * p.y + u2.z * p.z - mn.z) := by
      linear_combination (-(mx.z - mn.z) * mn.z) * n2
        - (mx.z - mn.z) * mn.x * o20 - (mx.z - mn.z) * mn.y * o12
    rw [hd, hn]
    field_simp
    ring

/-- Every input point projects between `minValues` and `maxValues`, on each axis. -/
theorem minMaxValues_bounds (u0 u1 u2 : point3d F) (points : List (point3d F)) (p : point3d F)
    (hp : p ∈ points) :
    let mm := minMaxValues (Matrix3x3.ofRows u0 u1 u2) points
    (mm.1.x ≤ point3d.dot u0 p ∧ point3d.dot u0 p ≤ mm.2.x) ∧
    (mm.1.y ≤ point3d.dot u1 p ∧ point3d.dot u1 p ≤ mm.2.y) ∧
    (mm.1.z ≤ point3d.dot u2 p ∧ point3d.dot u2 p ≤ mm.2.z) := by
  intro mm
  have hmm : mm = minMaxValues (Matrix3x3.ofRows u0 u1 u2) points := rfl
  rw [minMaxValues_eq] at hmm
  rw [hmm]
  have hx : point3d.dot u0 p ∈ points.map fun q => ((Matrix3x3.ofRows u0 u1 u2).mulVec q).x :=
    List.mem_map.mpr ⟨p, hp, rfl⟩
  have hy : point3d.dot u1 p ∈ points.map fun q => ((Matrix3x3.ofRows u0 u1 u2).mulVec q).y :=
    List.mem_map.mpr ⟨p, hp, rfl⟩
  have hz : point3d.dot u2 p ∈ points.map fun q => ((Matrix3x3.ofRows u0 u1 u2).mulVec q).z :=
    List.mem_map.mpr ⟨p, hp, rfl⟩
  exact ⟨⟨runMin_le_mem _ _ _ hx, runMax_ge_mem _ _ _ hx⟩,
    ⟨runMin_le_mem _ _ _ hy, runMax_ge_mem _ _ _ hy⟩,
    ⟨runMin_le_mem _ _ _ hz, runMax_ge_mem _ _ _ hz⟩⟩

theorem unit_coord_mem {t m M : F} (h1 : m ≤ t) (h2 : t ≤ M) (he : EPS F ≤ M - m) :
    (t - m) / (M - m) ≥ -EPS F ∧ (t - m) / (M - m) ≤ 1 + EPS F := by
  have hpos : 0 < M - m := lt_of_lt_of_le EPS_pos he
  have hE := @EPS_pos F _
  constructor
  · have : 0 ≤ (t - m) / (M - m) := div_nonneg (by linarith) hpos.le
    linarith
  · have : (t - m) / (M - m) ≤ 1 := by
      rw [div_le_one hpos]; linarith
    linarith

/-- A valid box fitted to orthonormal axes contains every point it was fitted to. -/
theorem fit_contains {sqrt : F → F} (hs : IsSqrt sqrt) (A u0 u1 u2 : point3d F)
    (hu : Orthonormal u0 u1 u2) (points : List (point3d F))
    (hv : isValid (computeAnchorAndExtentsForGivenNormalizedAxis ⟨A, u0, u1, u2⟩ points) = true)
    (p : point3d F) (hp : p ∈ points) :
    contains sqrt (computeAnchorAndExtentsForGivenNormalizedAxis ⟨A, u0, u1, u2⟩ points) p
      = true := by
  rcases computeAnchor_cases ⟨A, u0, u1, u2⟩ points with ⟨_, hinv⟩ | ⟨⟨e0, e1, e2⟩, heq⟩
  · rw [hinv] at hv; exact absurd hv (by simp)
  · obtain ⟨⟨bx1, bx2⟩, ⟨by1, by2⟩, ⟨bz1, bz2⟩⟩ := minMaxValues_bounds u0 u1 u2 points p hp
    simp only at e0 e1 e2 heq bx1 bx2 by1 by2 bz1 bz2
    rw [heq]
    unfold contains
    rw [fittedBox_coords hs hu _ _ (lt_of_lt_of_le EPS_pos e0) (lt_of_lt_of_le EPS_pos e1)
      (lt_of_lt_of_le EPS_pos e2)]
    unfold isInUnitCube
    have cx := unit_coord_mem bx1 bx2 e0
    have cy := unit_coord_mem by1 by2 e1
    have cz := unit_coord_mem bz1 bz2 e2
    rw [if_pos ⟨cx.1, cx.2, cy.1, cy.2, cz.1, cz.2⟩]

/-- C2 (amended): in exact arithmetic, when the box built by the constructor with three given
axes (non-zero, pairwise orthogonal) is valid, `contains(p)` is true for every point `p` of
the input list. -/
theorem C2_fixed_axes_contains_inputs {sqrt : F → F} (hs : IsSqrt sqrt)
    (points : List (point3d F)) (xAxis yAxis zAxis : point3d F)
    (hx : xAxis ≠ point3d.zero F) (hy : yAxis ≠ point3d.zero F) (hz : zAxis ≠ point3d.zero F)
    (hxy : point3d.dot xAxis yAxis = 0) (hyz : point3d.dot yAxis zAxis = 0)
    (hzx : point3d.dot zAxis xAxis = 0)
    (hv : isValid (ofAxes sqrt points xAxis yAxis zAxis) = true)
    (p : point3d F) (hp : p ∈ points) :
    contains sqrt (ofAxes sqrt points xAxis yAxis zAxis) p = true :=
  fit_contains hs _ _ _ _ (orthonormal_getNormalized hs hx hy hz hxy hyz hzx) points hv p hp

theorem sqrt_four : Real.sqrt 4 = 2 := by
  rw [show (4 : ℝ) = 2 * 2 by norm_num]
  exact Real.sqrt_mul_self (by norm_num)

theorem sqrt_nine : Real.sqrt 9 = 3 := by
  rw [show (9 : ℝ) = 3 * 3 by norm_num]
  exact Real.sqrt_mul_self (by norm_num)

theorem sqrt_sixteen : Real.sqrt 16 = 4 := by
  rw [show (16 : ℝ) = 4 * 4 by norm_num]
  exact Real.sqrt_mul_self (by norm_num)

/-- The three sample points fitted to the axes `(2, 0, 0)`, `(0, 3, 0)`, `(0, 0, 4)` give
the unit cube. -/
theorem sample_ofAxes :
    ofAxes Real.sqrt (samplePoints ℝ) ⟨2, 0, 0⟩ ⟨0, 3, 0⟩ ⟨0, 0, 4⟩ =
      ⟨⟨0, 0, 0⟩, ⟨1, 0, 0⟩, ⟨0, 1, 0⟩, ⟨0, 0, 1⟩⟩ := by
  simp only [ofAxes, samplePoints, computeAnchorAndExtentsForGivenNormalizedAxis, minMaxValues,
    minMaxStep, List.foldl, Matrix3x3.ofRows, Matrix3x3.mulVec, Matrix3x3.getTranspose,
    point3d.getNormalized, point3d.length, point3d.dot, point3d.sdiv, point3d.smul, FLT_MAX, EPS,
    setInvalid]
  norm_num [sqrt_four, sqrt_nine, sqrt_sixteen]

/-- C2 (amended) at a concrete input: the three sample points fitted to the axes `(2, 0, 0)`,
`(0, 3, 0)`, `(0, 0, 4)`; the box is the unit cube and contains `(1/2, 1/4, 3/4)`. -/
theorem C2_fixed_axes_contains_inputs_witness :
    IsSqrt Real.sqrt ∧
    ((⟨2, 0, 0⟩ : point3d ℝ) ≠ point3d.zero ℝ ∧ (⟨0, 3, 0⟩ : point3d ℝ) ≠ point3d.zero ℝ ∧
      (⟨0, 0, 4⟩ : point3d ℝ) ≠ point3d.zero ℝ) ∧
    (point3d.dot (⟨2, 0, 0⟩ : point3d ℝ) ⟨0, 3, 0⟩ = 0 ∧
      point3d.dot (⟨0, 3, 0⟩ : point3d ℝ) ⟨0, 0, 4⟩ = 0 ∧
      point3d.dot (⟨0, 0, 4⟩ : point3d ℝ) ⟨2, 0, 0⟩ = 0) ∧
    isValid (ofAxes Real.sqrt (samplePoints ℝ) ⟨2, 0, 0⟩ ⟨0, 3, 0⟩ ⟨0, 0, 4⟩) = true ∧
    (⟨1 / 2, 1 / 4, 3 / 4⟩ : point3d ℝ) ∈ samplePoints ℝ ∧
    contains Real.sqrt (ofAxes Real.sqrt (samplePoints ℝ) ⟨2, 0, 0⟩ ⟨0, 3, 0⟩ ⟨0, 0, 4⟩)
      ⟨1 / 2, 1 / 4, 3 / 4⟩ = true :=
  have hn : (⟨2, 0, 0⟩ : point3d ℝ) ≠ point3d.zero ℝ ∧ (⟨0, 3, 0⟩ : point3d ℝ) ≠ point3d.zero ℝ ∧
      (⟨0, 0, 4⟩ : point3d ℝ) ≠ point3d.zero ℝ := by
    simp [point3d.zero]
  have ho : point3d.dot (⟨2, 0, 0⟩ : point3d ℝ) ⟨0, 3, 0⟩ = 0 ∧
      point3d.dot (⟨0, 3, 0⟩ : point3d ℝ) ⟨0, 0, 4⟩ = 0 ∧
      point3d.dot (⟨0, 0, 4⟩ : point3d ℝ) ⟨2, 0, 0⟩ = 0 := by
    simp [point3d.dot]
  have hv : isValid (ofAxes Real.sqrt (samplePoints ℝ) ⟨2, 0, 0⟩ ⟨0, 3, 0⟩ ⟨0, 0, 4⟩) = true := by
    rw [sample_ofAxes]
    simp [isValid, FLT_MAX]
  have hp : (⟨1 / 2, 1 / 4, 3 / 4⟩ : point3d ℝ) ∈ samplePoints ℝ := by
    simp [samplePoints]
  ⟨isSqrt_real, hn, ho, hv, hp,
    C2_fixed_axes_contains_inputs isSqrt_real (samplePoints ℝ) ⟨2, 0, 0⟩ ⟨0, 3, 0⟩ ⟨0, 0, 4⟩
      hn.1 hn.2.1 hn.2.2 ho.1 ho.2.1 ho.2.2 hv ⟨1 / 2, 1 / 4, 3 / 4⟩ hp⟩

end ObjectOrientedBoundingBox

theorem runMin_eq_min (l : List F) : ∀ init c : F, runMin init (c :: l) = min init (runMin c l) := by
  induction l with
  | nil =>
    intro init c
    simp only [runMin, List.foldl]
    split_ifs with h
    · exact (min_eq_right h.le).symm
    · exact (min_eq_left (not_lt.mp h)).symm
  | cons d l ih =>
    intro init c
    rw [runMin_cons, ih, ih c d, ← min_assoc]
    congr 1
    split_ifs with h
    · exact (min_eq_right h.le).symm
    · exact (min_eq_left (not_lt.mp h)).symm

theorem runMax_eq_max (l : List F) : ∀ init c : F, runMax init (c :: l) = max init (runMax c l) := by
  induction l with
  | nil =>
    intro init c
    simp only [runMax, List.foldl]
    split_ifs with h
    · exact (max_eq_right h.le).symm
    · exact (max_eq_left (not_lt.mp h)).symm
  | cons d l ih =>
    intro init c
    rw [runMax_cons, ih, ih c d, ← max_assoc]
    congr 1
    split_ifs with h
    · exact (max_eq_right h.le).symm
    · exact (max_eq_left (not_lt.mp h)).symm

theorem minProj_cons (u p : point3d F) (ps : List (point3d F)) :
    minProj u (p :: ps) = runMin (point3d.dot u p) (ps.map fun q => point3d.dot u q) := by
  simp only [minProj, runMin, List.foldl_map]
  congr 1
  funext m q
  split_ifs with h
  · exact min_eq_right h.le
  · exact min_eq_left (not_lt.mp h)

theorem maxProj_cons (u p : point3d F) (ps : List (point3d F)) :
    maxProj u (p :: ps) = runMax (point3d.dot u p) (ps.map fun q => point3d.dot u q) := by
  simp only [maxProj, runMax, List.foldl_map]
  congr 1
  funext m q
  split_ifs with h
  · exact max_eq_right h.le
  · exact max_eq_left (not_lt.mp h)

/-- On a non-empty list the loop minimum is the least projection, capped at the start
value. -/
theorem runMin_map_eq (u : point3d F) (init : F) (points : List (point3d F)) (hne : points ≠ []) :
    runMin init (points.map fun q => point3d.dot u q) = min init (minProj u points) := by
  cases points with
  | nil => exact absurd rfl hne
  | cons p ps => rw [List.map_cons, runMin_eq_min, minProj_cons]

/-- On a non-empty list the loop maximum is the greatest projection, capped at the start
value. -/
theorem runMax_map_eq (u : point3d F) (init : F) (points : List (point3d F)) (hne : points ≠ []) :
    runMax init (points.map fun q => point3d.dot u q) = max init (maxProj u points) := by
  cases points with
  | nil => exact absurd rfl hne
  | cons p ps => rw [List.map_cons, runMax_eq_max, maxProj_cons]

/-- The least projection is attained and is a lower bound. -/
theorem minProj_spec (u : point3d F) (points : List (point3d F)) (hne : points ≠ []) :
    (∃ p ∈ points, point3d.dot u p = minProj u points) ∧
    ∀ p ∈ points, minProj u points ≤ point3d.dot u p := by
  cases points with
  | nil => exact absurd rfl hne
  | cons p ps =>
    rw [minProj_cons]
    constructor
    · rcases runMin_eq_or_mem (ps.map fun q => point3d.dot u q) (point3d.dot u p) with h | h
      · exact ⟨p, List.mem_cons_self _ _, h.symm⟩
      · obtain ⟨q, hq, hq2⟩ := List.mem_map.mp h
        exact ⟨q, List.mem_cons_of_mem _ hq, hq2⟩
    · intro q hq
      rcases List.mem_cons.mp hq with rfl | hq
      · exact runMin_le_init _ _
      · exact runMin_le_mem _ _ _ (List.mem_map.mpr ⟨q, hq, rfl⟩)

/-- The greatest projection is attained and is an upper bound. -/
theorem maxProj_spec (u : point3d F) (points : List (point3d F)) (hne : points ≠ []) :
    (∃ p ∈ points, point3d.dot u p = maxProj u points) ∧
    ∀ p ∈ points, point3d.dot u p ≤ maxProj u points := by
  cases points with
  | nil => exact absurd rfl hne
  | cons p ps =>
    rw [maxProj_cons]
    constructor
    · rcases runMax_eq_or_mem (ps.map fun q => point3d.dot u q) (point3d.dot u p) with h | h
      · exact ⟨p, List.mem_cons_self _ _, h.symm⟩
      · obtain ⟨q, hq, hq2⟩ := List.mem_map.mp h
        exact ⟨q, List.mem_cons_of_mem _ hq, hq2⟩
    · intro q hq
      rcases List.mem_cons.mp hq with rfl | hq
      · exact runMax_ge_init _ _
      · exact runMax_ge_mem _ _ _ (List.mem_map.mpr ⟨q, hq, rfl⟩)

namespace ObjectOrientedBoundingBox

/-- The values `minValues`, `maxValues` of the fitting loop on a non-empty list: the least
projections capped at `FLT_MAX` and the greatest ones capped at `-FLT_MAX`. -/
theorem minMaxValues_proj (u0 u1 u2 : point3d F) (points : List (point3d F)) (hne : points ≠ []) :
    minMaxValues (Matrix3x3.ofRows u0 u1 u2) points =
      (⟨min (FLT_MAX F) (minProj u0 points), min (FLT_MAX F) (minProj u1 points),
        min (FLT_MAX F) (minProj u2 points)⟩,
       ⟨max (-FLT_MAX F) (maxProj u0 points), max (-FLT_MAX F) (maxProj u1 points),
        max (-FLT_MAX F) (maxProj u2 points)⟩) := by
  rw [minMaxValues_eq]
  have e0 : (fun p : point3d F => ((Matrix3x3.ofRows u0 u1 u2).mulVec p).x) =
      fun q => point3d.dot u0 q := rfl
  have e1 : (fun p : point3d F => ((Matrix3x3.ofRows u0 u1 u2).mulVec p).y) =
      fun q => point3d.dot u1 q := rfl
  have e2 : (fun p : point3d F => ((Matrix3x3.ofRows u0 u1 u2).mulVec p).z) =
      fun q => point3d.dot u2 q := rfl
  rw [e0, e1, e2]
  simp only [runMin_map_eq _ _ _ hne, runMax_map_eq _ _ _ hne]

theorem FLT_MAX_pos : (0 : F) < FLT_MAX F := by
  unfold FLT_MAX; positivity

end ObjectOrientedBoundingBox

theorem sqrt_mul_self_of_nonneg {sqrt : F → F} (hs : IsSqrt sqrt) {e : F} (he : 0 ≤ e) :
    sqrt (e * e) = e := by
  obtain ⟨h1, h2⟩ := hs (e * e) (mul_self_nonneg e)
  exact (mul_self_inj_of_nonneg h1 he).mp h2

theorem point3d.length_smul_unit {sqrt : F → F} (hs : IsSqrt sqrt) {u : point3d F}
    (hu : point3d.dot u u = 1) {e : F} (he : 0 ≤ e) : (u.smul e).length sqrt = e := by
  have h : point3d.dot (u.smul e) (u.smul e) = e * e := by
    have : point3d.dot (u.smul e) (u.smul e) = e * e * point3d.dot u u := by
      simp only [point3d.dot, point3d.smul]; ring
    rw [this, hu, mul_one]
  rw [point3d.length, h, sqrt_mul_self_of_nonneg hs he]

namespace ObjectOrientedBoundingBox

/-- With spreads of at least `1e-5` and projections in range, the fitting loop ends with the
least and greatest projections and the box is the fitted box. -/
theorem fit_eq_fittedBox (A u0 u1 u2 : point3d F) (points : List (point3d F)) (hne : points ≠ [])
    (hr0 : ProjInRange u0 points) (hr1 : ProjInRange u1 points) (hr2 : ProjInRange u2 points)
    (hs0 : EPS F ≤ spread u0 points) (hs1 : EPS F ≤ spread u1 points)
    (hs2 : EPS F ≤ spread u2 points) :
    computeAnchorAndExtentsForGivenNormalizedAxis ⟨A, u0, u1, u2⟩ points =
      fittedBox u0 u1 u2 ⟨minProj u0 points, minProj u1 points, minProj u2 points⟩
        ⟨maxProj u0 points, maxProj u1 points, maxProj u2 points⟩ := by
  have hmm := minMaxValues_proj u0 u1 u2 points hne
  rw [min_eq_right hr0.1, min_eq_right hr1.1, min_eq_right hr2.1, max_eq_right hr0.2,
    max_eq_right hr1.2, max_eq_right hr2.2] at hmm
  rcases computeAnchor_cases ⟨A, u0, u1, u2⟩ points with ⟨hlt, _⟩ | ⟨_, heq⟩
  · simp only [hmm] at hlt
    unfold spread at hs0 hs1 hs2
    rcases hlt with h | h | h
    · exact absurd h (not_lt.mpr hs0)
    · exact absurd h (not_lt.mpr hs1)
    · exact absurd h (not_lt.mpr hs2)
  · simp only [hmm] at heq
    exact heq

/-- C8 (amended): fitting to orthonormal axes `u0`, `u1`, `u2` a non-empty point list whose
projections reach into `[-FLT_MAX, FLT_MAX]` on every axis and whose three spreads are at
least `1e-5`: the anchor is `min_0 * u0 + min_1 * u1 + min_2 * u2`, the scaled axes are
`(max_i - min_i) * u_i`, `getExtent()` is the triple of the spreads, and on each axis some
input point has normalized coordinate 0 and some input point has normalized coordinate 1. -/
theorem C8_fit_anchor_and_extents {sqrt : F → F} (hs : IsSqrt sqrt) (A u0 u1 u2 : point3d F)
    (hu : Orthonormal u0 u1 u2) (points : List (point3d F)) (hne : points ≠ [])
    (hr0 : ProjInRange u0 points) (hr1 : ProjInRange u1 points) (hr2 : ProjInRange u2 points)
    (hs0 : EPS F ≤ spread u0 points) (hs1 : EPS F ≤ spread u1 points)
    (hs2 : EPS F ≤ spread u2 points) :
    let b := computeAnchorAndExtentsForGivenNormalizedAxis ⟨A, u0, u1, u2⟩ points
    b.m_Anchor = point3d.combine u0 u1 u2 (minProj u0 points) (minProj u1 points)
      (minProj u2 points) ∧
    (b.m_AxesScaled0 = u0.smul (spread u0 points) ∧ b.m_AxesScaled1 = u1.smul (spread u1 points) ∧
      b.m_AxesScaled2 = u2.smul (spread u2 points)) ∧
    getExtent sqrt b = ⟨spread u0 points, spread u1 points, spread u2 points⟩ ∧
    ((∃ p ∈ points, ((getWorldToOOBB sqrt b).mulPoint p).x = 0) ∧
      (∃ p ∈ points, ((getWorldToOOBB sqrt b).mulPoint p).x = 1)) ∧
    ((∃ p ∈ points, ((getWorldToOOBB sqrt b).mulPoint p).y = 0) ∧
      (∃ p ∈ points, ((getWorldToOOBB sqrt b).mulPoint p).y = 1)) ∧
    ((∃ p ∈ points, ((getWorldToOOBB sqrt b).mulPoint p).z = 0) ∧
      (∃ p ∈ points, ((getWorldToOOBB sqrt b).mulPoint p).z = 1)) := by
  intro b
  have hb : b = fittedBox u0 u1 u2 ⟨minProj u0 points, minProj u1 points, minProj u2 points⟩
      ⟨maxProj u0 points, maxProj u1 points, maxProj u2 points⟩ :=
    fit_eq_fittedBox A u0 u1 u2 points hne hr0 hr1 hr2 hs0 hs1 hs2
  have p0 : 0 < spread u0 points := lt_of_lt_of_le EPS_pos hs0
  have p1 : 0 < spread u1 points := lt_of_lt_of_le EPS_pos hs1
  have p2 : 0 < spread u2 points := lt_of_lt_of_le EPS_pos hs2
  have hc := fittedBox_coords hs hu
    ⟨minProj u0 points, minProj u1 points, minProj u2 points⟩
    ⟨maxProj u0 points, maxProj u1 points, maxProj u2 points⟩ p0 p1 p2
  rw [hb]
  refine ⟨?_, ⟨rfl, rfl, rfl⟩, ?_, ⟨?_, ?_⟩, ⟨?_, ?_⟩, ⟨?_, ?_⟩⟩
  · simp only [fittedBox, point3d.combine, Matrix3x3.ofRows, Matrix3x3.getTranspose,
      Matrix3x3.mulVec, point3d.smul, point3d.add]
  · simp only [getExtent, fittedBox, point3d.mk.injEq]
    exact ⟨point3d.length_smul_unit hs hu.1 p0.le, point3d.length_smul_unit hs hu.2.1 p1.le,
      point3d.length_smul_unit hs hu.2.2.1 p2.le⟩
  · obtain ⟨p, hp, he⟩ := (minProj_spec u0 points hne).1
    exact ⟨p, hp, by rw [hc]; simp [he]⟩
  · obtain ⟨p, hp, he⟩ := (maxProj_spec u0 points hne).1
    refine ⟨p, hp, ?_⟩
    rw [hc]
    simp only [he]
    exact div_self p0.ne.symm
  · obtain ⟨p, hp, he⟩ := (minProj_spec u1 points hne).1
    exact ⟨p, hp, by rw [hc]; simp [he]⟩
  · obtain ⟨p, hp, he⟩ := (maxProj_spec u1 points hne).1
    refine ⟨p, hp, ?_⟩
    rw [hc]
    simp only [he]
    exact div_self p1.ne.symm
  · obtain ⟨p, hp, he⟩ := (minProj_spec u2 points hne).1
    exact ⟨p, hp, by rw [hc]; simp [he]⟩
  · obtain ⟨p, hp, he⟩ := (maxProj_spec u2 points hne).1
    refine ⟨p, hp, ?_⟩
    rw [hc]
    simp only [he]
    exact div_self p2.ne.symm

theorem orthonormal_std : Orthonormal (⟨1, 0, 0⟩ : point3d ℝ) ⟨0, 1, 0⟩ ⟨0, 0, 1⟩ := by
  simp [Orthonormal, point3d.dot]

theorem orthonormal_rot :
    Orthonormal (⟨3 / 5, 4 / 5, 0⟩ : point3d ℝ) ⟨-4 / 5, 3 / 5, 0⟩ ⟨0, 0, 1⟩ := by
  simp only [Orthonormal, point3d.dot]
  norm_num

/-- C8 as stated fails beyond the range of `float`: for the two points with `x` coordinates
`2 * FLT_MAX` and `3 * FLT_MAX` and the standard axes all spreads are at least `1e-5`, but
the loop minimum stays at its start value `FLT_MAX`: the anchor is `(FLT_MAX, 0, 0)` and not
`min_0 * u0 + min_1 * u1 + min_2 * u2 = (2 * FLT_MAX, 0, 0)`. -/
theorem C8_counterexample :
    Orthonormal (⟨1, 0, 0⟩ : point3d ℝ) ⟨0, 1, 0⟩ ⟨0, 0, 1⟩ ∧ farPoints ℝ ≠ [] ∧
    EPS ℝ ≤ spread ⟨1, 0, 0⟩ (farPoints ℝ) ∧ EPS ℝ ≤ spread ⟨0, 1, 0⟩ (farPoints ℝ) ∧
    EPS ℝ ≤ spread ⟨0, 0, 1⟩ (farPoints ℝ) ∧
    (computeAnchorAndExtentsForGivenNormalizedAxis (unitBox ℝ) (farPoints ℝ)).m_Anchor
      = ⟨FLT_MAX ℝ, 0, 0⟩ ∧
    point3d.combine (⟨1, 0, 0⟩ : point3d ℝ) ⟨0, 1, 0⟩ ⟨0, 0, 1⟩
      (minProj ⟨1, 0, 0⟩ (farPoints ℝ)) (minProj ⟨0, 1, 0⟩ (farPoints ℝ))
      (minProj ⟨0, 0, 1⟩ (farPoints ℝ)) = ⟨2 * FLT_MAX ℝ, 0, 0⟩ ∧
    (computeAnchorAndExtentsForGivenNormalizedAxis (unitBox ℝ) (farPoints ℝ)).m_Anchor ≠
      point3d.combine (⟨1, 0, 0⟩ : point3d ℝ) ⟨0, 1, 0⟩ ⟨0, 0, 1⟩
        (minProj ⟨1, 0, 0⟩ (farPoints ℝ)) (minProj ⟨0, 1, 0⟩ (farPoints ℝ))
        (minProj ⟨0, 0, 1⟩ (farPoints ℝ)) := by
  have hA : (computeAnchorAndExtentsForGivenNormalizedAxis (unitBox ℝ) (farPoints ℝ)).m_Anchor
      = ⟨FLT_MAX ℝ, 0, 0⟩ := by
    simp only [unitBox, farPoints, computeAnchorAndExtentsForGivenNormalizedAxis, minMaxValues,
      minMaxStep, List.foldl, Matrix3x3.ofRows, Matrix3x3.mulVec, Matrix3x3.getTranspose,
      point3d.smul, FLT_MAX, EPS, setInvalid]
    norm_num
  have hC : point3d.combine (⟨1, 0, 0⟩ : point3d ℝ) ⟨0, 1, 0⟩ ⟨0, 0, 1⟩
      (minProj ⟨1, 0, 0⟩ (farPoints ℝ)) (minProj ⟨0, 1, 0⟩ (farPoints ℝ))
      (minProj ⟨0, 0, 1⟩ (farPoints ℝ)) = ⟨2 * FLT_MAX ℝ, 0, 0⟩ := by
    simp only [point3d.combine, minProj, farPoints, List.foldl, point3d.dot, point3d.smul,
      point3d.add, FLT_MAX]
    norm_num
  refine ⟨orthonormal_std, by simp [farPoints], ?_, ?_, ?_, hA, hC, ?_⟩
  · simp only [spread, minProj, maxProj, farPoints, List.foldl, point3d.dot, FLT_MAX, EPS]
    norm_num
  · simp only [spread, minProj, maxProj, farPoints, List.foldl, point3d.dot, FLT_MAX, EPS]
    norm_num
  · simp only [spread, minProj, maxProj, farPoints, List.foldl, point3d.dot, FLT_MAX, EPS]
    norm_num
  · rw [hA, hC]
    simp [FLT_MAX]

theorem sample_rot_min :
    minProj (⟨3 / 5, 4 / 5, 0⟩ : point3d ℝ) (samplePoints ℝ) = 0 ∧
    minProj (⟨-4 / 5, 3 / 5, 0⟩ : point3d ℝ) (samplePoints ℝ) = -1 / 4 ∧
    minProj (⟨0, 0, 1⟩ : point3d ℝ) (samplePoints ℝ) = 0 := by
  simp only [minProj, samplePoints, List.foldl, point3d.dot]
  norm_num

theorem sample_rot_max :
    maxProj (⟨3 / 5, 4 / 5, 0⟩ : point3d ℝ) (samplePoints ℝ) = 7 / 5 ∧
    maxProj (⟨-4 / 5, 3 / 5, 0⟩ : point3d ℝ) (samplePoints ℝ) = 0 ∧
    maxProj (⟨0, 0, 1⟩ : point3d ℝ) (samplePoints ℝ) = 1 := by
  simp only [maxProj, samplePoints, List.foldl, point3d.dot]
  norm_num

/-- C8 (amended) at a concrete input: the three sample points fitted to the orthonormal axes
`(3/5, 4/5, 0)`, `(-4/5, 3/5, 0)`, `(0, 0, 1)`. -/
theorem C8_fit_anchor_and_extents_witness :
    IsSqrt Real.sqrt ∧
    Orthonormal (⟨3 / 5, 4 / 5, 0⟩ : point3d ℝ) ⟨-4 / 5, 3 / 5, 0⟩ ⟨0, 0, 1⟩ ∧
    samplePoints ℝ ≠ [] ∧
    (ProjInRange ⟨3 / 5, 4 / 5, 0⟩ (samplePoints ℝ) ∧ ProjInRange ⟨-4 / 5, 3 / 5, 0⟩ (samplePoints ℝ) ∧
      ProjInRange ⟨0, 0, 1⟩ (samplePoints ℝ)) ∧
    (EPS ℝ ≤ spread ⟨3 / 5, 4 / 5, 0⟩ (samplePoints ℝ) ∧
      EPS ℝ ≤ spread ⟨-4 / 5, 3 / 5, 0⟩ (samplePoints ℝ) ∧
      EPS ℝ ≤ spread ⟨0, 0, 1⟩ (samplePoints ℝ)) ∧
    (computeAnchorAndExtentsForGivenNormalizedAxis
        ⟨⟨0, 0, 0⟩, ⟨3 / 5, 4 / 5, 0⟩, ⟨-4 / 5, 3 / 5, 0⟩, ⟨0, 0, 1⟩⟩ (samplePoints ℝ)).m_Anchor =
      point3d.combine ⟨3 / 5, 4 / 5, 0⟩ ⟨-4 / 5, 3 / 5, 0⟩ ⟨0, 0, 1⟩
        (minProj ⟨3 / 5, 4 / 5, 0⟩ (samplePoints ℝ)) (minProj ⟨-4 / 5, 3 / 5, 0⟩ (samplePoints ℝ))
        (minProj ⟨0, 0, 1⟩ (samplePoints ℝ)) ∧
    getExtent Real.sqrt (computeAnchorAndExtentsForGivenNormalizedAxis
        ⟨⟨0, 0, 0⟩, ⟨3 / 5, 4 / 5, 0⟩, ⟨-4 / 5, 3 / 5, 0⟩, ⟨0, 0, 1⟩⟩ (samplePoints ℝ)) =
      ⟨spread ⟨3 / 5, 4 / 5, 0⟩ (samplePoints ℝ), spread ⟨-4 / 5, 3 / 5, 0⟩ (samplePoints ℝ),
        spread ⟨0, 0, 1⟩ (samplePoints ℝ)⟩ :=
  have hr : ProjInRange ⟨3 / 5, 4 / 5, 0⟩ (samplePoints ℝ) ∧
      ProjInRange ⟨-4 / 5, 3 / 5, 0⟩ (samplePoints ℝ) ∧ ProjInRange ⟨0, 0, 1⟩ (samplePoints ℝ) := by
    simp only [ProjInRange, sample_rot_min, sample_rot_max, FLT_MAX]
    norm_num
  have hsp : EPS ℝ ≤ spread ⟨3 / 5, 4 / 5, 0⟩ (samplePoints ℝ) ∧
      EPS ℝ ≤ spread ⟨-4 / 5, 3 / 5, 0⟩ (samplePoints ℝ) ∧
      EPS ℝ ≤ spread ⟨0, 0, 1⟩ (samplePoints ℝ) := by
    simp only [spread, sample_rot_min, sample_rot_max, EPS]
    norm_num
  have hne : samplePoints ℝ ≠ [] := by simp [samplePoints]
  have h := C8_fit_anchor_and_extents isSqrt_real ⟨0, 0, 0⟩ _ _ _ orthonormal_rot (samplePoints ℝ)
    hne hr.1 hr.2.1 hr.2.2 hsp.1 hsp.2.1 hsp.2.2
  ⟨isSqrt_real, orthonormal_rot, hne, hr, hsp, h.1, h.2.2.1⟩

/-- A spread below `1e-5` on an axis whose projections are in range makes the fitted box
invalid. -/
theorem fit_invalid_of_small_spread (A u0 u1 u2 : point3d F) (points : List (point3d F))
    (h : (ProjInRange u0 points ∧ spread u0 points < EPS F) ∨
      (ProjInRange u1 points ∧ spread u1 points < EPS F) ∨
      (ProjInRange u2 points ∧ spread u2 points < EPS F)) :
    isValid (computeAnchorAndExtentsForGivenNormalizedAxis ⟨A, u0, u1, u2⟩ points) = false := by
  rcases computeAnchor_cases ⟨A, u0, u1, u2⟩ points with ⟨_, hinv⟩ | ⟨⟨e0, e1, e2⟩, _⟩
  · exact hinv
  · exfalso
    by_cases hne : points = []
    · subst hne
      simp only [minMaxValues, List.foldl] at e0
      have := @FLT_MAX_pos F _
      have := @EPS_pos F _
      linarith
    · have hmm := minMaxValues_proj u0 u1 u2 points hne
      simp only [hmm] at e0 e1 e2
      unfold spread at h
      rcases h with ⟨hr, hlt⟩ | ⟨hr, hlt⟩ | ⟨hr, hlt⟩
      · rw [min_eq_right hr.1, max_eq_right hr.2] at e0
        exact absurd hlt (not_lt.mpr e0)
      · rw [min_eq_right hr.1, max_eq_right hr.2] at e1
        exact absurd hlt (not_lt.mpr e1)
      · rw [min_eq_right hr.1, max_eq_right hr.2] at e2
        exact absurd hlt (not_lt.mpr e2)

/-- With all three spreads at least `1e-5` the fitted box is not set invalid. -/
theorem fit_of_large_spread (A u0 u1 u2 : point3d F) (points : List (point3d F))
    (hs0 : EPS F ≤ spread u0 points) (hs1 : EPS F ≤ spread u1 points)
    (hs2 : EPS F ≤ spread u2 points) :
    computeAnchorAndExtentsForGivenNormalizedAxis ⟨A, u0, u1, u2⟩ points =
      fittedBox u0 u1 u2 (minMaxValues (Matrix3x3.ofRows u0 u1 u2) points).1
        (minMaxValues (Matrix3x3.ofRows u0 u1 u2) points).2 := by
  rcases computeAnchor_cases ⟨A, u0, u1, u2⟩ points with ⟨hlt, _⟩ | ⟨_, heq⟩
  · exfalso
    have hE := @EPS_pos F _
    by_cases hne : points = []
    · subst hne
      simp only [spread, minProj, maxProj, sub_zero] at hs0
      linarith
    · have hmm := minMaxValues_proj u0 u1 u2 points hne
      simp only [hmm] at hlt
      unfold spread at hs0 hs1 hs2
      rcases hlt with h | h | h
      · have a1 := le_max_right (-FLT_MAX F) (maxProj u0 points)
        have a2 := min_le_right (FLT_MAX F) (minProj u0 points)
        linarith
      · have a1 := le_max_right (-FLT_MAX F) (maxProj u1 points)
        have a2 := min_le_right (FLT_MAX F) (minProj u1 points)
        linarith
      · have a1 := le_max_right (-FLT_MAX F) (maxProj u2 points)
        have a2 := min_le_right (FLT_MAX F) (minProj u2 points)
        linarith
  · exact heq

/-- C9 as stated fails beyond the range of `float`: the single point
`(2 * FLT_MAX, 2 * FLT_MAX, 2 * FLT_MAX)` has spread 0 on every axis, but the loop minimum
stays at its start value `FLT_MAX`, every extent is `FLT_MAX` and the fitted box is valid. -/
theorem C9_counterexample :
    Orthonormal (⟨1, 0, 0⟩ : point3d ℝ) ⟨0, 1, 0⟩ ⟨0, 0, 1⟩ ∧
    spread (⟨1, 0, 0⟩ : point3d ℝ) (farPoint ℝ) < EPS ℝ ∧
    isValid (computeAnchorAndExtentsForGivenNormalizedAxis (unitBox ℝ) (farPoint ℝ)) = true := by
  refine ⟨orthonormal_std, ?_, ?_⟩
  · simp only [spread, minProj, maxProj, farPoint, List.foldl, EPS]
    norm_num
  · simp only [unitBox, farPoint, computeAnchorAndExtentsForGivenNormalizedAxis, minMaxValues,
      minMaxStep, List.foldl, Matrix3x3.ofRows, Matrix3x3.mulVec, Matrix3x3.getTranspose,
      point3d.smul, FLT_MAX, EPS, setInvalid, isValid]
    norm_num

/-- C9 (amended): fitting a point list to three axes. If on some axis the projections reach
into `[-FLT_MAX, FLT_MAX]` and their spread is below `1e-5`, the box is invalid. If all three
spreads are at least `1e-5`, the box is not set invalid: its anchor is the transposed axis
matrix applied to `minValues`, and the box is valid exactly when no coordinate of that anchor
equals `-FLT_MAX`. -/
theorem C9_fit_validity (A u0 u1 u2 : point3d F) (points : List (point3d F)) :
    let b := computeAnchorAndExtentsForGivenNormalizedAxis ⟨A, u0, u1, u2⟩ points
    let anchor := (Matrix3x3.ofRows u0 u1 u2).getTranspose.mulVec
      (minMaxValues (Matrix3x3.ofRows u0 u1 u2) points).1
    (((ProjInRange u0 points ∧ spread u0 points < EPS F) ∨
        (ProjInRange u1 points ∧ spread u1 points < EPS F) ∨
        (ProjInRange u2 points ∧ spread u2 points < EPS F)) → isValid b = false) ∧
    ((EPS F ≤ spread u0 points ∧ EPS F ≤ spread u1 points ∧ EPS F ≤ spread u2 points) →
      b.m_Anchor = anchor ∧
      (isValid b = true ↔
        anchor.x ≠ -FLT_MAX F ∧ anchor.y ≠ -FLT_MAX F ∧ anchor.z ≠ -FLT_MAX F)) := by
  intro b anchor
  refine ⟨fit_invalid_of_small_spread A u0 u1 u2 points, ?_⟩
  rintro ⟨hs0, hs1, hs2⟩
  have hb : b = fittedBox u0 u1 u2 (minMaxValues (Matrix3x3.ofRows u0 u1 u2) points).1
      (minMaxValues (Matrix3x3.ofRows u0 u1 u2) points).2 :=
    fit_of_large_spread A u0 u1 u2 points hs0 hs1 hs2
  have ha : b.m_Anchor = anchor := by rw [hb]; rfl
  refine ⟨ha, ?_⟩
  rw [← ha]
  simp only [isValid]
  split_ifs with h
  · simp only [Bool.false_eq_true, false_iff]
    tauto
  · simp only [true_iff]
    tauto

theorem sample_std_spread :
    spread (⟨1, 0, 0⟩ : point3d ℝ) (samplePoints ℝ) = 1 ∧
    spread (⟨0, 1, 0⟩ : point3d ℝ) (samplePoints ℝ) = 1 ∧
    spread (⟨0, 0, 1⟩ : point3d ℝ) (samplePoints ℝ) = 1 := by
  simp only [spread, minProj, maxProj, samplePoints, List.foldl, point3d.dot]
  norm_num

/-- C9 (amended) at concrete inputs, one for each half: the points `(0, 0, 0)`, `(1, 1, 0)` have spread 0
on the third axis and give an invalid box; the three sample points have spread 1 on each
standard axis and give a valid box with anchor `(0, 0, 0)`. -/
theorem C9_fit_validity_witness :
    (ProjInRange (⟨0, 0, 1⟩ : point3d ℝ) [⟨0, 0, 0⟩, ⟨1, 1, 0⟩] ∧
      spread (⟨0, 0, 1⟩ : point3d ℝ) [⟨0, 0, 0⟩, ⟨1, 1, 0⟩] < EPS ℝ) ∧
    isValid (computeAnchorAndExtentsForGivenNormalizedAxis
      ⟨⟨0, 0, 0⟩, ⟨1, 0, 0⟩, ⟨0, 1, 0⟩, ⟨0, 0, 1⟩⟩ ([⟨0, 0, 0⟩, ⟨1, 1, 0⟩] : List (point3d ℝ)))
      = false ∧
    (EPS ℝ ≤ spread ⟨1, 0, 0⟩ (samplePoints ℝ) ∧ EPS ℝ ≤ spread ⟨0, 1, 0⟩ (samplePoints ℝ) ∧
      EPS ℝ ≤ spread ⟨0, 0, 1⟩ (samplePoints ℝ)) ∧
    (computeAnchorAndExtentsForGivenNormalizedAxis
      ⟨⟨0, 0, 0⟩, ⟨1, 0, 0⟩, ⟨0, 1, 0⟩, ⟨0, 0, 1⟩⟩ (samplePoints ℝ)).m_Anchor =
      (Matrix3x3.ofRows ⟨1, 0, 0⟩ ⟨0, 1, 0⟩ ⟨0, 0, 1⟩).getTranspose.mulVec
        (minMaxValues (Matrix3x3.ofRows ⟨1, 0, 0⟩ ⟨0, 1, 0⟩ ⟨0, 0, 1⟩) (samplePoints ℝ)).1 :=
  have h1 : ProjInRange (⟨0, 0, 1⟩ : point3d ℝ) [⟨0, 0, 0⟩, ⟨1, 1, 0⟩] ∧
      spread (⟨0, 0, 1⟩ : point3d ℝ) [⟨0, 0, 0⟩, ⟨1, 1, 0⟩] < EPS ℝ := by
    simp only [ProjInRange, spread, minProj, maxProj, List.foldl, point3d.dot, FLT_MAX, EPS]
    norm_num
  have h2 : EPS ℝ ≤ spread ⟨1, 0, 0⟩ (samplePoints ℝ) ∧
      EPS ℝ ≤ spread ⟨0, 1, 0⟩ (samplePoints ℝ) ∧ EPS ℝ ≤ spread ⟨0, 0, 1⟩ (samplePoints ℝ) := by
    simp only [sample_std_spread, EPS]
    norm_num
  ⟨h1,
    (C9_fit_validity ⟨0, 0, 0⟩ ⟨1, 0, 0⟩ ⟨0, 1, 0⟩ ⟨0, 0, 1⟩ [⟨0, 0, 0⟩, ⟨1, 1, 0⟩]).1
      (Or.inr (Or.inr h1)),
    h2,
    ((C9_fit_validity ⟨0, 0, 0⟩ ⟨1, 0, 0⟩ ⟨0, 1, 0⟩ ⟨0, 0, 1⟩ (samplePoints ℝ)).2 h2).1⟩

theorem spread_of_length_lt_two (u : point3d F) (points : List (point3d F))
    (h : points.length < 2) : spread u points = 0 := by
  match points, h with
  | [], _ => simp [spread, minProj, maxProj]
  | [p], _ => simp [spread, minProj, maxProj]
  | _ :: _ :: _, h => exact absurd h (by simp)

/-- C10 as stated fails: the two points `(0, 0, 0)`, `(1, 1, 1)` are fewer than 4, the axes
`(2, 0, 0)`, `(0, 3, 0)`, `(0, 0, 4)` are pairwise orthogonal, and both the constructor with
three axes and the constructor reusing the axes of another box give a valid box. -/
theorem C10_counterexample :
    (twoPoints ℝ).length < 4 ∧ axesOrthogonal (sampleBox ℝ) ∧
    isValid (ofAxes Real.sqrt (twoPoints ℝ) ⟨2, 0, 0⟩ ⟨0, 3, 0⟩ ⟨0, 0, 4⟩) = true ∧
    isValid (ofOther Real.sqrt (twoPoints ℝ) (sampleBox ℝ)) = true := by
  refine ⟨by simp [twoPoints], by simp [axesOrthogonal, sampleBox, point3d.dot], ?_, ?_⟩
  · simp only [ofAxes, twoPoints, computeAnchorAndExtentsForGivenNormalizedAxis, minMaxValues,
      minMaxStep, List.foldl, Matrix3x3.ofRows, Matrix3x3.mulVec, Matrix3x3.getTranspose,
      point3d.getNormalized, point3d.length, point3d.dot, point3d.sdiv, point3d.smul, FLT_MAX,
      EPS, setInvalid, isValid]
    norm_num [sqrt_four, sqrt_nine, sqrt_sixteen]
  · simp only [ofOther, sampleBox, twoPoints, computeAnchorAndExtentsForGivenNormalizedAxis,
      minMaxValues, minMaxStep, List.foldl, Matrix3x3.ofRows, Matrix3x3.mulVec,
      Matrix3x3.getTranspose, point3d.getNormalized, point3d.length, point3d.dot, point3d.sdiv,
      point3d.smul, FLT_MAX, EPS, setInvalid, isValid]
    norm_num [sqrt_four, sqrt_nine, sqrt_sixteen]

/-- C10 (amended): the constructors with fixed axes do not count the points, they reject by
extent only. For the box built by the constructor with three axes and the box built by the
constructor reusing the axes of another box: with fewer than 2 points whose projections
reach into `[-FLT_MAX, FLT_MAX]` on at least one of the normalized axes the box is invalid;
for every point list, a spread below `1e-5` on a normalized axis whose projections reach
into that range makes the box invalid; and when all three spreads are at least `1e-5` (as
2 or 3 points can have) the box is valid exactly when no coordinate of its anchor, the
transposed axis matrix applied to `minValues`, equals `-FLT_MAX`. -/
theorem C10_fixed_axes_few_points (sqrt : F → F) (points : List (point3d F))
    (xAxis yAxis zAxis : point3d F) (other : ObjectOrientedBoundingBox F) :
    (points.length < 2 →
      ((ProjInRange (xAxis.getNormalized sqrt) points ∨
          ProjInRange (yAxis.getNormalized sqrt) points ∨
          ProjInRange (zAxis.getNormalized sqrt) points) →
        isValid (ofAxes sqrt points xAxis yAxis zAxis) = false) ∧
      ((ProjInRange (other.m_AxesScaled0.getNormalized sqrt) points ∨
          ProjInRange (other.m_AxesScaled1.getNormalized sqrt) points ∨
          ProjInRange (other.m_AxesScaled2.getNormalized sqrt) points) →
        isValid (ofOther sqrt points other) = false)) ∧
    ((((ProjInRange (xAxis.getNormalized sqrt) points ∧
            spread (xAxis.getNormalized sqrt) points < EPS F) ∨
          (ProjInRange (yAxis.getNormalized sqrt) points ∧
            spread (yAxis.getNormalized sqrt) points < EPS F) ∨
          (ProjInRange (zAxis.getNormalized sqrt) points ∧
            spread (zAxis.getNormalized sqrt) points < EPS F)) →
        isValid (ofAxes sqrt points xAxis yAxis zAxis) = false) ∧
      (((ProjInRange (other.m_AxesScaled0.getNormalized sqrt) points ∧
            spread (other.m_AxesScaled0.getNormalized sqrt) points < EPS F) ∨
          (ProjInRange (other.m_AxesScaled1.getNormalized sqrt) points ∧
            spread (other.m_AxesScaled1.getNormalized sqrt) points < EPS F) ∨
          (ProjInRange (other.m_AxesScaled2.getNormalized sqrt) points ∧
            spread (other.m_AxesScaled2.getNormalized sqrt) points < EPS F)) →
        isValid (ofOther sqrt points other) = false)) ∧
    ((EPS F ≤ spread (xAxis.getNormalized sqrt) points ∧
        EPS F ≤ spread (yAxis.getNormalized sqrt) points ∧
        EPS F ≤ spread (zAxis.getNormalized sqrt) points →
      (isValid (ofAxes sqrt points xAxis yAxis zAxis) = true ↔
        ((Matrix3x3.ofRows (xAxis.getNormalized sqrt) (yAxis.getNormalized sqrt)
            (zAxis.getNormalized sqrt)).getTranspose.mulVec
          (minMaxValues (Matrix3x3.ofRows (xAxis.getNormalized sqrt)
            (yAxis.getNormalized sqrt) (zAxis.getNormalized sqrt)) points).1).x ≠ -FLT_MAX F ∧
        ((Matrix3x3.ofRows (xAxis.getNormalized sqrt) (yAxis.getNormalized sqrt)
            (zAxis.getNormalized sqrt)).getTranspose.mulVec
          (minMaxValues (Matrix3x3.ofRows (xAxis.getNormalized sqrt)
            (yAxis.getNormalized sqrt) (zAxis.getNormalized sqrt)) points).1).y ≠ -FLT_MAX F ∧
        ((Matrix3x3.ofRows (xAxis.getNormalized sqrt) (yAxis.getNormalized sqrt)
            (zAxis.getNormalized sqrt)).getTranspose.mulVec
          (minMaxValues (Matrix3x3.ofRows (xAxis.getNormalized sqrt)
            (yAxis.getNormalized sqrt) (zAxis.getNormalized sqrt)) points).1).z ≠ -FLT_MAX F)) ∧
      (EPS F ≤ spread (other.m_AxesScaled0.getNormalized sqrt) points ∧
        EPS F ≤ spread (other.m_AxesScaled1.getNormalized sqrt) points ∧
        EPS F ≤ spread (other.m_AxesScaled2.getNormalized sqrt) points →
      (isValid (ofOther sqrt points other) = true ↔
        ((Matrix3x3.ofRows (other.m_AxesScaled0.getNormalized sqrt)
            (other.m_AxesScaled1.getNormalized sqrt)
            (other.m_AxesScaled2.getNormalized sqrt)).getTranspose.mulVec
          (minMaxValues (Matrix3x3.ofRows (other.m_AxesScaled0.getNormalized sqrt)
            (other.m_AxesScaled1.getNormalized sqrt)
            (other.m_AxesScaled2.getNormalized sqrt)) points).1).x ≠ -FLT_MAX F ∧
        ((Matrix3x3.ofRows (other.m_AxesScaled0.getNormalized sqrt)
            (other.m_AxesScaled1.getNormalized sqrt)
            (other.m_AxesScaled2.getNormalized sqrt)).getTranspose.mulVec
          (minMaxValues (Matrix3x3.ofRows (other.m_AxesScaled0.getNormalized sqrt)
            (other.m_AxesScaled1.getNormalized sqrt)
            (other.m_AxesScaled2.getNormalized sqrt)) points).1).y ≠ -FLT_MAX F ∧
        ((Matrix3x3.ofRows (other.m_AxesScaled0.getNormalized sqrt)
            (other.m_AxesScaled1.getNormalized sqrt)
            (other.m_AxesScaled2.getNormalized sqrt)).getTranspose.mulVec
          (minMaxValues (Matrix3x3.ofRows (other.m_AxesScaled0.getNormalized sqrt)
            (other.m_AxesScaled1.getNormalized sqrt)
            (other.m_AxesScaled2.getNormalized sqrt)) points).1).z ≠ -FLT_MAX F))) := by
  have hsp : points.length < 2 → ∀ u : point3d F, spread u points < EPS F := by
    intro hlen u
    rw [spread_of_length_lt_two u points hlen]
    exact EPS_pos
  have hsmall : ∀ u0 u1 u2 : point3d F,
      ((ProjInRange u0 points ∧ spread u0 points < EPS F) ∨
        (ProjInRange u1 points ∧ spread u1 points < EPS F) ∨
        (ProjInRange u2 points ∧ spread u2 points < EPS F)) →
      isValid (computeAnchorAndExtentsForGivenNormalizedAxis ⟨⟨0, 0, 0⟩, u0, u1, u2⟩ points)
        = false :=
    fun u0 u1 u2 h => fit_invalid_of_small_spread ⟨0, 0, 0⟩ u0 u1 u2 points h
  have hfew : ∀ u0 u1 u2 : point3d F, points.length < 2 →
      (ProjInRange u0 points ∨ ProjInRange u1 points ∨ ProjInRange u2 points) →
      isValid (computeAnchorAndExtentsForGivenNormalizedAxis ⟨⟨0, 0, 0⟩, u0, u1, u2⟩ points)
        = false := by
    intro u0 u1 u2 hlen hr
    apply hsmall
    rcases hr with h | h | h
    · exact Or.inl ⟨h, hsp hlen _⟩
    · exact Or.inr (Or.inl ⟨h, hsp hlen _⟩)
    · exact Or.inr (Or.inr ⟨h, hsp hlen _⟩)
  have hlarge : ∀ u0 u1 u2 : point3d F,
      (EPS F ≤ spread u0 points ∧ EPS F ≤ spread u1 points ∧ EPS F ≤ spread u2 points) →
      (isValid (computeAnchorAndExtentsForGivenNormalizedAxis ⟨⟨0, 0, 0⟩, u0, u1, u2⟩ points)
          = true ↔
        ((Matrix3x3.ofRows u0 u1 u2).getTranspose.mulVec
          (minMaxValues (Matrix3x3.ofRows u0 u1 u2) points).1).x ≠ -FLT_MAX F ∧
        ((Matrix3x3.ofRows u0 u1 u2).getTranspose.mulVec
          (minMaxValues (Matrix3x3.ofRows u0 u1 u2) points).1).y ≠ -FLT_MAX F ∧
        ((Matrix3x3.ofRows u0 u1 u2).getTranspose.mulVec
          (minMaxValues (Matrix3x3.ofRows u0 u1 u2) points).1).z ≠ -FLT_MAX F) := by
    rintro u0 u1 u2 ⟨hs0, hs1, hs2⟩
    rw [fit_of_large_spread ⟨0, 0, 0⟩ u0 u1 u2 points hs0 hs1 hs2]
    simp only [isValid, fittedBox]
    split_ifs with h
    · simp only [Bool.false_eq_true, false_iff]
      tauto
    · simp only [true_iff]
      tauto
  exact ⟨fun hlen => ⟨hfew _ _ _ hlen, hfew _ _ _ hlen⟩, ⟨hsmall _ _ _, hsmall _ _ _⟩,
    hlarge _ _ _, hlarge _ _ _⟩

/-- The spreads of the points `(0, 0, 0)`, `(1, 1, 1)` on the normalized axes `(2, 0, 0)`,
`(0, 3, 0)`, `(0, 0, 4)` are all 1. -/
theorem twoPoints_spread :
    spread ((⟨2, 0, 0⟩ : point3d ℝ).getNormalized Real.sqrt) (twoPoints ℝ) = 1 ∧
    spread ((⟨0, 3, 0⟩ : point3d ℝ).getNormalized Real.sqrt) (twoPoints ℝ) = 1 ∧
    spread ((⟨0, 0, 4⟩ : point3d ℝ).getNormalized Real.sqrt) (twoPoints ℝ) = 1 := by
  simp only [spread, minProj, maxProj, twoPoints, List.foldl, point3d.getNormalized,
    point3d.length, point3d.dot, point3d.sdiv]
  norm_num [sqrt_four, sqrt_nine, sqrt_sixteen]

/-- C10 (amended) at concrete inputs: the single point `(1, 2, 3)` gives an invalid box; the
two points `(0, 0, 0)`, `(1, 1, 0)` have spread 0 on the normalized axis `(0, 0, 4)` and
give an invalid box; the two points `(0, 0, 0)`, `(1, 1, 1)` have spread 1 on each of the
normalized axes `(2, 0, 0)`, `(0, 3, 0)`, `(0, 0, 4)`, the anchor `(0, 0, 0)` has no
coordinate equal to `-FLT_MAX` and the box is valid. -/
theorem C10_fixed_axes_few_points_witness :
    (([⟨1, 2, 3⟩] : List (point3d ℝ)).length < 2 ∧
      ProjInRange ((⟨2, 0, 0⟩ : point3d ℝ).getNormalized Real.sqrt) [⟨1, 2, 3⟩] ∧
      isValid (ofAxes Real.sqrt [⟨1, 2, 3⟩] ⟨2, 0, 0⟩ ⟨0, 3, 0⟩ ⟨0, 0, 4⟩) = false ∧
      isValid (ofOther Real.sqrt [⟨1, 2, 3⟩] (sampleBox ℝ)) = false) ∧
    ((ProjInRange ((⟨0, 0, 4⟩ : point3d ℝ).getNormalized Real.sqrt) [⟨0, 0, 0⟩, ⟨1, 1, 0⟩] ∧
        spread ((⟨0, 0, 4⟩ : point3d ℝ).getNormalized Real.sqrt) [⟨0, 0, 0⟩, ⟨1, 1, 0⟩] <
          EPS ℝ) ∧
      isValid (ofAxes Real.sqrt [⟨0, 0, 0⟩, ⟨1, 1, 0⟩] ⟨2, 0, 0⟩ ⟨0, 3, 0⟩ ⟨0, 0, 4⟩) = false) ∧
    ((EPS ℝ ≤ spread ((⟨2, 0, 0⟩ : point3d ℝ).getNormalized Real.sqrt) (twoPoints ℝ) ∧
      EPS ℝ ≤ spread ((⟨0, 3, 0⟩ : point3d ℝ).getNormalized Real.sqrt) (twoPoints ℝ) ∧
      EPS ℝ ≤ spread ((⟨0, 0, 4⟩ : point3d ℝ).getNormalized Real.sqrt) (twoPoints ℝ)) ∧
      isValid (ofAxes Real.sqrt (twoPoints ℝ) ⟨2, 0, 0⟩ ⟨0, 3, 0⟩ ⟨0, 0, 4⟩) = true) :=
  have h : ProjInRange ((⟨2, 0, 0⟩ : point3d ℝ).getNormalized Real.sqrt) [⟨1, 2, 3⟩] := by
    simp only [ProjInRange, minProj, maxProj, List.foldl, point3d.getNormalized, point3d.length,
      point3d.dot, point3d.sdiv, FLT_MAX]
    norm_num [sqrt_four]
  have h2 : EPS ℝ ≤ spread ((⟨2, 0, 0⟩ : point3d ℝ).getNormalized Real.sqrt) (twoPoints ℝ) ∧
      EPS ℝ ≤ spread ((⟨0, 3, 0⟩ : point3d ℝ).getNormalized Real.sqrt) (twoPoints ℝ) ∧
      EPS ℝ ≤ spread ((⟨0, 0, 4⟩ : point3d ℝ).getNormalized Real.sqrt) (twoPoints ℝ) := by
    simp only [twoPoints_spread, EPS]
    norm_num
  have ha : ((Matrix3x3.ofRows ((⟨2, 0, 0⟩ : point3d ℝ).getNormalized Real.sqrt)
        ((⟨0, 3, 0⟩ : point3d ℝ).getNormalized Real.sqrt)
        ((⟨0, 0, 4⟩ : point3d ℝ).getNormalized Real.sqrt)).getTranspose.mulVec
      (minMaxValues (Matrix3x3.ofRows ((⟨2, 0, 0⟩ : point3d ℝ).getNormalized Real.sqrt)
        ((⟨0, 3, 0⟩ : point3d ℝ).getNormalized Real.sqrt)
        ((⟨0, 0, 4⟩ : point3d ℝ).getNormalized Real.sqrt)) (twoPoints ℝ)).1) = ⟨0, 0, 0⟩ := by
    simp only [twoPoints, minMaxValues, minMaxStep, List.foldl, Matrix3x3.ofRows,
      Matrix3x3.mulVec, Matrix3x3.getTranspose, point3d.getNormalized, point3d.length,
      point3d.dot, point3d.sdiv, FLT_MAX]
    norm_num [sqrt_four, sqrt_nine, sqrt_sixteen]
  have hF : (0 : ℝ) ≠ -FLT_MAX ℝ := by
    simp only [FLT_MAX]
    norm_num
  have h3 : ProjInRange ((⟨0, 0, 4⟩ : point3d ℝ).getNormalized Real.sqrt)
        [⟨0, 0, 0⟩, ⟨1, 1, 0⟩] ∧
      spread ((⟨0, 0, 4⟩ : point3d ℝ).getNormalized Real.sqrt) [⟨0, 0, 0⟩, ⟨1, 1, 0⟩] <
        EPS ℝ := by
    simp only [ProjInRange, spread, minProj, maxProj, List.foldl, point3d.getNormalized,
      point3d.length, point3d.dot, point3d.sdiv, FLT_MAX, EPS]
    norm_num [sqrt_sixteen]
  ⟨⟨by simp, h,
      ((C10_fixed_axes_few_points Real.sqrt [⟨1, 2, 3⟩] ⟨2, 0, 0⟩ ⟨0, 3, 0⟩ ⟨0, 0, 4⟩
        (sampleBox ℝ)).1 (by simp)).1 (Or.inl h),
      ((C10_fixed_axes_few_points Real.sqrt [⟨1, 2, 3⟩] ⟨2, 0, 0⟩ ⟨0, 3, 0⟩ ⟨0, 0, 4⟩
        (sampleBox ℝ)).1 (by simp)).2 (Or.inl h)⟩,
    ⟨h3, (C10_fixed_axes_few_points Real.sqrt [⟨0, 0, 0⟩, ⟨1, 1, 0⟩] ⟨2, 0, 0⟩ ⟨0, 3, 0⟩
      ⟨0, 0, 4⟩ (sampleBox ℝ)).2.1.1 (Or.inr (Or.inr h3))⟩,
    h2,
    ((C10_fixed_axes_few_points Real.sqrt (twoPoints ℝ) ⟨2, 0, 0⟩ ⟨0, 3, 0⟩ ⟨0, 0, 4⟩
      (sampleBox ℝ)).2.2.1 h2).mpr (by rw [ha]; exact ⟨hF, hF, hF⟩)⟩

theorem sqrt_twentyfive : Real.sqrt 25 = 5 := by
  rw [show (25 : ℝ) = 5 * 5 by norm_num]
  exact Real.sqrt_mul_self (by norm_num)

theorem sqrt_fortynine : Real.sqrt 49 = 7 := by
  rw [show (49 : ℝ) = 7 * 7 by norm_num]
  exact Real.sqrt_mul_self (by norm_num)

/-- C7 fails on the code: `computeFromPCA` never assigns the axes (the call of the eigen
solver is commented out), it fits the points to the normalized axes the box had before.
The unit cube transformed by `skewMatrix` has the axes `(1, 0, 0)`, `(-3, 4, 0)`,
`(0, 0, 1)`; `computeFromPCA` on it with the four non-coplanar points `tetraPoints` passes
the three `assert`s, returns a valid box with axes `(1, 0, 0)`, `(-21/25, 28/25, 0)`,
`(0, 0, 1)`, and the unit directions of the first two axes have dot product `-3/5`, whose
absolute value exceeds `1e-3`. -/
theorem C7_computeFromPCA_keeps_skew_axes :
    transform (unitBox ℝ) (skewMatrix ℝ) = skewBox ℝ ∧
    4 ≤ (tetraPoints ℝ).length ∧
    point3d.dot (((⟨1, 0, 0⟩ : point3d ℝ).sub ⟨0, 0, 0⟩).cross
      ((⟨0, 1, 0⟩ : point3d ℝ).sub ⟨0, 0, 0⟩)) ((⟨0, 0, 1⟩ : point3d ℝ).sub ⟨0, 0, 0⟩) ≠ 0 ∧
    axesAssert (⟨⟨0, 0, 0⟩, (skewBox ℝ).m_AxesScaled0.getNormalized Real.sqrt,
      (skewBox ℝ).m_AxesScaled1.getNormalized Real.sqrt,
      (skewBox ℝ).m_AxesScaled2.getNormalized Real.sqrt⟩ : ObjectOrientedBoundingBox ℝ) ∧
    computeFromPCA Real.sqrt (skewBox ℝ) (tetraPoints ℝ) =
      ⟨⟨9 / 25, -12 / 25, 0⟩, ⟨1, 0, 0⟩, ⟨-21 / 25, 28 / 25, 0⟩, ⟨0, 0, 1⟩⟩ ∧
    isValid (computeFromPCA Real.sqrt (skewBox ℝ) (tetraPoints ℝ)) = true ∧
    point3d.dot
      ((computeFromPCA Real.sqrt (skewBox ℝ) (tetraPoints ℝ)).m_AxesScaled0.getNormalized Real.sqrt)
      ((computeFromPCA Real.sqrt (skewBox ℝ) (tetraPoints ℝ)).m_AxesScaled1.getNormalized Real.sqrt)
      = -3 / 5 ∧
    (1 / 1000 : ℝ) < |(-3 / 5 : ℝ)| := by
  have hc : computeFromPCA Real.sqrt (skewBox ℝ) (tetraPoints ℝ) =
      ⟨⟨9 / 25, -12 / 25, 0⟩, ⟨1, 0, 0⟩, ⟨-21 / 25, 28 / 25, 0⟩, ⟨0, 0, 1⟩⟩ := by
    simp only [computeFromPCA, skewBox, tetraPoints, List.length,
      computeAnchorAndExtentsForGivenNormalizedAxis, minMaxValues,
      minMaxStep, List.foldl, Matrix3x3.ofRows, Matrix3x3.mulVec, Matrix3x3.getTranspose,
      point3d.getNormalized, point3d.length, point3d.dot, point3d.sdiv, point3d.smul, FLT_MAX,
      EPS, setInvalid]
    norm_num [sqrt_twentyfive]
  refine ⟨?_, by simp [tetraPoints], ?_, ?_, hc, ?_, ?_, ?_⟩
  · simp only [transform, unitBox, skewMatrix, skewBox, Matrix4x4.mulPoint,
      Matrix4x4.getMatrix3x3, Matrix3x3.mulVec]
    norm_num
  · simp only [point3d.dot, point3d.cross, point3d.sub]
    norm_num
  · simp only [axesAssert, skewBox, point3d.getNormalized, point3d.length, point3d.dot,
      point3d.sdiv]
    norm_num [sqrt_twentyfive]
  · rw [hc]
    simp only [isValid, FLT_MAX]
    norm_num
  · rw [hc]
    simp only [point3d.getNormalized, point3d.length, point3d.dot, point3d.sdiv]
    norm_num [sqrt_fortynine, sqrt_twentyfive]
  · rw [abs_of_neg (by norm_num)]
    norm_num

end ObjectOrientedBoundingBox

theorem minProj_zero (points : List (point3d F)) : minProj (point3d.zero F) points = 0 := by
  by_cases hne : points = []
  · subst hne; rfl
  · obtain ⟨p, _, he⟩ := (minProj_spec (point3d.zero F) points hne).1
    rw [← he]
    simp [point3d.zero, point3d.dot]

theorem maxProj_zero (points : List (point3d F)) : maxProj (point3d.zero F) points = 0 := by
  by_cases hne : points = []
  · subst hne; rfl
  · obtain ⟨p, _, he⟩ := (maxProj_spec (point3d.zero F) points hne).1
    rw [← he]
    simp [point3d.zero, point3d.dot]

theorem point3d.getNormalized_zero (sqrt : F → F) :
    (point3d.zero F).getNormalized sqrt = point3d.zero F := by
  simp [point3d.getNormalized, point3d.sdiv, point3d.zero]

namespace ObjectOrientedBoundingBox

/-- A box whose first axis is the zero vector cannot be fitted: the result of
`computeFromPCA` is invalid for every point list. (In the embedding the zero vector
normalizes to itself and all projections are 0; in floating point the normalized axis is
not a number, `minValues` and `maxValues` keep their start values, the extent is negative,
and the box is set invalid as well.) -/
theorem computeFromPCAVector_invalid_of_zero_axis (sqrt : F → F)
    (b : ObjectOrientedBoundingBox F) (h0 : b.m_AxesScaled0 = point3d.zero F)
    (points : List (point3d F)) : isValid (computeFromPCAVector sqrt b points) = false := by
  unfold computeFromPCAVector computeFromPCA
  split_ifs with h
  · exact isValid_setInvalid b
  · apply fit_invalid_of_small_spread
    left
    rw [h0, point3d.getNormalized_zero]
    have hF := @FLT_MAX_pos F _
    refine ⟨⟨?_, ?_⟩, ?_⟩
    · rw [minProj_zero]; exact hF.le
    · rw [maxProj_zero]; linarith
    · rw [spread, minProj_zero, maxProj_zero, sub_zero]; exact EPS_pos

/-- When the default-constructed `point3d` is the zero vector, `intersect` of two distinct
box objects never returns a valid box: the local `res` keeps its zero axes, because
`computeFromPCA` does not assign them. -/
theorem intersect_invalid_of_zero_raw (sqrt : F → F) (raw a b : ObjectOrientedBoundingBox F)
    (h0 : raw.m_AxesScaled0 = point3d.zero F) :
    isValid (intersect sqrt false raw a b) = false := by
  have hr : (ctorDefault raw).m_AxesScaled0 = point3d.zero F := h0
  simp only [intersect, Bool.false_eq_true, if_false]
  split_ifs with h1 h2
  · exact isValid_setInvalid raw
  · rw [computeFromPCAVector_invalid_of_zero_axis sqrt _ hr] at h2
    exact absurd h2 (by simp)
  · exact computeFromPCAVector_invalid_of_zero_axis sqrt _ hr _

end ObjectOrientedBoundingBox

namespace ObjectOrientedBoundingBox

/-- C14: `interpolateLinear(A, B, 0)` is `A` and `interpolateLinear(A, B, 1)` is `B`, anchor
and all three scaled axes (for all boxes, in particular for boxes that share their axis
directions). -/
theorem C14_interpolateLinear_endpoints (A B : ObjectOrientedBoundingBox F) :
    ((interpolateLinear A B 0).m_Anchor = A.m_Anchor ∧
      (interpolateLinear A B 0).m_AxesScaled0 = A.m_AxesScaled0 ∧
      (interpolateLinear A B 0).m_AxesScaled1 = A.m_AxesScaled1 ∧
      (interpolateLinear A B 0).m_AxesScaled2 = A.m_AxesScaled2) ∧
    ((interpolateLinear A B 1).m_Anchor = B.m_Anchor ∧
      (interpolateLinear A B 1).m_AxesScaled0 = B.m_AxesScaled0 ∧
      (interpolateLinear A B 1).m_AxesScaled1 = B.m_AxesScaled1 ∧
      (interpolateLinear A B 1).m_AxesScaled2 = B.m_AxesScaled2) := by
  have h0 : ∀ a b : point3d F, point3d.lerp a b 0 = a := by
    intro a b
    cases a
    simp [point3d.lerp, point3d.add, point3d.smul, point3d.sub]
  have h1 : ∀ a b : point3d F, point3d.lerp a b 1 = b := by
    intro a b
    cases b
    simp [point3d.lerp, point3d.add, point3d.smul, point3d.sub]
  simp only [interpolateLinear, h0, h1, and_self]

/-- C15: one `swapAxes()` moves the old `axes[1]` to `axes[0]`, the old `axes[2]` to
`axes[1]`, the old `axes[0]` to `axes[2]` and keeps the anchor; three of them restore the
box. -/
theorem C15_swapAxes_cycle {G : Type} (b : ObjectOrientedBoundingBox G) :
    swapAxes (swapAxes (swapAxes b)) = b ∧
    (swapAxes b).m_AxesScaled0 = b.m_AxesScaled1 ∧
    (swapAxes b).m_AxesScaled1 = b.m_AxesScaled2 ∧
    (swapAxes b).m_AxesScaled2 = b.m_AxesScaled0 ∧
    (swapAxes b).m_Anchor = b.m_Anchor := by
  cases b
  simp [swapAxes]

/-- C18 as stated fails in its second half: of the points `(1/2, 1/2, 1/2)` and
`(5, 5, 5)` the second one fails the containment test of the unit cube taken with `-eps`,
yet `outside(points, 2, eps)` is false, because the first one passes it. -/
theorem C18_counterexample :
    isInUnitCube ((getWorldToOOBB Real.sqrt (unitBox ℝ)).mulPoint ⟨5, 5, 5⟩) (-EPS ℝ) = false ∧
    isInUnitCube ((getWorldToOOBB Real.sqrt (unitBox ℝ)).mulPoint ⟨1 / 2, 1 / 2, 1 / 2⟩) (-EPS ℝ)
      = true ∧
    outsidePoints Real.sqrt (unitBox ℝ) [⟨1 / 2, 1 / 2, 1 / 2⟩, ⟨5, 5, 5⟩] (EPS ℝ) = false := by
  simp only [outsidePoints, List.all_cons, List.all_nil, getWorldToOOBB, unitBox, isInUnitCube,
    Matrix4x4.mulPoint, Matrix4x4.ofMatrix3x3, Matrix3x3.ofRows, Matrix3x3.mulVec, point3d.sdiv,
    point3d.neg, point3d.length, point3d.dot, EPS]
  norm_num

/-- C18 (amended): `contains(points, n, eps)` is true iff every point has its three
normalized local coordinates in `[-eps, 1 + eps]`; `outside(points, n, eps)` is true iff
every point fails the containment test taken with `-eps`, that is, no point has its three
normalized local coordinates in `[eps, 1 - eps]`. -/
theorem C18_contains_outside_points (sqrt : F → F) (b : ObjectOrientedBoundingBox F)
    (points : List (point3d F)) (eps : F) :
    (containsPoints sqrt b points eps = true ↔
      ∀ p ∈ points,
        -eps ≤ ((getWorldToOOBB sqrt b).mulPoint p).x ∧
        ((getWorldToOOBB sqrt b).mulPoint p).x ≤ 1 + eps ∧
        -eps ≤ ((getWorldToOOBB sqrt b).mulPoint p).y ∧
        ((getWorldToOOBB sqrt b).mulPoint p).y ≤ 1 + eps ∧
        -eps ≤ ((getWorldToOOBB sqrt b).mulPoint p).z ∧
        ((getWorldToOOBB sqrt b).mulPoint p).z ≤ 1 + eps) ∧
    (outsidePoints sqrt b points eps = true ↔
      ∀ p ∈ points,
        ¬(eps ≤ ((getWorldToOOBB sqrt b).mulPoint p).x ∧
          ((getWorldToOOBB sqrt b).mulPoint p).x ≤ 1 - eps ∧
          eps ≤ ((getWorldToOOBB sqrt b).mulPoint p).y ∧
          ((getWorldToOOBB sqrt b).mulPoint p).y ≤ 1 - eps ∧
          eps ≤ ((getWorldToOOBB sqrt b).mulPoint p).z ∧
          ((getWorldToOOBB sqrt b).mulPoint p).z ≤ 1 - eps)) := by
  constructor
  · simp only [containsPoints, List.all_eq_true, isInUnitCube, ge_iff_le,
      ite_eq_left_iff, Bool.false_eq_true, imp_false, not_not]
  · simp only [outsidePoints, List.all_eq_true, isInUnitCube, ge_iff_le, neg_neg,
      Bool.not_eq_true', ite_eq_right_iff, Bool.true_eq_false, imp_false, sub_eq_add_neg]

/-- Applying a matrix to `p + v` gives the image of `p` plus the 3x3 part applied to `v`. -/
theorem mulPoint_add (M : Matrix4x4 F) (p v : point3d F) :
    M.mulPoint (p.add v) = (M.mulPoint p).add (M.getMatrix3x3.mulVec v) := by
  simp only [Matrix4x4.mulPoint, Matrix4x4.getMatrix3x3, Matrix3x3.mulVec, point3d.add,
    point3d.mk.injEq]
  refine ⟨?_, ?_, ?_⟩ <;> ring

/-- C20: for an affine matrix `M`, the transformed box has the anchor `M * anchor` and the
axes `L * axes[i]` with `L` the 3x3 part of `M`; its 8 corners are the images under `M` of
the corners of the box, and its `getOOBBToWorld()` is `M * getOOBBToWorld()`. -/
theorem C20_transform (b : ObjectOrientedBoundingBox F) (M : Matrix4x4 F)
    (hM : M.isAffine = true) :
    (transform b M).m_Anchor = M.mulPoint b.m_Anchor ∧
    ((transform b M).m_AxesScaled0 = M.getMatrix3x3.mulVec b.m_AxesScaled0 ∧
      (transform b M).m_AxesScaled1 = M.getMatrix3x3.mulVec b.m_AxesScaled1 ∧
      (transform b M).m_AxesScaled2 = M.getMatrix3x3.mulVec b.m_AxesScaled2) ∧
    getCornerPoints (transform b M) = (getCornerPoints b).map M.mulPoint ∧
    getOOBBToWorld (transform b M) = M.mul (getOOBBToWorld b) := by
  refine ⟨rfl, ⟨rfl, rfl, rfl⟩, ?_, ?_⟩
  · simp only [getCornerPoints, transform, List.map, mulPoint_add]
  · simp only [Matrix4x4.isAffine, decide_eq_true_eq] at hM
    obtain ⟨h0, h1, h2, h3⟩ := hM
    simp only [getOOBBToWorld, transform, Matrix4x4.mul, Matrix4x4.mulPoint,
      Matrix4x4.getMatrix3x3, Matrix3x3.mulVec, h0, h1, h2, h3, Matrix4x4.mk.injEq]
    refine ⟨?_, ?_, ?_, ?_, ?_, ?_, ?_, ?_, ?_, ?_, ?_, ?_, ?_, ?_, ?_, ?_⟩ <;> ring

/-- C20 at a concrete input: the sample box and a shear with a translation. -/
theorem C20_transform_witness :
    (sampleAffine ℝ).isAffine = true ∧
    getCornerPoints (transform (sampleBox ℝ) (sampleAffine ℝ)) =
      (getCornerPoints (sampleBox ℝ)).map (sampleAffine ℝ).mulPoint ∧
    getOOBBToWorld (transform (sampleBox ℝ) (sampleAffine ℝ)) =
      (sampleAffine ℝ).mul (getOOBBToWorld (sampleBox ℝ)) :=
  have h : (sampleAffine ℝ).isAffine = true := by
    simp [Matrix4x4.isAffine, sampleAffine]
  ⟨h, (C20_transform (sampleBox ℝ) (sampleAffine ℝ) h).2.2.1,
    (C20_transform (sampleBox ℝ) (sampleAffine ℝ) h).2.2.2⟩

end ObjectOrientedBoundingBox

namespace ObjectOrientedBoundingBox

/-- One summand of the radius of `planeDistance`: for an axis `a` of positive length `e`,
`e * |n · (a / e)| = |n · a|`. -/
theorem radius_term (n a : point3d F) {e : F} (he : 0 < e) :
    e * |n.dot (a.sdiv e)| = |n.dot a| := by
  have h : n.dot (a.sdiv e) = n.dot a / e := by
    simp only [point3d.dot, point3d.sdiv]
    field_simp
  rw [h, abs_div, abs_of_pos he]
  field_simp

/-- The value of `planeDistance`: the absolute distance of the center to the plane minus
half the sum of the absolute projections of the axes on the normal. -/
theorem planeDistance_eq {sqrt : F → F} (hs : IsSqrt sqrt) (b : ObjectOrientedBoundingBox F)
    (hn : axesNonzero b) (p : Plane F) :
    planeDistance sqrt b p =
      |p.distanceToPoint (getCenter b)| -
        (1 / 2) * (|p.getNormal.dot b.m_AxesScaled0| + |p.getNormal.dot b.m_AxesScaled1| +
          |p.getNormal.dot b.m_AxesScaled2|) := by
  simp only [planeDistance, getExtent, Plane.distanceToPointAbs]
  rw [radius_term _ _ (point3d.length_pos hs hn.1), radius_term _ _ (point3d.length_pos hs hn.2.1),
    radius_term _ _ (point3d.length_pos hs hn.2.2)]

/-- The signed distance of a corner to a plane: the signed distance of the center plus the
projections of the half axes, taken with the signs of the corner. -/
theorem distanceToPoint_cornerAt (b : ObjectOrientedBoundingBox F) (p : Plane F) (s0 s1 s2 : F) :
    p.distanceToPoint (cornerAt b s0 s1 s2) =
      p.distanceToPoint (getCenter b) + (s0 - 1 / 2) * p.getNormal.dot b.m_AxesScaled0 +
        (s1 - 1 / 2) * p.getNormal.dot b.m_AxesScaled1 +
        (s2 - 1 / 2) * p.getNormal.dot b.m_AxesScaled2 := by
  simp only [Plane.distanceToPoint, Plane.getNormal, cornerAt, getCenter, point3d.dot,
    point3d.add, point3d.smul]
  ring

/-- The 8 corners of `getCornerPoints` are the points `cornerAt` with coefficients 0 or 1. -/
theorem getCornerPoints_eq_cornerAt (b : ObjectOrientedBoundingBox F) :
    getCornerPoints b =
      [cornerAt b 0 0 0, cornerAt b 1 0 0, cornerAt b 1 1 0, cornerAt b 0 1 0,
       cornerAt b 0 0 1, cornerAt b 1 0 1, cornerAt b 1 1 1, cornerAt b 0 1 1] := by
  simp only [getCornerPoints, cornerAt, point3d.add, point3d.smul, mul_zero, mul_one, add_zero]

/-- When the absolute distance of the center exceeds the radius, a corner with coefficients
0 or 1 lies strictly on the side of the center. -/
theorem corner_side (d x0 x1 x2 s0 s1 s2 : F)
    (h0 : s0 = 0 ∨ s0 = 1) (h1 : s1 = 0 ∨ s1 = 1) (h2 : s2 = 0 ∨ s2 = 1)
    (h : 0 < |d| - (1 / 2) * (|x0| + |x1| + |x2|)) :
    (0 < d → 0 < d + (s0 - 1 / 2) * x0 + (s1 - 1 / 2) * x1 + (s2 - 1 / 2) * x2) ∧
    (d < 0 → d + (s0 - 1 / 2) * x0 + (s1 - 1 / 2) * x1 + (s2 - 1 / 2) * x2 < 0) := by
  have a0 := le_abs_self x0
  have a1 := le_abs_self x1
  have a2 := le_abs_self x2
  have b0 := neg_abs_le x0
  have b1 := neg_abs_le x1
  have b2 := neg_abs_le x2
  constructor
  · intro hd
    rw [abs_of_pos hd] at h
    rcases h0 with rfl | rfl <;> rcases h1 with rfl | rfl <;> rcases h2 with rfl | rfl <;>
      linarith
  · intro hd
    rw [abs_of_neg hd] at h
    rcases h0 with rfl | rfl <;> rcases h1 with rfl | rfl <;> rcases h2 with rfl | rfl <;>
      linarith

/-- C16 as stated fails when the center lies on the negative side of the plane: for the
unit cube and the plane `x = 5` with unit normal `(1, 0, 0)` the signed distance of the
center is `-9/2` and the radius `1/2`, so the claimed value is `-5`, but `planeDistance`
returns `4`; the result is positive although all 8 corners lie on the negative side. -/
theorem C16_counterexample :
    point3d.dot (Plane.ofNormalPoint (⟨1, 0, 0⟩ : point3d ℝ) ⟨5, 0, 0⟩).getNormal
      (Plane.ofNormalPoint (⟨1, 0, 0⟩ : point3d ℝ) ⟨5, 0, 0⟩).getNormal = 1 ∧
    (Plane.ofNormalPoint (⟨1, 0, 0⟩ : point3d ℝ) ⟨5, 0, 0⟩).distanceToPoint (getCenter (unitBox ℝ))
      - (1 / 2) * (|point3d.dot (⟨1, 0, 0⟩ : point3d ℝ) (unitBox ℝ).m_AxesScaled0| +
          |point3d.dot (⟨1, 0, 0⟩ : point3d ℝ) (unitBox ℝ).m_AxesScaled1| +
          |point3d.dot (⟨1, 0, 0⟩ : point3d ℝ) (unitBox ℝ).m_AxesScaled2|) = -5 ∧
    planeDistance Real.sqrt (unitBox ℝ) (Plane.ofNormalPoint ⟨1, 0, 0⟩ ⟨5, 0, 0⟩) = 4 ∧
    ∀ c ∈ getCornerPoints (unitBox ℝ),
      (Plane.ofNormalPoint (⟨1, 0, 0⟩ : point3d ℝ) ⟨5, 0, 0⟩).distanceToPoint c < 0 := by
  refine ⟨?_, ?_, ?_, ?_⟩
  · simp [Plane.ofNormalPoint, Plane.getNormal, point3d.dot]
  · simp only [Plane.ofNormalPoint, Plane.distanceToPoint, getCenter, unitBox, point3d.dot,
      point3d.add, point3d.smul]
    norm_num
  · simp only [planeDistance, getExtent, Plane.distanceToPointAbs, Plane.ofNormalPoint,
      Plane.distanceToPoint, Plane.getNormal, getCenter, unitBox, point3d.dot, point3d.add,
      point3d.smul, point3d.sdiv, point3d.length]
    norm_num
    rw [show |(9 : ℝ) / 2| = 9 / 2 from abs_of_pos (by norm_num)]
    norm_num
  · intro c hc
    simp only [getCornerPoints, unitBox, point3d.add, List.mem_cons, List.mem_singleton,
      List.not_mem_nil, or_false] at hc
    rcases hc with rfl | rfl | rfl | rfl | rfl | rfl | rfl | rfl <;>
      simp only [Plane.ofNormalPoint, Plane.distanceToPoint, point3d.dot] <;> norm_num

/-- C16 (amended): for a box with non-zero axes, `planeDistance(plane)` is the absolute
value of the signed distance of `getCenter()` to the plane minus the radius
`r = 0.5 * (|n·axes[0]| + |n·axes[1]| + |n·axes[2]|)`; a positive result means that all 8
corners lie strictly on one side of the plane, the side of the center. -/
theorem C16_planeDistance {sqrt : F → F} (hs : IsSqrt sqrt) (b : ObjectOrientedBoundingBox F)
    (hn : axesNonzero b) (p : Plane F) :
    planeDistance sqrt b p =
      |p.distanceToPoint (getCenter b)| -
        (1 / 2) * (|p.getNormal.dot b.m_AxesScaled0| + |p.getNormal.dot b.m_AxesScaled1| +
          |p.getNormal.dot b.m_AxesScaled2|) ∧
    (0 < planeDistance sqrt b p →
      ∀ c ∈ getCornerPoints b,
        (0 < p.distanceToPoint (getCenter b) → 0 < p.distanceToPoint c) ∧
        (p.distanceToPoint (getCenter b) < 0 → p.distanceToPoint c < 0)) := by
  refine ⟨planeDistance_eq hs b hn p, ?_⟩
  intro hpos c hc
  rw [planeDistance_eq hs b hn p] at hpos
  rw [getCornerPoints_eq_cornerAt] at hc
  simp only [List.mem_cons, List.mem_singleton, List.not_mem_nil, or_false] at hc
  rcases hc with rfl | rfl | rfl | rfl | rfl | rfl | rfl | rfl <;>
    rw [distanceToPoint_cornerAt] <;>
    apply corner_side <;> first | exact hpos | exact Or.inl rfl | exact Or.inr rfl

/-- C16 (amended) at a concrete input: the sample box and the plane `x = 5` with the normal
`(1, 0, 0)`. -/
theorem C16_planeDistance_witness :
    IsSqrt Real.sqrt ∧ axesNonzero (sampleBox ℝ) ∧
    planeDistance Real.sqrt (sampleBox ℝ) (Plane.ofNormalPoint ⟨1, 0, 0⟩ ⟨5, 0, 0⟩) =
      |(Plane.ofNormalPoint (⟨1, 0, 0⟩ : point3d ℝ) ⟨5, 0, 0⟩).distanceToPoint
          (getCenter (sampleBox ℝ))| -
        (1 / 2) * (|(Plane.ofNormalPoint (⟨1, 0, 0⟩ : point3d ℝ) ⟨5, 0, 0⟩).getNormal.dot
            (sampleBox ℝ).m_AxesScaled0| +
          |(Plane.ofNormalPoint (⟨1, 0, 0⟩ : point3d ℝ) ⟨5, 0, 0⟩).getNormal.dot
            (sampleBox ℝ).m_AxesScaled1| +
          |(Plane.ofNormalPoint (⟨1, 0, 0⟩ : point3d ℝ) ⟨5, 0, 0⟩).getNormal.dot
            (sampleBox ℝ).m_AxesScaled2|) :=
  have hn : axesNonzero (sampleBox ℝ) := by
    simp [axesNonzero, sampleBox, point3d.zero]
  ⟨isSqrt_real, hn, (C16_planeDistance isSqrt_real (sampleBox ℝ) hn _).1⟩

end ObjectOrientedBoundingBox

namespace ObjectOrientedBoundingBox

/-- The square root of 3 is positive. -/
theorem sqrt_three_pos : 0 < Real.sqrt 3 := Real.sqrt_pos.mpr (by norm_num)

/-- C19 fails on the code for `zAxis = (1, 1, -1)`: the first coordinate of the normalized
axis `z` is not zero, so `v = (z.z, -z.x, z.y) = -z`, and `v0 = v ^ z` and `v1 = v0 ^ z` are
the zero vector; their length is 0, `normalize()` divides by it, and the result is not a
unit vector. -/
theorem C19_zAxis_frame_degenerate :
    (⟨1, 1, -1⟩ : point3d ℝ) ≠ point3d.zero ℝ ∧
    zAxisPermuted ((⟨1, 1, -1⟩ : point3d ℝ).getNormalized Real.sqrt) =
      ((⟨1, 1, -1⟩ : point3d ℝ).getNormalized Real.sqrt).neg ∧
    zAxisCross Real.sqrt (⟨1, 1, -1⟩ : point3d ℝ) = (⟨0, 0, 0⟩, ⟨0, 0, 0⟩) ∧
    (zAxisCross Real.sqrt (⟨1, 1, -1⟩ : point3d ℝ)).1.length Real.sqrt = 0 ∧
    point3d.dot (zAxisFrame Real.sqrt (⟨1, 1, -1⟩ : point3d ℝ)).1
      (zAxisFrame Real.sqrt (⟨1, 1, -1⟩ : point3d ℝ)).1 ≠ 1 := by
  have h3 := sqrt_three_pos
  have hz : (⟨1, 1, -1⟩ : point3d ℝ).getNormalized Real.sqrt =
      ⟨1 / Real.sqrt 3, 1 / Real.sqrt 3, -1 / Real.sqrt 3⟩ := by
    simp only [point3d.getNormalized, point3d.sdiv, point3d.length, point3d.dot]
    norm_num
  have hx : (1 : ℝ) / Real.sqrt 3 ≠ 0 := by positivity
  have hv : zAxisPermuted ((⟨1, 1, -1⟩ : point3d ℝ).getNormalized Real.sqrt) =
      ((⟨1, 1, -1⟩ : point3d ℝ).getNormalized Real.sqrt).neg := by
    rw [hz]
    simp only [zAxisPermuted, if_pos hx, point3d.neg, point3d.mk.injEq]
    refine ⟨?_, ?_, ?_⟩ <;> field_simp
  have hc : zAxisCross Real.sqrt (⟨1, 1, -1⟩ : point3d ℝ) = (⟨0, 0, 0⟩, ⟨0, 0, 0⟩) := by
    simp only [zAxisCross, hv]
    rw [hz]
    simp only [point3d.cross, point3d.neg, Prod.mk.injEq, point3d.mk.injEq]
    refine ⟨⟨?_, ?_, ?_⟩, ?_, ?_, ?_⟩ <;> ring
  refine ⟨by simp [point3d.zero], hv, hc, ?_, ?_⟩
  · rw [hc]
    simp [point3d.length, point3d.dot]
  · simp only [zAxisFrame, hc]
    simp [point3d.getNormalized, point3d.sdiv, point3d.dot]

/-- The vector `v ^ z` of the constructor with a given z axis vanishes exactly for the
non-zero `z` with `z.y = z.x` and `z.z = -z.x`. -/
theorem zAxisPermuted_cross_eq_zero_iff (z : point3d F) (hz : z ≠ point3d.zero F) :
    (zAxisPermuted z).cross z = point3d.zero F ↔ (z.y = z.x ∧ z.z = -z.x) := by
  obtain ⟨x, y, w⟩ := z
  simp only [point3d.zero, point3d.mk.injEq, ne_eq, not_and] at hz
  simp only [zAxisPermuted]
  by_cases hx : x = 0
  · subst hx
    by_cases hy : y = 0
    · subst hy
      have hw : w ≠ 0 := hz rfl rfl
      simp only [ne_eq, not_true_eq_false, if_false, point3d.cross, point3d.zero,
        point3d.mk.injEq]
      constructor
      · rintro ⟨_, h2, _⟩
        exfalso
        have : w * w = 0 := by linarith
        exact hw (mul_self_eq_zero.mp this)
      · rintro ⟨_, h2⟩
        exact absurd (by simpa using h2) hw
    · simp only [ne_eq, not_true_eq_false, if_false, hy, not_false_eq_true, if_true,
        point3d.cross, point3d.zero, point3d.mk.injEq]
      constructor
      · rintro ⟨h1, _, _⟩
        exfalso
        have : y * y = 0 := by linarith
        exact hy (mul_self_eq_zero.mp this)
      · rintro ⟨h1, _⟩
        exact h1.elim
  · simp only [ne_eq, hx, not_false_eq_true, if_true, point3d.cross, point3d.zero,
      point3d.mk.injEq]
    constructor
    · rintro ⟨h1, h2, h3⟩
      have e1 : (x - y) * (x * x + x * y + y * y) = 0 := by
        linear_combination x * h3 + y * h1
      have e2 : (x + w) * (x * x - x * w + w * w) = 0 := by
        linear_combination x * h3 - w * h2
      have q1 : x * x + x * y + y * y ≠ 0 := by
        intro h
        apply hx
        nlinarith [mul_self_nonneg (x + y), mul_self_nonneg x, mul_self_nonneg y]
      have q2 : x * x - x * w + w * w ≠ 0 := by
        intro h
        apply hx
        nlinarith [mul_self_nonneg (x - w), mul_self_nonneg x, mul_self_nonneg w]
      rcases mul_eq_zero.mp e1 with h | h
      · rcases mul_eq_zero.mp e2 with h' | h'
        · exact ⟨by linarith, by linarith⟩
        · exact absurd h' q2
      · exact absurd h q1
    · rintro ⟨rfl, rfl⟩
      refine ⟨?_, ?_, ?_⟩ <;> ring

end ObjectOrientedBoundingBox

namespace ObjectOrientedBoundingBox

/-- A point with normalized local coordinates `t0`, `t1`, `t2` in a box with orthogonal
non-zero axes is `anchor + t0 * axes[0] + t1 * axes[1] + t2 * axes[2]`. -/
theorem eq_cornerAt_of_coords {sqrt : F → F} (hs : IsSqrt sqrt) (b : ObjectOrientedBoundingBox F)
    (hn : axesNonzero b) (ho : axesOrthogonal b) (q : point3d F) :
    q = cornerAt b ((getWorldToOOBB sqrt b).mulPoint q).x ((getWorldToOOBB sqrt b).mulPoint q).y
      ((getWorldToOOBB sqrt b).mulPoint q).z := by
  have d0 := (point3d.dot_self_pos hn.1).ne.symm
  have d1 := (point3d.dot_self_pos hn.2.1).ne.symm
  have d2 := (point3d.dot_self_pos hn.2.2).ne.symm
  obtain ⟨h01, h12, h20⟩ := ho
  rw [getWorldToOOBB_mulPoint hs b hn]
  obtain ⟨A, a, bb, c⟩ := b
  obtain ⟨qx, qy, qz⟩ := q
  simp only [point3d.dot] at d0 d1 d2 h01 h12 h20
  obtain ⟨⟨g00, g01, g02⟩, g11, g12, g22⟩ :=
    gram_complete a.x a.y a.z bb.x bb.y bb.z c.x c.y c.z _ _ _ rfl rfl rfl d0 d1 d2 h01 h12 h20
  simp only [cornerAt, point3d.dot, point3d.sub, point3d.add, point3d.smul, point3d.mk.injEq]
  refine ⟨?_, ?_, ?_⟩
  · linear_combination (-(qx - A.x)) * g00 - (qy - A.y) * g01 - (qz - A.z) * g02
  · linear_combination (-(qx - A.x)) * g01 - (qy - A.y) * g11 - (qz - A.z) * g12
  · linear_combination (-(qx - A.x)) * g02 - (qy - A.y) * g12 - (qz - A.z) * g22

/-- A bound used for the radius of `planeDistance`: `(t - 1/2) * x ≤ |x| / 2` for `t` in the
unit interval. -/
theorem half_term_bound {t x : F} (h0 : 0 ≤ t) (h1 : t ≤ 1) :
    |(t - 1 / 2) * x| ≤ (1 / 2) * |x| := by
  rw [abs_mul]
  exact mul_le_mul_of_nonneg_right (abs_le.mpr ⟨by linarith, by linarith⟩) (abs_nonneg x)

end ObjectOrientedBoundingBox

namespace ObjectOrientedBoundingBox

end ObjectOrientedBoundingBox

namespace ObjectOrientedBoundingBox

/-- The matrix `getWorldToOOBB()` of the unit cube maps every point to itself. -/
theorem unitBox_worldToOOBB (p : point3d ℝ) :
    (getWorldToOOBB Real.sqrt (unitBox ℝ)).mulPoint p = p := by
  simp only [getWorldToOOBB, unitBox, Matrix4x4.mulPoint, Matrix4x4.ofMatrix3x3, Matrix3x3.ofRows,
    Matrix3x3.mulVec, point3d.sdiv, point3d.neg, point3d.length, point3d.dot]
  cases p
  norm_num

end ObjectOrientedBoundingBox

namespace ObjectOrientedBoundingBox

/-- The early reject of `intersect` is not taken for the unit cube and the unit cube moved
by `1/2` along `x`: the centers are `1/2` apart and each diagonal has length `√3`. -/
theorem no_early_reject_unit_shifted :
    ¬(((getCenter (unitBox ℝ)).sub (getCenter (shiftedUnitBox ℝ))).length Real.sqrt >
      (1 / 2) * (getDiagonalLength Real.sqrt (unitBox ℝ) +
        getDiagonalLength Real.sqrt (shiftedUnitBox ℝ))) := by
  have h3 : (1 : ℝ) ≤ Real.sqrt 3 := by
    rw [show (1 : ℝ) = Real.sqrt 1 by simp]
    exact Real.sqrt_le_sqrt (by norm_num)
  have hc : ((getCenter (unitBox ℝ)).sub (getCenter (shiftedUnitBox ℝ))).length Real.sqrt
      = 1 / 2 := by
    simp only [getCenter, unitBox, shiftedUnitBox, point3d.add, point3d.sub, point3d.smul,
      point3d.length, point3d.dot]
    norm_num [sqrt_four]
  have hd1 : getDiagonalLength Real.sqrt (unitBox ℝ) = Real.sqrt 3 := by
    simp only [getDiagonalLength, unitBox, point3d.add, point3d.length, point3d.dot]
    norm_num
  have hd2 : getDiagonalLength Real.sqrt (shiftedUnitBox ℝ) = Real.sqrt 3 := by
    simp only [getDiagonalLength, shiftedUnitBox, point3d.add, point3d.length, point3d.dot]
    norm_num
  rw [hc, hd1, hd2]
  intro h
  linarith

/-- The unit cube has at least 4 contact points with the unit cube moved by `1/2` along `x`:
the four corners of the second cube with `x = 1/2`. -/
theorem four_contacts_unit_shifted :
    4 ≤ (computeContactPoints Real.sqrt (unitBox ℝ) (shiftedUnitBox ℝ) ++
      computeContactPoints Real.sqrt (shiftedUnitBox ℝ) (unitBox ℝ)).length := by
  have h : ((((getCornerPoints (shiftedUnitBox ℝ)).map
      (getWorldToOOBB Real.sqrt (unitBox ℝ)).mulPoint)).filter
        (fun q => isInUnitCube q (EPS ℝ))).length = 4 := by
    simp only [getCornerPoints, shiftedUnitBox, List.map, unitBox_worldToOOBB, point3d.add,
      isInUnitCube, EPS]
    norm_num [List.filter]
  simp only [computeContactPoints, List.length_append, List.length_map, h]
  omega

/-- C11 fails on the code: for the unit cube `A` at the origin and the unit cube `B` moved by
`1/2` along `x`, `intersect` is not rejected early and finds at least 4 contact points, but
`computeFromPCA` does not derive axes from them (the call of the eigen solver is commented
out): the box is fitted to the default-constructed axes of the local `res`. When these are
zero vectors all extents are 0 and `A.intersect(B)` is not valid. -/
theorem C11_intersect_shifted_cubes_invalid :
    ¬(((getCenter (unitBox ℝ)).sub (getCenter (shiftedUnitBox ℝ))).length Real.sqrt >
      (1 / 2) * (getDiagonalLength Real.sqrt (unitBox ℝ) +
        getDiagonalLength Real.sqrt (shiftedUnitBox ℝ))) ∧
    4 ≤ (computeContactPoints Real.sqrt (unitBox ℝ) (shiftedUnitBox ℝ) ++
      computeContactPoints Real.sqrt (shiftedUnitBox ℝ) (unitBox ℝ)).length ∧
    intersect Real.sqrt false (zeroRaw ℝ) (unitBox ℝ) (shiftedUnitBox ℝ) =
      computeFromPCAVector Real.sqrt (ctorDefault (zeroRaw ℝ))
        (computeContactPoints Real.sqrt (unitBox ℝ) (shiftedUnitBox ℝ) ++
          computeContactPoints Real.sqrt (shiftedUnitBox ℝ) (unitBox ℝ)) ∧
    isValid (intersect Real.sqrt false (zeroRaw ℝ) (unitBox ℝ) (shiftedUnitBox ℝ)) = false := by
  have hz : (ctorDefault (zeroRaw ℝ)).m_AxesScaled0 = point3d.zero ℝ := rfl
  refine ⟨no_early_reject_unit_shifted, four_contacts_unit_shifted, ?_,
    intersect_invalid_of_zero_raw Real.sqrt (zeroRaw ℝ) _ _ rfl⟩
  simp only [intersect, Bool.false_eq_true, if_false, if_neg no_early_reject_unit_shifted,
    computeFromPCAVector_invalid_of_zero_axis Real.sqrt _ hz]

end ObjectOrientedBoundingBox

/-- The running minimum does not depend on the order of the list. -/
theorem runMin_perm {l1 l2 : List F} (h : l1.Perm l2) (init : F) :
    runMin init l1 = runMin init l2 := by
  unfold runMin
  refine h.foldl_eq' ?_ init
  intro x _ y _ z
  split_ifs <;> first | rfl | (exfalso; linarith) | (apply le_antisymm <;> linarith)

/-- The running maximum does not depend on the order of the list. -/
theorem runMax_perm {l1 l2 : List F} (h : l1.Perm l2) (init : F) :
    runMax init l1 = runMax init l2 := by
  unfold runMax
  refine h.foldl_eq' ?_ init
  intro x _ y _ z
  split_ifs <;> first | rfl | (exfalso; linarith) | (apply le_antisymm <;> linarith)

/-- An exact square root maps 0 to 0. -/
theorem sqrt_zero_of_isSqrt {sqrt : F → F} (hs : IsSqrt sqrt) : sqrt 0 = 0 := by
  have h := (hs 0 (le_refl 0)).2
  exact mul_self_eq_zero.mp h

/-- Moving the end of a vector along its own direction by `t ≥ 0` does not change its
direction. -/
theorem point3d.getNormalized_add_smul {sqrt : F → F} (hs : IsSqrt sqrt) (a : point3d F) {t : F}
    (ht : 0 ≤ t) :
    (a.add ((a.getNormalized sqrt).smul t)).getNormalized sqrt = a.getNormalized sqrt := by
  by_cases ha : a = point3d.zero F
  · subst ha
    simp [point3d.getNormalized, point3d.sdiv, point3d.zero, point3d.add, point3d.smul]
  · have hL := point3d.length_pos hs ha
    have hLL := point3d.length_mul_self hs a
    set L := a.length sqrt with hLdef
    have hk : 0 < 1 + t / L := by positivity
    have e : a.add ((a.getNormalized sqrt).smul t) = a.smul (1 + t / L) := by
      simp only [point3d.getNormalized, point3d.sdiv, point3d.add, point3d.smul, ← hLdef,
        point3d.mk.injEq]
      refine ⟨?_, ?_, ?_⟩ <;> field_simp <;> ring
    have hd : point3d.dot (a.smul (1 + t / L)) (a.smul (1 + t / L)) =
        ((1 + t / L) * L) * ((1 + t / L) * L) := by
      have : point3d.dot (a.smul (1 + t / L)) (a.smul (1 + t / L)) =
          (1 + t / L) * (1 + t / L) * point3d.dot a a := by
        simp only [point3d.dot, point3d.smul]; ring
      rw [this, ← hLL]; ring
    have hlen : (a.smul (1 + t / L)).length sqrt = (1 + t / L) * L := by
      rw [point3d.length, hd]
      exact sqrt_mul_self_of_nonneg hs (by positivity)
    rw [e]
    simp only [point3d.getNormalized, hlen, ← hLdef]
    simp only [point3d.sdiv, point3d.smul, point3d.mk.injEq]
    have hk' := hk.ne.symm
    have hL' := hL.ne.symm
    refine ⟨?_, ?_, ?_⟩ <;> field_simp <;> ring

namespace ObjectOrientedBoundingBox

/-- The fitting loop gives the same `minValues`, `maxValues` for a reordered point list. -/
theorem minMaxValues_perm (W : Matrix3x3 F) {l1 l2 : List (point3d F)} (h : l1.Perm l2) :
    minMaxValues W l1 = minMaxValues W l2 := by
  rw [minMaxValues_eq, minMaxValues_eq]
  rw [runMin_perm (h.map _), runMin_perm (h.map fun p => (W.mulVec p).y),
    runMin_perm (h.map fun p => (W.mulVec p).z), runMax_perm (h.map _),
    runMax_perm (h.map fun p => (W.mulVec p).y), runMax_perm (h.map fun p => (W.mulVec p).z)]

/-- The fit gives the same box for a reordered point list. -/
theorem computeAnchor_perm (b : ObjectOrientedBoundingBox F) {l1 l2 : List (point3d F)}
    (h : l1.Perm l2) :
    computeAnchorAndExtentsForGivenNormalizedAxis b l1 =
      computeAnchorAndExtentsForGivenNormalizedAxis b l2 := by
  simp only [computeAnchorAndExtentsForGivenNormalizedAxis, minMaxValues_perm _ h]

/-- The method `computeFromPCA` gives the same box for a reordered point list. -/
theorem computeFromPCAVector_perm (sqrt : F → F) (b : ObjectOrientedBoundingBox F)
    {l1 l2 : List (point3d F)} (h : l1.Perm l2) :
    computeFromPCAVector sqrt b l1 = computeFromPCAVector sqrt b l2 := by
  simp only [computeFromPCAVector, computeFromPCA, h.length_eq, computeAnchor_perm _ h]

/-- The condition of the validation loop is symmetric in the two boxes. -/
theorem facesSeparate_comm (sqrt : F → F) (a b r : ObjectOrientedBoundingBox F) :
    facesSeparate sqrt a b r = facesSeparate sqrt b a r := by
  simp only [facesSeparate]
  cases testFace sqrt a (getFaceZFront r) (EPS F) <;>
    cases testFace sqrt b (getFaceZBack r) (EPS F) <;>
    cases testFace sqrt a (getFaceZBack r) (EPS F) <;>
    cases testFace sqrt b (getFaceZFront r) (EPS F) <;> rfl

/-- Exchanging the two boxes exchanges the two scores and the distances. -/
theorem zPlaneAssess_swap (sqrt : F → F) (r a b : ObjectOrientedBoundingBox F) :
    zPlaneAssess sqrt r b a =
      (((zPlaneAssess sqrt r a b).1.2, (zPlaneAssess sqrt r a b).1.1),
        ((zPlaneAssess sqrt r a b).2.2.2.1, (zPlaneAssess sqrt r a b).2.2.2.2,
          (zPlaneAssess sqrt r a b).2.1, (zPlaneAssess sqrt r a b).2.2.1)) := rfl

/-- The choice of the axis assignment in `makeZPlaneOutsideBoxes` is symmetric in the two
boxes. -/
theorem bestAxisRound_comm (sqrt : F → F) (r a b : ObjectOrientedBoundingBox F) :
    bestAxisRound sqrt r b a = bestAxisRound sqrt r a b := by
  simp only [bestAxisRound, List.foldl, zPlaneAssess_swap sqrt _ a b]
  simp only [max_comm]

end ObjectOrientedBoundingBox

namespace ObjectOrientedBoundingBox

/-- Extending the front does not move the back face. -/
theorem getFaceZBack_extendInZFront (sqrt : F → F) (b : ObjectOrientedBoundingBox F) (e : F) :
    getFaceZBack (extendInZFront sqrt b e) = getFaceZBack b := by
  simp only [getFaceZBack, extendInZFront, point3d.add, point3d.sub, point3d.smul,
    List.cons.injEq, point3d.mk.injEq, and_true]
  refine ⟨⟨?_, ?_, ?_⟩, ⟨?_, ?_, ?_⟩, ⟨?_, ?_, ?_⟩, ⟨?_, ?_, ?_⟩⟩ <;> ring

/-- Extending the back does not move the front face. -/
theorem getFaceZFront_extendInZBack (sqrt : F → F) (b : ObjectOrientedBoundingBox F) (e : F) :
    getFaceZFront (extendInZBack sqrt b e) = getFaceZFront b := rfl

/-- The two extensions commute (for non-negative amounts). -/
theorem extendInZ_comm {sqrt : F → F} (hs : IsSqrt sqrt) (b : ObjectOrientedBoundingBox F)
    {x y : F} (hx : 0 ≤ x) (hy : 0 ≤ y) :
    extendInZBack sqrt (extendInZFront sqrt b x) y =
      extendInZFront sqrt (extendInZBack sqrt b y) x := by
  simp only [extendInZBack, extendInZFront, point3d.getNormalized_add_smul hs _ hx,
    point3d.getNormalized_add_smul hs _ hy]
  simp only [point3d.add, point3d.smul, mk.injEq, point3d.mk.injEq, true_and]
  refine ⟨?_, ?_, ?_⟩ <;> ring

/-- Without a tie of the two scores the repair step is symmetric in the two boxes. -/
theorem makeZPlaneOutsideBoxes_comm {sqrt : F → F} (hs : IsSqrt sqrt)
    (r a b : ObjectOrientedBoundingBox F) (h : ¬ repairTie sqrt r a b) :
    makeZPlaneOutsideBoxes sqrt r a b = makeZPlaneOutsideBoxes sqrt r b a := by
  have he : (0 : F) ≤ 1 / 10000 := by norm_num
  simp only [repairTie] at h
  simp only [makeZPlaneOutsideBoxes, bestAxisRound_comm sqrt r a b, zPlaneAssess_swap sqrt _ a b,
    gt_iff_lt]
  rcases lt_trichotomy
    (zPlaneAssess sqrt (Nat.iterate swapAxes (bestAxisRound sqrt r a b).2
      (bestAxisRound sqrt r a b).1) a b).1.1
    (zPlaneAssess sqrt (Nat.iterate swapAxes (bestAxisRound sqrt r a b).2
      (bestAxisRound sqrt r a b).1) a b).1.2 with h1 | h1 | h1
  · rw [if_neg (not_lt.mpr h1.le), if_pos h1, getFaceZBack_extendInZFront,
      getFaceZFront_extendInZBack]
    exact (extendInZ_comm hs _ (add_nonneg (abs_nonneg _) he)
      (add_nonneg (abs_nonneg _) he)).symm
  · exact absurd h1 h
  · rw [if_pos h1, if_neg (not_lt.mpr h1.le), getFaceZBack_extendInZFront,
      getFaceZFront_extendInZBack]
    exact extendInZ_comm hs _ (add_nonneg (abs_nonneg _) he) (add_nonneg (abs_nonneg _) he)

/-- The validation loop is symmetric in the two boxes, except when it ends in the repair step
with a tie. -/
theorem intersectLoop_comm {sqrt : F → F} (hs : IsSqrt sqrt) (a b : ObjectOrientedBoundingBox F) :
    ∀ (n : Nat) (res : ObjectOrientedBoundingBox F),
      intersectLoop sqrt a b n res = intersectLoop sqrt b a n res ∨
      ∃ r, repairTie sqrt r a b ∧ intersectLoop sqrt a b n res = makeZPlaneOutsideBoxes sqrt r a b ∧
        intersectLoop sqrt b a n res = makeZPlaneOutsideBoxes sqrt r b a := by
  intro n
  induction n with
  | zero => intro res; exact Or.inl rfl
  | succ n ih =>
    intro res
    simp only [intersectLoop, facesSeparate_comm sqrt b a res]
    by_cases hf : facesSeparate sqrt a b res = true
    · simp only [hf, if_true, true_or]
    · simp only [hf, if_false]
      by_cases hn : n = 0
      · simp only [hn, if_true]
        by_cases ht : repairTie sqrt (swapAxes res) a b
        · exact Or.inr ⟨swapAxes res, ht, rfl, rfl⟩
        · exact Or.inl (makeZPlaneOutsideBoxes_comm hs _ a b ht)
      · simp only [hn, if_false]
        exact ih (swapAxes res)

/-- The centers of two boxes are as far apart in one order as in the other. -/
theorem center_distance_comm (sqrt : F → F) (p q : point3d F) :
    (p.sub q).length sqrt = (q.sub p).length sqrt := by
  simp only [point3d.length]
  congr 1
  simp only [point3d.dot, point3d.sub]
  ring

/-- The method `intersect` is symmetric in the two boxes, whatever the default-constructed
axes `raw` of its local result are, except when the validation loop ends in the repair step
`makeZPlaneOutsideBoxes` with a tie of the two scores. -/
theorem intersect_comm_or_tie {sqrt : F → F} (hs : IsSqrt sqrt)
    (raw a b : ObjectOrientedBoundingBox F) :
    intersect sqrt false raw a b = intersect sqrt false raw b a ∨
      ∃ r, repairTie sqrt r a b ∧
        intersect sqrt false raw a b = makeZPlaneOutsideBoxes sqrt r a b ∧
        intersect sqrt false raw b a = makeZPlaneOutsideBoxes sqrt r b a := by
  have hp : computeFromPCAVector sqrt (ctorDefault raw)
      (computeContactPoints sqrt b a ++ computeContactPoints sqrt a b) =
      computeFromPCAVector sqrt (ctorDefault raw)
      (computeContactPoints sqrt a b ++ computeContactPoints sqrt b a) :=
    computeFromPCAVector_perm sqrt _ List.perm_append_comm
  simp only [intersect, Bool.false_eq_true, if_false, center_distance_comm sqrt (getCenter b),
    add_comm (getDiagonalLength sqrt b), hp]
  split_ifs with h1 h2
  · exact Or.inl rfl
  · exact intersectLoop_comm hs a b 4 _
  · exact Or.inl rfl

end ObjectOrientedBoundingBox

namespace ObjectOrientedBoundingBox

/-- The validation loop of `intersect` (at least one round) ends either at a box whose Z
faces separate the two boxes, or in the repair step `makeZPlaneOutsideBoxes`, whose result
is not tested. -/
theorem intersectLoop_separates_or_repair (sqrt : F → F) (a b : ObjectOrientedBoundingBox F) :
    ∀ (n : Nat) (res : ObjectOrientedBoundingBox F),
      facesSeparate sqrt a b (intersectLoop sqrt a b (n + 1) res) = true ∨
      ∃ r, intersectLoop sqrt a b (n + 1) res = makeZPlaneOutsideBoxes sqrt r a b := by
  intro n
  induction n with
  | zero =>
    intro res
    simp only [intersectLoop]
    by_cases hf : facesSeparate sqrt a b res = true
    · simp only [hf, if_true, true_or]
    · simp only [hf, if_false, if_true]
      exact Or.inr ⟨swapAxes res, rfl⟩
  | succ n ih =>
    intro res
    rw [intersectLoop]
    by_cases hf : facesSeparate sqrt a b res = true
    · simp only [hf, if_true, true_or]
    · simp only [hf, if_false, Nat.succ_ne_zero]
      exact ih (swapAxes res)

end ObjectOrientedBoundingBox

namespace ObjectOrientedBoundingBox

/-- The matrix `getWorldToOOBB()` of the cube `[-1, 2]³`. -/
theorem bigBox_worldToOOBB (p : point3d ℝ) :
    (getWorldToOOBB Real.sqrt (bigBox ℝ)).mulPoint p =
      ⟨(p.x + 1) / 3, (p.y + 1) / 3, (p.z + 1) / 3⟩ := by
  simp only [getWorldToOOBB, bigBox, Matrix4x4.mulPoint, Matrix4x4.ofMatrix3x3, Matrix3x3.ofRows,
    Matrix3x3.mulVec, point3d.sdiv, point3d.neg, point3d.length, point3d.dot]
  norm_num [sqrt_nine]
  refine ⟨?_, ?_, ?_⟩ <;> ring

/-- The matrix `getOOBBToWorld()` of the unit cube maps every point to itself. -/
theorem unitBox_OOBBToWorld (p : point3d ℝ) :
    (getOOBBToWorld (unitBox ℝ)).mulPoint p = p := by
  simp only [getOOBBToWorld, unitBox, Matrix4x4.mulPoint]
  cases p
  norm_num

/-- The matrix `getOOBBToWorld()` of the cube `[-1, 2]³`. -/
theorem bigBox_OOBBToWorld (p : point3d ℝ) :
    (getOOBBToWorld (bigBox ℝ)).mulPoint p = ⟨3 * p.x - 1, 3 * p.y - 1, 3 * p.z - 1⟩ := by
  simp only [getOOBBToWorld, bigBox, Matrix4x4.mulPoint]
  norm_num
  refine ⟨?_, ?_, ?_⟩ <;> ring


/-- The 12 edge numbers of the loop of `computeContactPoints`. -/
theorem range_twelve : List.range 12 = [0, 1, 2, 3, 4, 5, 6, 7, 8, 9, 10, 11] := by decide

/-- The corners of the cube `[-1, 2]³` in the coordinates of the unit cube. -/
theorem big_corners_in_unit :
    (getCornerPoints (bigBox ℝ)).map (getWorldToOOBB Real.sqrt (unitBox ℝ)).mulPoint =
      [⟨-1, -1, -1⟩, ⟨2, -1, -1⟩, ⟨2, 2, -1⟩, ⟨-1, 2, -1⟩,
       ⟨-1, -1, 2⟩, ⟨2, -1, 2⟩, ⟨2, 2, 2⟩, ⟨-1, 2, 2⟩] := by
  simp only [getCornerPoints, bigBox, List.map, unitBox_worldToOOBB, point3d.add]
  norm_num

/-- An edge that starts outside the unit cube in two coordinates and runs along the third
one has no contact point. -/
theorem edgeContacts_big (o d : point3d ℝ)
    (h : (o, d) ∈ [((⟨-1, -1, -1⟩ : point3d ℝ), (⟨3, 0, 0⟩ : point3d ℝ)),
      (⟨2, -1, -1⟩, ⟨0, 3, 0⟩), (⟨2, 2, -1⟩, ⟨-3, 0, 0⟩), (⟨-1, 2, -1⟩, ⟨0, -3, 0⟩),
      (⟨-1, -1, -1⟩, ⟨0, 0, 3⟩), (⟨2, -1, -1⟩, ⟨0, 0, 3⟩), (⟨2, 2, -1⟩, ⟨0, 0, 3⟩),
      (⟨-1, 2, -1⟩, ⟨0, 0, 3⟩),
      (⟨-1, -1, 2⟩, ⟨3, 0, 0⟩), (⟨2, -1, 2⟩, ⟨0, 3, 0⟩), (⟨2, 2, 2⟩, ⟨-3, 0, 0⟩),
      (⟨-1, 2, 2⟩, ⟨0, -3, 0⟩)]) :
    edgeContacts o d = [] := by
  simp only [List.mem_cons, List.mem_singleton, List.not_mem_nil, or_false, Prod.mk.injEq] at h
  rcases h with h | h | h | h | h | h | h | h | h | h | h | h <;> obtain ⟨rfl, rfl⟩ := h
  all_goals
    norm_num [edgeContacts, edgePlaneContact, point3d.add, point3d.smul, isInUnitInterval,
      isInUnitCube, EPS]

/-- The unit cube has no contact point with the cube `[-1, 2]³` around it: no corner of the
big cube is in the unit cube and no edge of it meets a face of the unit cube. -/
theorem contacts_unit_big :
    computeContactPoints Real.sqrt (unitBox ℝ) (bigBox ℝ) = [] := by
  simp only [computeContactPoints, big_corners_in_unit, range_twelve, getEdgeIndices,
    List.flatMap_cons, List.flatMap_nil, List.getD_cons_zero, List.getD_cons_succ,
    point3d.sub]
  norm_num [edgeContacts_big, isInUnitCube, EPS, List.filter]

/-- The corners of the unit cube in the coordinates of the cube `[-1, 2]³`. -/
theorem unit_corners_in_big :
    (getCornerPoints (unitBox ℝ)).map (getWorldToOOBB Real.sqrt (bigBox ℝ)).mulPoint =
      [⟨1 / 3, 1 / 3, 1 / 3⟩, ⟨2 / 3, 1 / 3, 1 / 3⟩, ⟨2 / 3, 2 / 3, 1 / 3⟩, ⟨1 / 3, 2 / 3, 1 / 3⟩,
       ⟨1 / 3, 1 / 3, 2 / 3⟩, ⟨2 / 3, 1 / 3, 2 / 3⟩, ⟨2 / 3, 2 / 3, 2 / 3⟩, ⟨1 / 3, 2 / 3, 2 / 3⟩] := by
  simp only [getCornerPoints, unitBox, List.map, bigBox_worldToOOBB, point3d.add]
  norm_num

/-- An edge that runs inside the unit cube from one third to two thirds has no contact
point (the edges of the face `z = 1/3` and the first two edges along `z`). -/
theorem edgeContacts_unit_lower (o d : point3d ℝ)
    (h : (o, d) ∈ [((⟨1 / 3, 1 / 3, 1 / 3⟩ : point3d ℝ), (⟨1 / 3, 0, 0⟩ : point3d ℝ)),
      (⟨2 / 3, 1 / 3, 1 / 3⟩, ⟨0, 1 / 3, 0⟩), (⟨2 / 3, 2 / 3, 1 / 3⟩, ⟨-1 / 3, 0, 0⟩),
      (⟨1 / 3, 2 / 3, 1 / 3⟩, ⟨0, -1 / 3, 0⟩),
      (⟨1 / 3, 1 / 3, 1 / 3⟩, ⟨0, 0, 1 / 3⟩), (⟨2 / 3, 1 / 3, 1 / 3⟩, ⟨0, 0, 1 / 3⟩)]) :
    edgeContacts o d = [] := by
  simp only [List.mem_cons, List.mem_singleton, List.not_mem_nil, or_false, Prod.mk.injEq] at h
  rcases h with h | h | h | h | h | h <;> obtain ⟨rfl, rfl⟩ := h
  all_goals
    norm_num [edgeContacts, edgePlaneContact, point3d.add, point3d.smul, isInUnitInterval,
      isInUnitCube, EPS]

/-- An edge that runs inside the unit cube from one third to two thirds has no contact
point (the last two edges along `z` and the edges of the face `z = 2/3`). -/
theorem edgeContacts_unit_upper (o d : point3d ℝ)
    (h : (o, d) ∈ [((⟨2 / 3, 2 / 3, 1 / 3⟩ : point3d ℝ), (⟨0, 0, 1 / 3⟩ : point3d ℝ)),
      (⟨1 / 3, 2 / 3, 1 / 3⟩, ⟨0, 0, 1 / 3⟩),
      (⟨1 / 3, 1 / 3, 2 / 3⟩, ⟨1 / 3, 0, 0⟩), (⟨2 / 3, 1 / 3, 2 / 3⟩, ⟨0, 1 / 3, 0⟩),
      (⟨2 / 3, 2 / 3, 2 / 3⟩, ⟨-1 / 3, 0, 0⟩), (⟨1 / 3, 2 / 3, 2 / 3⟩, ⟨0, -1 / 3, 0⟩)]) :
    edgeContacts o d = [] := by
  simp only [List.mem_cons, List.mem_singleton, List.not_mem_nil, or_false, Prod.mk.injEq] at h
  rcases h with h | h | h | h | h | h <;> obtain ⟨rfl, rfl⟩ := h
  all_goals
    norm_num [edgeContacts, edgePlaneContact, point3d.add, point3d.smul, isInUnitInterval,
      isInUnitCube, EPS]

/-- The contact points of the cube `[-1, 2]³` with the unit cube inside it are the 8 corners
of the unit cube. -/
theorem contacts_big_unit :
    computeContactPoints Real.sqrt (bigBox ℝ) (unitBox ℝ) = getCornerPoints (unitBox ℝ) := by
  simp only [computeContactPoints, unit_corners_in_big, range_twelve, getEdgeIndices,
    List.flatMap_cons, List.flatMap_nil, List.getD_cons_zero, List.getD_cons_succ,
    point3d.sub]
  norm_num [edgeContacts_unit_lower, edgeContacts_unit_upper, isInUnitCube, EPS, List.filter, bigBox_OOBBToWorld,
    getCornerPoints, unitBox, point3d.add]

/-- The box that `computeFromPCA` fits to the 8 corners of the unit cube when the
default-constructed axes are `(1, 0, 0)`, `(0, 1, 0)`, `(0, 0, 1)`: the unit cube. -/
theorem fit_unit_corners :
    computeFromPCAVector Real.sqrt (ctorDefault (unitBox ℝ)) (getCornerPoints (unitBox ℝ)) =
      unitBox ℝ := by
  simp only [computeFromPCAVector, computeFromPCA, ctorDefault, setInvalid, getCornerPoints,
    unitBox, computeAnchorAndExtentsForGivenNormalizedAxis, minMaxValues,
    minMaxStep, List.foldl, Matrix3x3.ofRows, Matrix3x3.mulVec, Matrix3x3.getTranspose,
    point3d.getNormalized, point3d.length, point3d.dot, point3d.sdiv, point3d.smul, point3d.add,
    FLT_MAX, EPS, List.length]
  norm_num

end ObjectOrientedBoundingBox

namespace ObjectOrientedBoundingBox

/-- The cube `[-1, 2]³` is cut by the Z front face of the unit cube. -/
theorem testFace_big_unit_front0 :
    testFace Real.sqrt (bigBox ℝ) (getFaceZFront (unitBox ℝ)) (EPS ℝ) = true := by
  have hpl : Plane.ofPoints Real.sqrt (getFaceZFront (unitBox ℝ)) = some ⟨⟨0, 0, 1⟩, 0⟩ := by
    simp only [Plane.ofPoints, getFaceZFront, getFaceZBack, swapAxes, unitBox,
      List.getD_cons_zero, List.getD_cons_succ, point3d.dot, point3d.add, point3d.sub,
      point3d.cross, point3d.getNormalized, point3d.sdiv, point3d.length, point3d.neg]
    norm_num
  have hp : planeDistance Real.sqrt (bigBox ℝ) ⟨⟨0, 0, 1⟩, 0⟩ = -1 := by
    simp only [planeDistance, getExtent, Plane.distanceToPointAbs,
      Plane.distanceToPoint, Plane.getNormal,
      getCenter, bigBox, point3d.dot, point3d.add,
      point3d.smul, point3d.sdiv, point3d.length]
    norm_num [sqrt_nine, abs_of_pos]
  simp only [testFace, hpl, hp]
  simp only [getFaceZFront, getFaceZBack, swapAxes, unitBox, EPS, List.take, List.map,
    List.all_cons, List.all_nil, bigBox_worldToOOBB, point3d.add]
  norm_num

/-- The cube `[-1, 2]³` is cut by the Z back face of the unit cube. -/
theorem testFace_big_unit_back0 :
    testFace Real.sqrt (bigBox ℝ) (getFaceZBack (unitBox ℝ)) (EPS ℝ) = true := by
  have hpl : Plane.ofPoints Real.sqrt (getFaceZBack (unitBox ℝ)) = some ⟨⟨0, 0, 1⟩, 1⟩ := by
    simp only [Plane.ofPoints, getFaceZFront, getFaceZBack, swapAxes, unitBox,
      List.getD_cons_zero, List.getD_cons_succ, point3d.dot, point3d.add, point3d.sub,
      point3d.cross, point3d.getNormalized, point3d.sdiv, point3d.length, point3d.neg]
    norm_num
  have hp : planeDistance Real.sqrt (bigBox ℝ) ⟨⟨0, 0, 1⟩, 1⟩ = -1 := by
    simp only [planeDistance, getExtent, Plane.distanceToPointAbs,
      Plane.distanceToPoint, Plane.getNormal,
      getCenter, bigBox, point3d.dot, point3d.add,
      point3d.smul, point3d.sdiv, point3d.length]
    norm_num [sqrt_nine, abs_of_pos]
  simp only [testFace, hpl, hp]
  simp only [getFaceZFront, getFaceZBack, swapAxes, unitBox, EPS, List.take, List.map,
    List.all_cons, List.all_nil, bigBox_worldToOOBB, point3d.add]
  norm_num

/-- The cube `[-1, 2]³` is cut by the Z front face of the unit cube after one `swapAxes()`. -/
theorem testFace_big_unit_front1 :
    testFace Real.sqrt (bigBox ℝ) (getFaceZFront (swapAxes (unitBox ℝ))) (EPS ℝ) = true := by
  have hpl : Plane.ofPoints Real.sqrt (getFaceZFront (swapAxes (unitBox ℝ))) = some ⟨⟨1, 0, 0⟩, 0⟩ := by
    simp only [Plane.ofPoints, getFaceZFront, getFaceZBack, swapAxes, unitBox,
      List.getD_cons_zero, List.getD_cons_succ, point3d.dot, point3d.add, point3d.sub,
      point3d.cross, point3d.getNormalized, point3d.sdiv, point3d.length, point3d.neg]
    norm_num
  have hp : planeDistance Real.sqrt (bigBox ℝ) ⟨⟨1, 0, 0⟩, 0⟩ = -1 := by
    simp only [planeDistance, getExtent, Plane.distanceToPointAbs,
      Plane.distanceToPoint, Plane.getNormal,
      getCenter, bigBox, point3d.dot, point3d.add,
      point3d.smul, point3d.sdiv, point3d.length]
    norm_num [sqrt_nine, abs_of_pos]
  simp only [testFace, hpl, hp]
  simp only [getFaceZFront, getFaceZBack, swapAxes, unitBox, EPS, List.take, List.map,
    List.all_cons, List.all_nil, bigBox_worldToOOBB, point3d.add]
  norm_num

/-- The cube `[-1, 2]³` is cut by the Z back face of the unit cube after one `swapAxes()`. -/
theorem testFace_big_unit_back1 :
    testFace Real.sqrt (bigBox ℝ) (getFaceZBack (swapAxes (unitBox ℝ))) (EPS ℝ) = true := by
  have hpl : Plane.ofPoints Real.sqrt (getFaceZBack (swapAxes (unitBox ℝ))) = some ⟨⟨1, 0, 0⟩, 1⟩ := by
    simp only [Plane.ofPoints, getFaceZFront, getFaceZBack, swapAxes, unitBox,
      List.getD_cons_zero, List.getD_cons_succ, point3d.dot, point3d.add, point3d.sub,
      point3d.cross, point3d.getNormalized, point3d.sdiv, point3d.length, point3d.neg]
    norm_num
  have hp : planeDistance Real.sqrt (bigBox ℝ) ⟨⟨1, 0, 0⟩, 1⟩ = -1 := by
    simp only [planeDistance, getExtent, Plane.distanceToPointAbs,
      Plane.distanceToPoint, Plane.getNormal,
      getCenter, bigBox, point3d.dot, point3d.add,
      point3d.smul, point3d.sdiv, point3d.length]
    norm_num [sqrt_nine, abs_of_pos]
  simp only [testFace, hpl, hp]
  simp only [getFaceZFront, getFaceZBack, swapAxes, unitBox, EPS, List.take, List.map,
    List.all_cons, List.all_nil, bigBox_worldToOOBB, point3d.add]
  norm_num

/-- The cube `[-1, 2]³` is cut by the Z front face of the unit cube after two `swapAxes()`. -/
theorem testFace_big_unit_front2 :
    testFace Real.sqrt (bigBox ℝ) (getFaceZFront (swapAxes (swapAxes (unitBox ℝ)))) (EPS ℝ) = true := by
  have hpl : Plane.ofPoints Real.sqrt (getFaceZFront (swapAxes (swapAxes (unitBox ℝ)))) = some ⟨⟨0, 1, 0⟩, 0⟩ := by
    simp only [Plane.ofPoints, getFaceZFront, getFaceZBack, swapAxes, unitBox,
      List.getD_cons_zero, List.getD_cons_succ, point3d.dot, point3d.add, point3d.sub,
      point3d.cross, point3d.getNormalized, point3d.sdiv, point3d.length, point3d.neg]
    norm_num
  have hp : planeDistance Real.sqrt (bigBox ℝ) ⟨⟨0, 1, 0⟩, 0⟩ = -1 := by
    simp only [planeDistance, getExtent, Plane.distanceToPointAbs,
      Plane.distanceToPoint, Plane.getNormal,
      getCenter, bigBox, point3d.dot, point3d.add,
      point3d.smul, point3d.sdiv, point3d.length]
    norm_num [sqrt_nine, abs_of_pos]
  simp only [testFace, hpl, hp]
  simp only [getFaceZFront, getFaceZBack, swapAxes, unitBox, EPS, List.take, List.map,
    List.all_cons, List.all_nil, bigBox_worldToOOBB, point3d.add]
  norm_num

/-- The cube `[-1, 2]³` is cut by the Z back face of the unit cube after two `swapAxes()`. -/
theorem testFace_big_unit_back2 :
    testFace Real.sqrt (bigBox ℝ) (getFaceZBack (swapAxes (swapAxes (unitBox ℝ)))) (EPS ℝ) = true := by
  have hpl : Plane.ofPoints Real.sqrt (getFaceZBack (swapAxes (swapAxes (unitBox ℝ)))) = some ⟨⟨0, 1, 0⟩, 1⟩ := by
    simp only [Plane.ofPoints, getFaceZFront, getFaceZBack, swapAxes, unitBox,
      List.getD_cons_zero, List.getD_cons_succ, point3d.dot, point3d.add, point3d.sub,
      point3d.cross, point3d.getNormalized, point3d.sdiv, point3d.length, point3d.neg]
    norm_num
  have hp : planeDistance Real.sqrt (bigBox ℝ) ⟨⟨0, 1, 0⟩, 1⟩ = -1 := by
    simp only [planeDistance, getExtent, Plane.distanceToPointAbs,
      Plane.distanceToPoint, Plane.getNormal,
      getCenter, bigBox, point3d.dot, point3d.add,
      point3d.smul, point3d.sdiv, point3d.length]
    norm_num [sqrt_nine, abs_of_pos]
  simp only [testFace, hpl, hp]
  simp only [getFaceZFront, getFaceZBack, swapAxes, unitBox, EPS, List.take, List.map,
    List.all_cons, List.all_nil, bigBox_worldToOOBB, point3d.add]
  norm_num

end ObjectOrientedBoundingBox

namespace ObjectOrientedBoundingBox

/-- The scores of the first round of `makeZPlaneOutsideBoxes` for the unit cube and the cube
`[-1, 2]³`: both are `-1`. -/
theorem zPlaneAssess_unit_big_1 :
    zPlaneAssess Real.sqrt (swapAxes (unitBox ℝ)) (unitBox ℝ) (bigBox ℝ) =
      ((-1, -1), (0, 0, -1, -1)) := by
  simp only [zPlaneAssess, planeDistance, getExtent, Plane.distanceToPointAbs,
    getPlaneZFront, getPlaneZBack, Plane.ofNormalPoint, swapAxes, unitBox,
    Plane.distanceToPoint, Plane.getNormal,
    getCenter, bigBox, point3d.dot, point3d.add, point3d.sub,
    point3d.getNormalized, point3d.smul, point3d.sdiv, point3d.length, point3d.neg]
  norm_num [sqrt_nine, abs_of_pos]

/-- The scores of the second round: both are `-1`. -/
theorem zPlaneAssess_unit_big_2 :
    zPlaneAssess Real.sqrt (swapAxes (swapAxes (unitBox ℝ))) (unitBox ℝ) (bigBox ℝ) =
      ((-1, -1), (0, 0, -1, -1)) := by
  simp only [zPlaneAssess, planeDistance, getExtent, Plane.distanceToPointAbs,
    getPlaneZFront, getPlaneZBack, Plane.ofNormalPoint, swapAxes, unitBox,
    Plane.distanceToPoint, Plane.getNormal,
    getCenter, bigBox, point3d.dot, point3d.add, point3d.sub,
    point3d.getNormalized, point3d.smul, point3d.sdiv, point3d.length, point3d.neg]
  norm_num [sqrt_nine, abs_of_pos]

/-- The scores of the third round: both are `-1`. -/
theorem zPlaneAssess_unit_big_3 :
    zPlaneAssess Real.sqrt (swapAxes (swapAxes (swapAxes (unitBox ℝ)))) (unitBox ℝ) (bigBox ℝ) =
      ((-1, -1), (0, 0, -1, -1)) := by
  simp only [zPlaneAssess, planeDistance, getExtent, Plane.distanceToPointAbs,
    getPlaneZFront, getPlaneZBack, Plane.ofNormalPoint, swapAxes, unitBox,
    Plane.distanceToPoint, Plane.getNormal,
    getCenter, bigBox, point3d.dot, point3d.add, point3d.sub,
    point3d.getNormalized, point3d.smul, point3d.sdiv, point3d.length, point3d.neg]
  norm_num [sqrt_nine, abs_of_pos]

/-- The three rounds keep the first axis assignment: `which = 0`. -/
theorem bestAxisRound_unit_big :
    bestAxisRound Real.sqrt (swapAxes (unitBox ℝ)) (unitBox ℝ) (bigBox ℝ) =
      (unitBoxSwapped ℝ, 0) := by
  have hlt : -FLT_MAX ℝ < -1 := by norm_num [FLT_MAX]
  simp only [bestAxisRound, List.foldl, zPlaneAssess_unit_big_1, zPlaneAssess_unit_big_2,
    zPlaneAssess_unit_big_3, max_self, gt_iff_lt, hlt, lt_self_iff_false, if_true, if_false]
  rfl

end ObjectOrientedBoundingBox

namespace ObjectOrientedBoundingBox

/-- No plane of the unit cube asks for an extension of the Z back face. -/
theorem minPlaneExtension_unit_back :
    getMinPlaneExtension Real.sqrt (unitBox ℝ) (getFaceZBack (unitBoxSwapped ℝ))
      (getPlaneZBack Real.sqrt (unitBoxSwapped ℝ)).getNormal = 0 := by
  simp only [getMinPlaneExtension, List.foldl, getPlane, getPlaneXFront, getPlaneXBack,
    getPlaneYFront, getPlaneYBack, getPlaneZFront, getPlaneZBack, Plane.ofNormalPoint,
    Plane.getNormal, maxNegDist, getFaceZBack, unitBoxSwapped, unitBox, List.take,
    Plane.distanceToPoint, point3d.dot, point3d.add, point3d.neg, point3d.getNormalized,
    point3d.sdiv, point3d.length]
  norm_num [FLT_MAX]

/-- No plane of the unit cube asks for an extension of the Z front face. -/
theorem minPlaneExtension_unit_front :
    getMinPlaneExtension Real.sqrt (unitBox ℝ) (getFaceZFront (unitBoxSwapped ℝ))
      (getPlaneZFront Real.sqrt (unitBoxSwapped ℝ)).getNormal = 0 := by
  simp only [getMinPlaneExtension, List.foldl, getPlane, getPlaneXFront, getPlaneXBack,
    getPlaneYFront, getPlaneYBack, getPlaneZFront, getPlaneZBack, Plane.ofNormalPoint,
    Plane.getNormal, maxNegDist, getFaceZFront, unitBoxSwapped, unitBox, List.take,
    Plane.distanceToPoint, point3d.dot, point3d.add, point3d.neg, point3d.getNormalized,
    point3d.sdiv, point3d.length]
  norm_num [FLT_MAX]

/-- The Z back face is 1 away from the plane `x = 2` of the cube `[-1, 2]³`. -/
theorem minPlaneExtension_big_back :
    getMinPlaneExtension Real.sqrt (bigBox ℝ) (getFaceZBack (unitBoxSwapped ℝ))
      (getPlaneZBack Real.sqrt (unitBoxSwapped ℝ)).getNormal = 1 := by
  simp only [getMinPlaneExtension, List.foldl, getPlane, getPlaneXFront, getPlaneXBack,
    getPlaneYFront, getPlaneYBack, getPlaneZFront, getPlaneZBack, Plane.ofNormalPoint,
    Plane.getNormal, maxNegDist, getFaceZBack, unitBoxSwapped, bigBox, List.take,
    Plane.distanceToPoint, point3d.dot, point3d.add, point3d.neg, point3d.getNormalized,
    point3d.sdiv, point3d.length]
  norm_num [FLT_MAX, sqrt_nine]

/-- The Z front face is 1 away from the plane `x = -1` of the cube `[-1, 2]³`. -/
theorem minPlaneExtension_big_front :
    getMinPlaneExtension Real.sqrt (bigBox ℝ) (getFaceZFront (unitBoxSwapped ℝ))
      (getPlaneZFront Real.sqrt (unitBoxSwapped ℝ)).getNormal = 1 := by
  simp only [getMinPlaneExtension, List.foldl, getPlane, getPlaneXFront, getPlaneXBack,
    getPlaneYFront, getPlaneYBack, getPlaneZFront, getPlaneZBack, Plane.ofNormalPoint,
    Plane.getNormal, maxNegDist, getFaceZFront, unitBoxSwapped, bigBox, List.take,
    Plane.distanceToPoint, point3d.dot, point3d.add, point3d.neg, point3d.getNormalized,
    point3d.sdiv, point3d.length]
  norm_num [FLT_MAX, sqrt_nine]

/-- The repair step for the unit cube (as `box0`) and the cube `[-1, 2]³` (as `box1`): the
two scores tie, so the back is extended towards the unit cube (by `1/10000`) and the front
towards the big cube (by `1 + 1/10000`). -/
theorem makeZPlaneOutsideBoxes_unit_big :
    makeZPlaneOutsideBoxes Real.sqrt (swapAxes (unitBox ℝ)) (unitBox ℝ) (bigBox ℝ) =
      ⟨⟨-10001 / 10000, 0, 0⟩, ⟨0, 1, 0⟩, ⟨0, 0, 1⟩, ⟨10001 / 5000, 0, 0⟩⟩ := by
  have hz : zPlaneAssess Real.sqrt (unitBoxSwapped ℝ) (unitBox ℝ) (bigBox ℝ) =
      ((-1, -1), (0, 0, -1, -1)) := zPlaneAssess_unit_big_1
  simp only [makeZPlaneOutsideBoxes, bestAxisRound_unit_big, Function.iterate_zero, id_eq, hz,
    gt_iff_lt, lt_self_iff_false, if_false, getFaceZFront_extendInZBack,
    minPlaneExtension_unit_back, minPlaneExtension_big_front, abs_zero, min_self, zero_add]
  simp only [extendInZFront, extendInZBack]
  rw [point3d.getNormalized_add_smul isSqrt_real _ (by positivity)]
  simp only [unitBoxSwapped, point3d.add, point3d.sub,
    point3d.smul, point3d.getNormalized, point3d.sdiv, point3d.length, point3d.dot]
  norm_num [abs_of_pos]

/-- The repair step for the cube `[-1, 2]³` (as `box0`) and the unit cube (as `box1`): the
same tie, so the back is extended towards the big cube (by `1 + 1/10000`) and the front
towards the unit cube (by `1/10000`). -/
theorem makeZPlaneOutsideBoxes_big_unit :
    makeZPlaneOutsideBoxes Real.sqrt (swapAxes (unitBox ℝ)) (bigBox ℝ) (unitBox ℝ) =
      ⟨⟨-1 / 10000, 0, 0⟩, ⟨0, 1, 0⟩, ⟨0, 0, 1⟩, ⟨10001 / 5000, 0, 0⟩⟩ := by
  have hz : zPlaneAssess Real.sqrt (unitBoxSwapped ℝ) (bigBox ℝ) (unitBox ℝ) =
      ((-1, -1), (-1, -1, 0, 0)) := by
    rw [zPlaneAssess_swap Real.sqrt _ (unitBox ℝ) (bigBox ℝ)]
    rw [show zPlaneAssess Real.sqrt (unitBoxSwapped ℝ) (unitBox ℝ) (bigBox ℝ) =
      ((-1, -1), (0, 0, -1, -1)) from zPlaneAssess_unit_big_1]
  simp only [makeZPlaneOutsideBoxes, bestAxisRound_comm Real.sqrt _ (unitBox ℝ) (bigBox ℝ),
    bestAxisRound_unit_big, Function.iterate_zero, id_eq, hz,
    gt_iff_lt, lt_self_iff_false, if_false, getFaceZFront_extendInZBack,
    minPlaneExtension_unit_front, minPlaneExtension_big_back, abs_zero, zero_add]
  simp only [extendInZFront, extendInZBack]
  rw [point3d.getNormalized_add_smul isSqrt_real _ (by positivity)]
  simp only [unitBoxSwapped, point3d.add, point3d.sub,
    point3d.smul, point3d.getNormalized, point3d.sdiv, point3d.length, point3d.dot]
  norm_num [abs_of_pos]

end ObjectOrientedBoundingBox

namespace ObjectOrientedBoundingBox

/-- No Z face of the unit cube separates the unit cube from the cube `[-1, 2]³`, in any of
the three assignments of the axes. -/
theorem facesSeparate_unit_big :
    facesSeparate Real.sqrt (unitBox ℝ) (bigBox ℝ) (unitBox ℝ) = false ∧
    facesSeparate Real.sqrt (unitBox ℝ) (bigBox ℝ) (swapAxes (unitBox ℝ)) = false ∧
    facesSeparate Real.sqrt (unitBox ℝ) (bigBox ℝ) (swapAxes (swapAxes (unitBox ℝ))) = false := by
  simp [facesSeparate, testFace_big_unit_front0, testFace_big_unit_back0,
    testFace_big_unit_front1, testFace_big_unit_back1, testFace_big_unit_front2,
    testFace_big_unit_back2]

/-- The validation loop of `intersect` for the unit cube and the cube `[-1, 2]³`, started at
the unit cube, ends in the repair step. -/
theorem intersectLoop_unit_big :
    intersectLoop Real.sqrt (unitBox ℝ) (bigBox ℝ) 4 (unitBox ℝ) =
      makeZPlaneOutsideBoxes Real.sqrt (swapAxes (unitBox ℝ)) (unitBox ℝ) (bigBox ℝ) := by
  have h3 : swapAxes (swapAxes (swapAxes (unitBox ℝ))) = unitBox ℝ := rfl
  simp only [intersectLoop, facesSeparate_unit_big.1, facesSeparate_unit_big.2.1,
    facesSeparate_unit_big.2.2, h3, Bool.false_eq_true, if_false, OfNat.ofNat_ne_zero,
    one_ne_zero, if_true]

/-- The early reject of `intersect` is not taken for the unit cube and the cube `[-1, 2]³`:
they have the same center. -/
theorem no_early_reject_unit_big :
    ¬(((getCenter (unitBox ℝ)).sub (getCenter (bigBox ℝ))).length Real.sqrt >
      (1 / 2) * (getDiagonalLength Real.sqrt (unitBox ℝ) +
        getDiagonalLength Real.sqrt (bigBox ℝ))) := by
  have hc : ((getCenter (unitBox ℝ)).sub (getCenter (bigBox ℝ))).length Real.sqrt = 0 := by
    simp only [getCenter, unitBox, bigBox, point3d.add, point3d.sub, point3d.smul,
      point3d.length, point3d.dot]
    norm_num
  have h1 : 0 ≤ getDiagonalLength Real.sqrt (unitBox ℝ) := Real.sqrt_nonneg _
  have h2 : 0 ≤ getDiagonalLength Real.sqrt (bigBox ℝ) := Real.sqrt_nonneg _
  rw [hc]
  intro h
  linarith

/-- With the default-constructed axes `(1, 0, 0)`, `(0, 1, 0)`, `(0, 0, 1)` the method
`intersect` is not symmetric: for the unit cube `A` and the cube `B = [-1, 2]³` around it,
`A.intersect(B)` and `B.intersect(A)` are two valid boxes with different anchors,
`(-1.0001, 0, 0)` and `(-0.0001, 0, 0)`, and the same axes; the first corner of the one is
not a corner of the other. -/
theorem intersect_unit_big_not_comm :
    intersect Real.sqrt false (unitBox ℝ) (unitBox ℝ) (bigBox ℝ) =
      ⟨⟨-10001 / 10000, 0, 0⟩, ⟨0, 1, 0⟩, ⟨0, 0, 1⟩, ⟨10001 / 5000, 0, 0⟩⟩ ∧
    intersect Real.sqrt false (unitBox ℝ) (bigBox ℝ) (unitBox ℝ) =
      ⟨⟨-1 / 10000, 0, 0⟩, ⟨0, 1, 0⟩, ⟨0, 0, 1⟩, ⟨10001 / 5000, 0, 0⟩⟩ ∧
    (⟨-10001 / 10000, 0, 0⟩ : point3d ℝ) ∈
      getCornerPoints (intersect Real.sqrt false (unitBox ℝ) (unitBox ℝ) (bigBox ℝ)) ∧
    (⟨-10001 / 10000, 0, 0⟩ : point3d ℝ) ∉
      getCornerPoints (intersect Real.sqrt false (unitBox ℝ) (bigBox ℝ) (unitBox ℝ)) := by
  have hv : isValid (unitBox ℝ) = true := by
    simp only [isValid, unitBox, FLT_MAX]
    norm_num
  have hab : intersect Real.sqrt false (unitBox ℝ) (unitBox ℝ) (bigBox ℝ) =
      ⟨⟨-10001 / 10000, 0, 0⟩, ⟨0, 1, 0⟩, ⟨0, 0, 1⟩, ⟨10001 / 5000, 0, 0⟩⟩ := by
    simp only [intersect, Bool.false_eq_true, if_false, if_neg no_early_reject_unit_big,
      contacts_unit_big, contacts_big_unit, List.nil_append, fit_unit_corners, hv, if_true,
      intersectLoop_unit_big, makeZPlaneOutsideBoxes_unit_big]
  have hba : intersect Real.sqrt false (unitBox ℝ) (bigBox ℝ) (unitBox ℝ) =
      ⟨⟨-1 / 10000, 0, 0⟩, ⟨0, 1, 0⟩, ⟨0, 0, 1⟩, ⟨10001 / 5000, 0, 0⟩⟩ := by
    have hl : intersectLoop Real.sqrt (bigBox ℝ) (unitBox ℝ) 4 (unitBox ℝ) =
        makeZPlaneOutsideBoxes Real.sqrt (swapAxes (unitBox ℝ)) (bigBox ℝ) (unitBox ℝ) := by
      have h3 : swapAxes (swapAxes (swapAxes (unitBox ℝ))) = unitBox ℝ := rfl
      simp only [intersectLoop, facesSeparate_comm Real.sqrt (bigBox ℝ) (unitBox ℝ),
        facesSeparate_unit_big.1, facesSeparate_unit_big.2.1,
        facesSeparate_unit_big.2.2, h3, Bool.false_eq_true, if_false, OfNat.ofNat_ne_zero,
        one_ne_zero, if_true]
    have he : ¬(((getCenter (bigBox ℝ)).sub (getCenter (unitBox ℝ))).length Real.sqrt >
        (1 / 2) * (getDiagonalLength Real.sqrt (bigBox ℝ) +
          getDiagonalLength Real.sqrt (unitBox ℝ))) := by
      rw [center_distance_comm, add_comm]
      exact no_early_reject_unit_big
    simp only [intersect, Bool.false_eq_true, if_false, if_neg he,
      contacts_unit_big, contacts_big_unit, List.append_nil, fit_unit_corners, hv, if_true,
      hl, makeZPlaneOutsideBoxes_big_unit]
  refine ⟨hab, hba, ?_, ?_⟩
  · rw [hab]
    simp [getCornerPoints]
  · rw [hba]
    simp only [getCornerPoints, point3d.add, List.mem_cons, List.mem_singleton, List.not_mem_nil,
      point3d.mk.injEq, or_false]
    norm_num

end ObjectOrientedBoundingBox

namespace ObjectOrientedBoundingBox

/-- The 12 edges of `getEdgeIndices`: the floor cycle, the verticals and the ceiling
cycle. -/
theorem edgePairs_eq :
    edgePairs = [(0, 1), (1, 2), (2, 3), (3, 0), (0, 4), (1, 5), (2, 6), (3, 7),
      (4, 5), (5, 6), (6, 7), (7, 4)] := by decide

/-- C21: `getCornerPoints` returns the 8 points `anchor + b0 * axes[0] + b1 * axes[1] +
b2 * axes[2]` with `b` in `{0, 1}`, corners 0-3 with `b2 = 0` and corner `i + 4` equal to
corner `i` plus `axes[2]`; `getEdgeIndices` gives the 12 pairs of the floor cycle
0-1-2-3-0, the verticals `i` to `i + 4` and the ceiling cycle 4-5-6-7-4; every edge joins
two corners that differ by one axis vector, every corner is an endpoint of exactly 3 edges,
and `getEdgeList[k] = corners[indices[k]]` for `k < 24`. -/
theorem C21_corner_edge_topology (b : ObjectOrientedBoundingBox F) :
    getCornerPoints b =
      [cornerAt b 0 0 0, cornerAt b 1 0 0, cornerAt b 1 1 0, cornerAt b 0 1 0,
       cornerAt b 0 0 1, cornerAt b 1 0 1, cornerAt b 1 1 1, cornerAt b 0 1 1] ∧
    (∀ i, i < 4 → corner b (i + 4) = (corner b i).add b.m_AxesScaled2) ∧
    edgePairs = [(0, 1), (1, 2), (2, 3), (3, 0), (0, 4), (1, 5), (2, 6), (3, 7),
      (4, 5), (5, 6), (6, 7), (7, 4)] ∧
    (∀ e ∈ edgePairs, ∃ a ∈ [b.m_AxesScaled0, b.m_AxesScaled1, b.m_AxesScaled2],
      corner b e.2 = (corner b e.1).add a ∨ corner b e.1 = (corner b e.2).add a) ∧
    (∀ i, i < 8 → (edgePairs.filter (fun e => e.1 = i || e.2 = i)).length = 3) ∧
    (getEdgeList b).length = 24 ∧
    (∀ k, k < 24 → (getEdgeList b).getD k ⟨0, 0, 0⟩ = corner b (getEdgeIndices.getD k 0)) := by
  have hadd : ∀ p q r : point3d F, (p.add q).add r = (p.add r).add q := by
    intro p q r
    simp only [point3d.add, point3d.mk.injEq]
    refine ⟨?_, ?_, ?_⟩ <;> ring
  refine ⟨getCornerPoints_eq_cornerAt b, ?_, edgePairs_eq, ?_, ?_, rfl, ?_⟩
  · intro i hi
    interval_cases i <;> rfl
  · intro e he
    rw [edgePairs_eq] at he
    simp only [List.mem_cons, List.mem_singleton, List.not_mem_nil, or_false] at he
    rcases he with h | h | h | h | h | h | h | h | h | h | h | h <;> subst h
    · exact ⟨_, List.mem_cons_self _ _, Or.inl rfl⟩
    · exact ⟨b.m_AxesScaled1, by simp, Or.inl rfl⟩
    · exact ⟨b.m_AxesScaled0, by simp, Or.inr (hadd _ _ _)⟩
    · exact ⟨b.m_AxesScaled1, by simp, Or.inr rfl⟩
    · exact ⟨b.m_AxesScaled2, by simp, Or.inl rfl⟩
    · exact ⟨b.m_AxesScaled2, by simp, Or.inl rfl⟩
    · exact ⟨b.m_AxesScaled2, by simp, Or.inl rfl⟩
    · exact ⟨b.m_AxesScaled2, by simp, Or.inl rfl⟩
    · exact ⟨b.m_AxesScaled0, by simp, Or.inl (hadd _ _ _)⟩
    · exact ⟨b.m_AxesScaled1, by simp, Or.inl (hadd _ _ _)⟩
    · exact ⟨b.m_AxesScaled0, by simp, Or.inr (by
        show ((b.m_Anchor.add b.m_AxesScaled0).add b.m_AxesScaled1).add b.m_AxesScaled2 =
          ((b.m_Anchor.add b.m_AxesScaled1).add b.m_AxesScaled2).add b.m_AxesScaled0
        simp only [point3d.add, point3d.mk.injEq]
        refine ⟨?_, ?_, ?_⟩ <;> ring)⟩
    · exact ⟨b.m_AxesScaled1, by simp, Or.inr (hadd _ _ _)⟩
  · intro i hi
    rw [edgePairs_eq]
    interval_cases i <;> rfl
  · intro k hk
    interval_cases k <;> rfl

end ObjectOrientedBoundingBox

namespace ObjectOrientedBoundingBox

/-- For a coefficient `x` one of the two choices `s = 0`, `s = 1` gives
`(s - 1/2) * x = |x| / 2`, and one gives `-|x| / 2`. -/
theorem exists_half_term (x : F) :
    (∃ s : F, (s = 0 ∨ s = 1) ∧ (s - 1 / 2) * x = (1 / 2) * |x|) ∧
    (∃ s : F, (s = 0 ∨ s = 1) ∧ (s - 1 / 2) * x = -((1 / 2) * |x|)) := by
  rcases le_total 0 x with h | h
  · rw [abs_of_nonneg h]
    exact ⟨⟨1, Or.inr rfl, by ring⟩, ⟨0, Or.inl rfl, by ring⟩⟩
  · rw [abs_of_nonpos h]
    exact ⟨⟨0, Or.inl rfl, by ring⟩, ⟨1, Or.inr rfl, by ring⟩⟩

/-- The points `cornerAt b s0 s1 s2` with coefficients 0 or 1 are corners of the box. -/
theorem cornerAt_mem (b : ObjectOrientedBoundingBox F) {s0 s1 s2 : F}
    (h0 : s0 = 0 ∨ s0 = 1) (h1 : s1 = 0 ∨ s1 = 1) (h2 : s2 = 0 ∨ s2 = 1) :
    cornerAt b s0 s1 s2 ∈ getCornerPoints b := by
  rw [getCornerPoints_eq_cornerAt]
  rcases h0 with rfl | rfl <;> rcases h1 with rfl | rfl <;> rcases h2 with rfl | rfl <;> simp

/-- Some corner of the box has the greatest signed distance `d + r` to a plane and some
corner the least one `d - r`, where `d` is the signed distance of the center and `r` the
radius of `planeDistance`. -/
theorem exists_corner_dist (b : ObjectOrientedBoundingBox F) (p : Plane F) :
    (∃ c ∈ getCornerPoints b, p.distanceToPoint c = p.distanceToPoint (getCenter b) +
      (1 / 2) * (|p.getNormal.dot b.m_AxesScaled0| + |p.getNormal.dot b.m_AxesScaled1| +
        |p.getNormal.dot b.m_AxesScaled2|)) ∧
    (∃ c ∈ getCornerPoints b, p.distanceToPoint c = p.distanceToPoint (getCenter b) -
      (1 / 2) * (|p.getNormal.dot b.m_AxesScaled0| + |p.getNormal.dot b.m_AxesScaled1| +
        |p.getNormal.dot b.m_AxesScaled2|)) := by
  obtain ⟨⟨s0, hs0, e0⟩, ⟨t0, ht0, f0⟩⟩ := exists_half_term (p.getNormal.dot b.m_AxesScaled0)
  obtain ⟨⟨s1, hs1, e1⟩, ⟨t1, ht1, f1⟩⟩ := exists_half_term (p.getNormal.dot b.m_AxesScaled1)
  obtain ⟨⟨s2, hs2, e2⟩, ⟨t2, ht2, f2⟩⟩ := exists_half_term (p.getNormal.dot b.m_AxesScaled2)
  refine ⟨⟨cornerAt b s0 s1 s2, cornerAt_mem b hs0 hs1 hs2, ?_⟩,
    ⟨cornerAt b t0 t1 t2, cornerAt_mem b ht0 ht1 ht2, ?_⟩⟩
  · rw [distanceToPoint_cornerAt, e0, e1, e2]; ring
  · rw [distanceToPoint_cornerAt, f0, f1, f2]; ring

/-- The signed distance of every corner to a plane lies between `d - r` and `d + r`. -/
theorem corner_dist_bounds (b : ObjectOrientedBoundingBox F) (p : Plane F) :
    ∀ c ∈ getCornerPoints b,
      p.distanceToPoint (getCenter b) -
        (1 / 2) * (|p.getNormal.dot b.m_AxesScaled0| + |p.getNormal.dot b.m_AxesScaled1| +
          |p.getNormal.dot b.m_AxesScaled2|) ≤ p.distanceToPoint c ∧
      p.distanceToPoint c ≤ p.distanceToPoint (getCenter b) +
        (1 / 2) * (|p.getNormal.dot b.m_AxesScaled0| + |p.getNormal.dot b.m_AxesScaled1| +
          |p.getNormal.dot b.m_AxesScaled2|) := by
  have key : ∀ s0 s1 s2 : F, (s0 = 0 ∨ s0 = 1) → (s1 = 0 ∨ s1 = 1) → (s2 = 0 ∨ s2 = 1) →
      p.distanceToPoint (getCenter b) -
        (1 / 2) * (|p.getNormal.dot b.m_AxesScaled0| + |p.getNormal.dot b.m_AxesScaled1| +
          |p.getNormal.dot b.m_AxesScaled2|) ≤ p.distanceToPoint (cornerAt b s0 s1 s2) ∧
      p.distanceToPoint (cornerAt b s0 s1 s2) ≤ p.distanceToPoint (getCenter b) +
        (1 / 2) * (|p.getNormal.dot b.m_AxesScaled0| + |p.getNormal.dot b.m_AxesScaled1| +
          |p.getNormal.dot b.m_AxesScaled2|) := by
    intro s0 s1 s2 h0 h1 h2
    have u : ∀ s : F, (s = 0 ∨ s = 1) → 0 ≤ s ∧ s ≤ 1 := by
      rintro s (rfl | rfl) <;> norm_num
    have b0 := abs_le.mp (half_term_bound (x := p.getNormal.dot b.m_AxesScaled0) (u s0 h0).1
      (u s0 h0).2)
    have b1 := abs_le.mp (half_term_bound (x := p.getNormal.dot b.m_AxesScaled1) (u s1 h1).1
      (u s1 h1).2)
    have b2 := abs_le.mp (half_term_bound (x := p.getNormal.dot b.m_AxesScaled2) (u s2 h2).1
      (u s2 h2).2)
    rw [distanceToPoint_cornerAt]
    constructor <;> linarith [b0.1, b0.2, b1.1, b1.2, b2.1, b2.2]
  intro c hc
  rw [getCornerPoints_eq_cornerAt] at hc
  simp only [List.mem_cons, List.mem_singleton, List.not_mem_nil, or_false] at hc
  rcases hc with rfl | rfl | rfl | rfl | rfl | rfl | rfl | rfl <;>
    apply key <;> first | exact Or.inl rfl | exact Or.inr rfl

/-- C22: for a box with non-zero axes, `planeDistance(plane)` is negative iff two of the 8
corners lie strictly on opposite sides of the plane, and positive iff all 8 corners lie
strictly on the same side of the plane. -/
theorem C22_planeDistance_sign {sqrt : F → F} (hs : IsSqrt sqrt)
    (b : ObjectOrientedBoundingBox F) (hn : axesNonzero b) (p : Plane F) :
    (planeDistance sqrt b p < 0 ↔
      ∃ c ∈ getCornerPoints b, ∃ c' ∈ getCornerPoints b,
        0 < p.distanceToPoint c ∧ p.distanceToPoint c' < 0) ∧
    (0 < planeDistance sqrt b p ↔
      (∀ c ∈ getCornerPoints b, 0 < p.distanceToPoint c) ∨
      (∀ c ∈ getCornerPoints b, p.distanceToPoint c < 0)) := by
  rw [planeDistance_eq hs b hn p]
  obtain ⟨⟨cmax, hmax, emax⟩, ⟨cmin, hmin, emin⟩⟩ := exists_corner_dist b p
  have hb := corner_dist_bounds b p
  have hr : 0 ≤ (1 / 2) * (|p.getNormal.dot b.m_AxesScaled0| + |p.getNormal.dot b.m_AxesScaled1| +
      |p.getNormal.dot b.m_AxesScaled2|) := by positivity
  constructor
  · constructor
    · intro h
      have h' := abs_lt.mp (by linarith : |p.distanceToPoint (getCenter b)| <
        (1 / 2) * (|p.getNormal.dot b.m_AxesScaled0| + |p.getNormal.dot b.m_AxesScaled1| +
          |p.getNormal.dot b.m_AxesScaled2|))
      exact ⟨cmax, hmax, cmin, hmin, by rw [emax]; linarith [h'.1], by rw [emin]; linarith [h'.2]⟩
    · rintro ⟨c, hc, c', hc', h1, h2⟩
      have := (hb c hc).2
      have := (hb c' hc').1
      have : |p.distanceToPoint (getCenter b)| <
          (1 / 2) * (|p.getNormal.dot b.m_AxesScaled0| + |p.getNormal.dot b.m_AxesScaled1| +
            |p.getNormal.dot b.m_AxesScaled2|) := abs_lt.mpr ⟨by linarith, by linarith⟩
      linarith
  · constructor
    · intro h
      rcases le_total 0 (p.distanceToPoint (getCenter b)) with hd | hd
      · rw [abs_of_nonneg hd] at h
        exact Or.inl fun c hc => by linarith [(hb c hc).1]
      · rw [abs_of_nonpos hd] at h
        exact Or.inr fun c hc => by linarith [(hb c hc).2]
    · rintro (h | h)
      · have := h cmin hmin
        rw [emin] at this
        have hd : 0 ≤ p.distanceToPoint (getCenter b) := by linarith
        rw [abs_of_nonneg hd]; linarith
      · have := h cmax hmax
        rw [emax] at this
        have hd : p.distanceToPoint (getCenter b) ≤ 0 := by linarith
        rw [abs_of_nonpos hd]; linarith

/-- C22 at a concrete input: the sample box and the plane `x = 5` with the normal
`(1, 0, 0)`; all corners are on the negative side, so the result is positive. -/
theorem C22_planeDistance_sign_witness :
    IsSqrt Real.sqrt ∧ axesNonzero (sampleBox ℝ) ∧
    0 < planeDistance Real.sqrt (sampleBox ℝ) (Plane.ofNormalPoint ⟨1, 0, 0⟩ ⟨5, 0, 0⟩) :=
  have hn : axesNonzero (sampleBox ℝ) := by
    simp [axesNonzero, sampleBox, point3d.zero]
  ⟨isSqrt_real, hn, (C22_planeDistance_sign isSqrt_real (sampleBox ℝ) hn _).2.mpr (Or.inr (by
    intro c hc
    simp only [getCornerPoints, sampleBox, point3d.add, List.mem_cons, List.mem_singleton,
      List.not_mem_nil, or_false] at hc
    rcases hc with rfl | rfl | rfl | rfl | rfl | rfl | rfl | rfl <;>
      simp only [Plane.ofNormalPoint, Plane.distanceToPoint, point3d.dot] <;> norm_num))⟩

end ObjectOrientedBoundingBox

/-- The length of a scaled vector is the length times the absolute value of the factor. -/
theorem point3d.length_smul {sqrt : F → F} (hs : IsSqrt sqrt) (a : point3d F) (s : F) :
    (a.smul s).length sqrt = |s| * a.length sqrt := by
  have hL := point3d.length_nonneg hs a
  have hLL := point3d.length_mul_self hs a
  have hd : point3d.dot (a.smul s) (a.smul s) = (|s| * a.length sqrt) * (|s| * a.length sqrt) := by
    have h1 : point3d.dot (a.smul s) (a.smul s) = s * s * point3d.dot a a := by
      simp only [point3d.dot, point3d.smul]; ring
    have h2 : |s| * |s| = s * s := abs_mul_abs_self s
    rw [h1, ← hLL, ← h2]; ring
  rw [point3d.length, hd]
  exact sqrt_mul_self_of_nonneg hs (mul_nonneg (abs_nonneg _) hL)

/-- Scaling a non-zero vector by a positive factor keeps its direction. -/
theorem point3d.getNormalized_smul_pos {sqrt : F → F} (hs : IsSqrt sqrt) {a : point3d F}
    (ha : a ≠ point3d.zero F) {s : F} (h : 0 < s) :
    (a.smul s).getNormalized sqrt = a.getNormalized sqrt := by
  have hL := point3d.length_pos hs ha
  simp only [point3d.getNormalized, point3d.length_smul hs, abs_of_pos h]
  simp only [point3d.sdiv, point3d.smul, point3d.mk.injEq]
  have hL' := hL.ne.symm
  have hs' := h.ne.symm
  refine ⟨?_, ?_, ?_⟩ <;> field_simp <;> ring

namespace ObjectOrientedBoundingBox

/-- Moving the anchor to `center - (a0 + a1 + a2) / 2` for new axes `a0`, `a1`, `a2` gives a
box with the center `center`. -/
theorem getCenter_recentered (c a0 a1 a2 : point3d F) :
    getCenter (⟨c.sub (((a0.add a1).add a2).smul (1 / 2)), a0, a1, a2⟩ :
      ObjectOrientedBoundingBox F) = c := by
  simp only [getCenter, point3d.add, point3d.sub, point3d.smul]
  cases c
  simp

/-- C23: scaling a box with `*=` keeps `getCenter()` and multiplies each scaled axis by `s`,
so every component of `getExtent()` is multiplied by `|s|`; the operator `*` returns the
scaled box and leaves its operand as it was. -/
theorem C23_scale {sqrt : F → F} (hs : IsSqrt sqrt) (b : ObjectOrientedBoundingBox F) (s : F) :
    getCenter (scale b s) = getCenter b ∧
    ((scale b s).m_AxesScaled0 = b.m_AxesScaled0.smul s ∧
      (scale b s).m_AxesScaled1 = b.m_AxesScaled1.smul s ∧
      (scale b s).m_AxesScaled2 = b.m_AxesScaled2.smul s) ∧
    getExtent sqrt (scale b s) =
      ⟨|s| * (getExtent sqrt b).x, |s| * (getExtent sqrt b).y, |s| * (getExtent sqrt b).z⟩ ∧
    ((scaled b s).1 = b ∧ (scaled b s).2 = scale b s) := by
  refine ⟨getCenter_recentered _ _ _ _, ⟨rfl, rfl, rfl⟩, ?_, rfl, rfl⟩
  simp only [getExtent, scale, point3d.length_smul hs]

/-- C23 at a concrete input: the sample box scaled by `-2`. -/
theorem C23_scale_witness :
    IsSqrt Real.sqrt ∧
    getCenter (scale (sampleBox ℝ) (-2)) = getCenter (sampleBox ℝ) ∧
    getExtent Real.sqrt (scale (sampleBox ℝ) (-2)) =
      ⟨|(-2 : ℝ)| * (getExtent Real.sqrt (sampleBox ℝ)).x,
       |(-2 : ℝ)| * (getExtent Real.sqrt (sampleBox ℝ)).y,
       |(-2 : ℝ)| * (getExtent Real.sqrt (sampleBox ℝ)).z⟩ :=
  ⟨isSqrt_real, (C23_scale isSqrt_real (sampleBox ℝ) (-2)).1,
    (C23_scale isSqrt_real (sampleBox ℝ) (-2)).2.2.1⟩

/-- C24 as stated fails for `ext ≤ -extent`: extending the unit cube by `-2` turns every
axis around (`axes[0]` becomes `(-1, 0, 0)`, its direction is the opposite one) and the
extent stays 1 instead of becoming `1 + ext = -1`; extending it by `-1` makes every axis the
zero vector, which has no direction. -/
theorem C24_counterexample :
    axesNonzero (unitBox ℝ) ∧
    (extend Real.sqrt (unitBox ℝ) (-2)).m_AxesScaled0 = ⟨-1, 0, 0⟩ ∧
    (extend Real.sqrt (unitBox ℝ) (-2)).m_AxesScaled0.getNormalized Real.sqrt =
      ((unitBox ℝ).m_AxesScaled0.getNormalized Real.sqrt).neg ∧
    (extend Real.sqrt (unitBox ℝ) (-2)).m_AxesScaled0.getNormalized Real.sqrt ≠
      (unitBox ℝ).m_AxesScaled0.getNormalized Real.sqrt ∧
    getExtent Real.sqrt (extend Real.sqrt (unitBox ℝ) (-2)) = ⟨1, 1, 1⟩ ∧
    getExtent Real.sqrt (unitBox ℝ) = ⟨1, 1, 1⟩ ∧
    (extend Real.sqrt (unitBox ℝ) (-1)).m_AxesScaled0 = ⟨0, 0, 0⟩ ∧
    (extend Real.sqrt (unitBox ℝ) (-1)).m_AxesScaled1 = ⟨0, 0, 0⟩ ∧
    (extend Real.sqrt (unitBox ℝ) (-1)).m_AxesScaled2 = ⟨0, 0, 0⟩ := by
  refine ⟨by simp [axesNonzero, unitBox, point3d.zero], ?_, ?_, ?_, ?_, ?_, ?_, ?_, ?_⟩ <;>
    simp only [extend, unitBox, getExtent, point3d.getNormalized, point3d.sdiv, point3d.smul,
      point3d.length, point3d.dot, point3d.neg] <;> norm_num

/-- C24 (amended): extending a box with non-zero axes by `ext` keeps `getCenter()`; when
`ext` is greater than minus the smallest extent, every axis keeps its direction and every
component of `getExtent()` is exactly `ext` larger than before; the operator `+` returns the
extended box and leaves its operand as it was. -/
theorem C24_extend {sqrt : F → F} (hs : IsSqrt sqrt) (b : ObjectOrientedBoundingBox F)
    (hn : axesNonzero b) (ext : F) :
    getCenter (extend sqrt b ext) = getCenter b ∧
    ((-ext < (getExtent sqrt b).x ∧ -ext < (getExtent sqrt b).y ∧ -ext < (getExtent sqrt b).z) →
      ((extend sqrt b ext).m_AxesScaled0.getNormalized sqrt = b.m_AxesScaled0.getNormalized sqrt ∧
        (extend sqrt b ext).m_AxesScaled1.getNormalized sqrt =
          b.m_AxesScaled1.getNormalized sqrt ∧
        (extend sqrt b ext).m_AxesScaled2.getNormalized sqrt =
          b.m_AxesScaled2.getNormalized sqrt) ∧
      getExtent sqrt (extend sqrt b ext) =
        ⟨(getExtent sqrt b).x + ext, (getExtent sqrt b).y + ext, (getExtent sqrt b).z + ext⟩) ∧
    ((extended sqrt b ext).1 = b ∧ (extended sqrt b ext).2 = extend sqrt b ext) := by
  obtain ⟨h0, h1, h2⟩ := hn
  have l0 := point3d.length_pos hs h0
  have l1 := point3d.length_pos hs h1
  have l2 := point3d.length_pos hs h2
  refine ⟨getCenter_recentered _ _ _ _, ?_, rfl, rfl⟩
  rintro ⟨e0, e1, e2⟩
  simp only [getExtent] at e0 e1 e2
  have f0 : 0 < (b.m_AxesScaled0.length sqrt + ext) / b.m_AxesScaled0.length sqrt :=
    div_pos (by linarith) l0
  have f1 : 0 < (b.m_AxesScaled1.length sqrt + ext) / b.m_AxesScaled1.length sqrt :=
    div_pos (by linarith) l1
  have f2 : 0 < (b.m_AxesScaled2.length sqrt + ext) / b.m_AxesScaled2.length sqrt :=
    div_pos (by linarith) l2
  refine ⟨⟨point3d.getNormalized_smul_pos hs h0 f0, point3d.getNormalized_smul_pos hs h1 f1,
    point3d.getNormalized_smul_pos hs h2 f2⟩, ?_⟩
  simp only [getExtent, extend, point3d.length_smul hs, abs_of_pos f0, abs_of_pos f1,
    abs_of_pos f2, point3d.mk.injEq]
  refine ⟨?_, ?_, ?_⟩ <;> field_simp

/-- C24 (amended) at a concrete input: the sample box (extents 2, 3, 4) extended by 1. -/
theorem C24_extend_witness :
    IsSqrt Real.sqrt ∧ axesNonzero (sampleBox ℝ) ∧
    getCenter (extend Real.sqrt (sampleBox ℝ) 1) = getCenter (sampleBox ℝ) ∧
    getExtent Real.sqrt (extend Real.sqrt (sampleBox ℝ) 1) =
      ⟨(getExtent Real.sqrt (sampleBox ℝ)).x + 1, (getExtent Real.sqrt (sampleBox ℝ)).y + 1,
        (getExtent Real.sqrt (sampleBox ℝ)).z + 1⟩ :=
  have hn : axesNonzero (sampleBox ℝ) := by
    simp [axesNonzero, sampleBox, point3d.zero]
  have hx : (-1 : ℝ) < (getExtent Real.sqrt (sampleBox ℝ)).x :=
    lt_of_lt_of_le (by norm_num) (Real.sqrt_nonneg _)
  have hy : (-1 : ℝ) < (getExtent Real.sqrt (sampleBox ℝ)).y :=
    lt_of_lt_of_le (by norm_num) (Real.sqrt_nonneg _)
  have hz : (-1 : ℝ) < (getExtent Real.sqrt (sampleBox ℝ)).z :=
    lt_of_lt_of_le (by norm_num) (Real.sqrt_nonneg _)
  ⟨isSqrt_real, hn, (C24_extend isSqrt_real (sampleBox ℝ) hn 1).1,
    ((C24_extend isSqrt_real (sampleBox ℝ) hn 1).2.1 ⟨hx, hy, hz⟩).2⟩

end ObjectOrientedBoundingBox

namespace ObjectOrientedBoundingBox

/-- The matrix `getOOBBToWorld()` maps the box coordinates `q` to
`anchor + q.x * axes[0] + q.y * axes[1] + q.z * axes[2]`. -/
theorem getOOBBToWorld_mulPoint (b : ObjectOrientedBoundingBox F) (q : point3d F) :
    (getOOBBToWorld b).mulPoint q = cornerAt b q.x q.y q.z := by
  simp only [getOOBBToWorld, Matrix4x4.mulPoint, cornerAt, point3d.add, point3d.smul,
    point3d.mk.injEq]
  refine ⟨?_, ?_, ?_⟩ <;> ring

/-- For orthogonal non-zero axes `getOOBBToWorld()` undoes `getWorldToOOBB()`. -/
theorem OOBBToWorld_worldToOOBB {sqrt : F → F} (hs : IsSqrt sqrt)
    (b : ObjectOrientedBoundingBox F) (hn : axesNonzero b) (ho : axesOrthogonal b)
    (p : point3d F) :
    (getOOBBToWorld b).mulPoint ((getWorldToOOBB sqrt b).mulPoint p) = p := by
  rw [getOOBBToWorld_mulPoint]
  exact (eq_cornerAt_of_coords hs b hn ho p).symm

/-- For orthogonal non-zero axes `getWorldToOOBB()` undoes `getOOBBToWorld()`. -/
theorem worldToOOBB_OOBBToWorld {sqrt : F → F} (hs : IsSqrt sqrt)
    (b : ObjectOrientedBoundingBox F) (hn : axesNonzero b) (ho : axesOrthogonal b)
    (q : point3d F) :
    (getWorldToOOBB sqrt b).mulPoint ((getOOBBToWorld b).mulPoint q) = q := by
  have d0 := (point3d.dot_self_pos hn.1).ne.symm
  have d1 := (point3d.dot_self_pos hn.2.1).ne.symm
  have d2 := (point3d.dot_self_pos hn.2.2).ne.symm
  obtain ⟨h01, h12, h20⟩ := ho
  rw [getWorldToOOBB_mulPoint hs b hn]
  obtain ⟨A, a, bb, c⟩ := b
  obtain ⟨qx, qy, qz⟩ := q
  simp only [point3d.dot] at d0 d1 d2 h01 h12 h20
  simp only [getOOBBToWorld, Matrix4x4.mulPoint, point3d.dot, point3d.sub, point3d.mk.injEq]
  refine ⟨?_, ?_, ?_⟩
  · field_simp
    linear_combination (qy : F) * h01 + qz * h20
  · field_simp
    linear_combination (qx : F) * h01 + qz * h12
  · field_simp
    linear_combination (qx : F) * h20 + qy * h12

/-- The matrix `getOOBBToWorld()` maps the point `o + t * (e - o)` of a segment to the point
with the same parameter on the image segment. -/
theorem OOBBToWorld_segment (b : ObjectOrientedBoundingBox F) (o e : point3d F) (t : F) :
    (getOOBBToWorld b).mulPoint (o.add ((e.sub o).smul t)) =
      ((getOOBBToWorld b).mulPoint o).add
        ((((getOOBBToWorld b).mulPoint e).sub ((getOOBBToWorld b).mulPoint o)).smul t) := by
  simp only [getOOBBToWorld, Matrix4x4.mulPoint, point3d.add, point3d.sub, point3d.smul,
    point3d.mk.injEq]
  refine ⟨?_, ?_, ?_⟩ <;> ring

/-- The helper `isInUnitInterval` as a proposition. -/
theorem isInUnitInterval_iff (v eps : F) :
    isInUnitInterval v eps = true ↔ -eps ≤ v ∧ v ≤ 1 + eps := by
  simp only [isInUnitInterval, ge_iff_le, ite_eq_left_iff, Bool.false_eq_true, imp_false, not_not]

/-- A contact point that one plane test adds is a point `o + t * d` of the edge with `t` in
the unit interval that lies in the unit cube, and the test has a non-zero denominator. -/
theorem mem_edgePlaneContact {o d q : point3d F} {num den : F}
    (h : q ∈ edgePlaneContact o d num den) :
    den ≠ 0 ∧ isInUnitInterval (num / den) (EPS F) = true ∧ isInUnitCube q (EPS F) = true ∧
      q = o.add (d.smul (num / den)) := by
  unfold edgePlaneContact at h
  by_cases hd : den = 0
  · rw [if_pos hd] at h
    exact absurd h (List.not_mem_nil _)
  · rw [if_neg hd] at h
    simp only at h
    by_cases hc : (isInUnitInterval (num / den) (EPS F) &&
        isInUnitCube (o.add (d.smul (num / den))) (EPS F)) = true
    · rw [if_pos hc] at h
      have hq : q = o.add (d.smul (num / den)) := List.mem_singleton.mp h
      rw [Bool.and_eq_true] at hc
      exact ⟨hd, hc.1, by rw [hq]; exact hc.2, hq⟩
    · rw [if_neg hc] at h
      exact absurd h (List.not_mem_nil _)

/-- A contact point of an edge is a point `o + t * d` of the edge with `t` in the unit
interval that lies in the unit cube, and `t` is the quotient of one of the six plane tests,
whose denominator, a component of `d`, is not zero. -/
theorem mem_edgeContacts {o d q : point3d F} (h : q ∈ edgeContacts o d) :
    ∃ t, isInUnitInterval t (EPS F) = true ∧ isInUnitCube q (EPS F) = true ∧
      q = o.add (d.smul t) ∧
      ((d.x ≠ 0 ∧ (t = -o.x / d.x ∨ t = (1 - o.x) / d.x)) ∨
        (d.y ≠ 0 ∧ (t = -o.y / d.y ∨ t = (1 - o.y) / d.y)) ∨
        (d.z ≠ 0 ∧ (t = -o.z / d.z ∨ t = (1 - o.z) / d.z))) := by
  unfold edgeContacts at h
  simp only [List.mem_append] at h
  rcases h with ((((h | h) | h) | h) | h) | h
  · exact ⟨_, (mem_edgePlaneContact h).2.1, (mem_edgePlaneContact h).2.2.1,
      (mem_edgePlaneContact h).2.2.2, Or.inl ⟨(mem_edgePlaneContact h).1, Or.inl rfl⟩⟩
  · exact ⟨_, (mem_edgePlaneContact h).2.1, (mem_edgePlaneContact h).2.2.1,
      (mem_edgePlaneContact h).2.2.2, Or.inl ⟨(mem_edgePlaneContact h).1, Or.inr rfl⟩⟩
  · exact ⟨_, (mem_edgePlaneContact h).2.1, (mem_edgePlaneContact h).2.2.1,
      (mem_edgePlaneContact h).2.2.2, Or.inr (Or.inl ⟨(mem_edgePlaneContact h).1, Or.inl rfl⟩)⟩
  · exact ⟨_, (mem_edgePlaneContact h).2.1, (mem_edgePlaneContact h).2.2.1,
      (mem_edgePlaneContact h).2.2.2, Or.inr (Or.inl ⟨(mem_edgePlaneContact h).1, Or.inr rfl⟩)⟩
  · exact ⟨_, (mem_edgePlaneContact h).2.1, (mem_edgePlaneContact h).2.2.1,
      (mem_edgePlaneContact h).2.2.2, Or.inr (Or.inr ⟨(mem_edgePlaneContact h).1, Or.inl rfl⟩)⟩
  · exact ⟨_, (mem_edgePlaneContact h).2.1, (mem_edgePlaneContact h).2.2.1,
      (mem_edgePlaneContact h).2.2.2, Or.inr (Or.inr ⟨(mem_edgePlaneContact h).1, Or.inr rfl⟩)⟩

/-- The start and the end of edge `i` in `computeContactPoints`: the images of the two
corners of the edge. -/
theorem otherPoints_edge (b : ObjectOrientedBoundingBox F) (f : point3d F → point3d F)
    (i : Nat) (hi : i < 12) :
    ((getCornerPoints b).map f).getD (getEdgeIndices.getD (2 * i + 0) 0) ⟨0, 0, 0⟩ =
      f (corner b (getEdgeIndices.getD (2 * i) 0)) ∧
    ((getCornerPoints b).map f).getD (getEdgeIndices.getD (2 * i + 1) 0) ⟨0, 0, 0⟩ =
      f (corner b (getEdgeIndices.getD (2 * i + 1) 0)) := by
  interval_cases i <;> exact ⟨rfl, rfl⟩

end ObjectOrientedBoundingBox

namespace ObjectOrientedBoundingBox

/-- C25 (amended): in exact arithmetic, for a box `a` with orthogonal non-zero axes, every
point `p` that `a.computeContactPoints(b)` returns satisfies `a.contains(p)` and is either a
corner of `b` or a point `o + t * d` on one of the 12 edges of `b` with `t` in
`[-1e-5, 1 + 1e-5]`; in the second case `t` is the quotient of one of the six plane tests of
that edge, and the denominator of that test, a component of the edge direction in the
coordinates of `a`, is not zero: a plane test with a zero denominator adds no contact
point. -/
theorem C25_contact_points {sqrt : F → F} (hs : IsSqrt sqrt)
    (a b : ObjectOrientedBoundingBox F) (hn : axesNonzero a) (ho : axesOrthogonal a) :
    ∀ p ∈ computeContactPoints sqrt a b,
      contains sqrt a p = true ∧
      (p ∈ getCornerPoints b ∨
        ∃ e ∈ edgePairs, ∃ t, (-EPS F ≤ t ∧ t ≤ 1 + EPS F) ∧
          p = (corner b e.1).add (((corner b e.2).sub (corner b e.1)).smul t) ∧
          ((((getWorldToOOBB sqrt a).mulPoint (corner b e.2)).sub
                ((getWorldToOOBB sqrt a).mulPoint (corner b e.1))).x ≠ 0 ∧
              (t = -((getWorldToOOBB sqrt a).mulPoint (corner b e.1)).x /
                  (((getWorldToOOBB sqrt a).mulPoint (corner b e.2)).sub
                    ((getWorldToOOBB sqrt a).mulPoint (corner b e.1))).x ∨
                t = (1 - ((getWorldToOOBB sqrt a).mulPoint (corner b e.1)).x) /
                  (((getWorldToOOBB sqrt a).mulPoint (corner b e.2)).sub
                    ((getWorldToOOBB sqrt a).mulPoint (corner b e.1))).x) ∨
            (((getWorldToOOBB sqrt a).mulPoint (corner b e.2)).sub
                ((getWorldToOOBB sqrt a).mulPoint (corner b e.1))).y ≠ 0 ∧
              (t = -((getWorldToOOBB sqrt a).mulPoint (corner b e.1)).y /
                  (((getWorldToOOBB sqrt a).mulPoint (corner b e.2)).sub
                    ((getWorldToOOBB sqrt a).mulPoint (corner b e.1))).y ∨
                t = (1 - ((getWorldToOOBB sqrt a).mulPoint (corner b e.1)).y) /
                  (((getWorldToOOBB sqrt a).mulPoint (corner b e.2)).sub
                    ((getWorldToOOBB sqrt a).mulPoint (corner b e.1))).y) ∨
            (((getWorldToOOBB sqrt a).mulPoint (corner b e.2)).sub
                ((getWorldToOOBB sqrt a).mulPoint (corner b e.1))).z ≠ 0 ∧
              (t = -((getWorldToOOBB sqrt a).mulPoint (corner b e.1)).z /
                  (((getWorldToOOBB sqrt a).mulPoint (corner b e.2)).sub
                    ((getWorldToOOBB sqrt a).mulPoint (corner b e.1))).z ∨
                t = (1 - ((getWorldToOOBB sqrt a).mulPoint (corner b e.1)).z) /
                  (((getWorldToOOBB sqrt a).mulPoint (corner b e.2)).sub
                    ((getWorldToOOBB sqrt a).mulPoint (corner b e.1))).z))) := by
  intro p hp
  unfold computeContactPoints at hp
  simp only [List.mem_map, List.mem_append, List.mem_filter, List.mem_flatMap, List.mem_range]
    at hp
  obtain ⟨q, hq, rfl⟩ := hp
  rcases hq with ⟨⟨c, hc, rfl⟩, hcube⟩ | ⟨i, hi, hq⟩
  · rw [OOBBToWorld_worldToOOBB hs a hn ho]
    exact ⟨hcube, Or.inl hc⟩
  · obtain ⟨e1, e2⟩ := otherPoints_edge b (getWorldToOOBB sqrt a).mulPoint i hi
    rw [e1, e2] at hq
    obtain ⟨t, ht, hcube, rfl, hden⟩ := mem_edgeContacts hq
    refine ⟨?_, Or.inr ⟨(getEdgeIndices.getD (2 * i) 0, getEdgeIndices.getD (2 * i + 1) 0),
      ?_, t, (isInUnitInterval_iff t (EPS F)).mp ht, ?_, hden⟩⟩
    · unfold contains
      rw [worldToOOBB_OOBBToWorld hs a hn ho]
      exact hcube
    · exact List.mem_map.mpr ⟨i, List.mem_range.mpr hi, rfl⟩
    · rw [OOBBToWorld_segment, OOBBToWorld_worldToOOBB hs a hn ho,
        OOBBToWorld_worldToOOBB hs a hn ho]

/-- C25 (amended) at a concrete input: the cube `[-1, 2]³` and the unit cube inside it; the
corner `(1, 0, 0)` of the unit cube is a contact point and the big cube contains it. -/
theorem C25_contact_points_witness :
    IsSqrt Real.sqrt ∧ axesNonzero (bigBox ℝ) ∧ axesOrthogonal (bigBox ℝ) ∧
    (⟨1, 0, 0⟩ : point3d ℝ) ∈ computeContactPoints Real.sqrt (bigBox ℝ) (unitBox ℝ) ∧
    contains Real.sqrt (bigBox ℝ) ⟨1, 0, 0⟩ = true :=
  have hn : axesNonzero (bigBox ℝ) := by
    simp [axesNonzero, bigBox, point3d.zero]
  have ho : axesOrthogonal (bigBox ℝ) := by
    simp [axesOrthogonal, bigBox, point3d.dot]
  have hm : (⟨1, 0, 0⟩ : point3d ℝ) ∈ computeContactPoints Real.sqrt (bigBox ℝ) (unitBox ℝ) := by
    rw [contacts_big_unit]
    simp [getCornerPoints, unitBox, point3d.add]
  ⟨isSqrt_real, hn, ho, hm,
    (C25_contact_points isSqrt_real (bigBox ℝ) (unitBox ℝ) hn ho _ hm).1⟩

end ObjectOrientedBoundingBox

namespace ObjectOrientedBoundingBox

end ObjectOrientedBoundingBox

namespace ObjectOrientedBoundingBox

end ObjectOrientedBoundingBox

/-- The normalized vector of a non-zero vector has length 1. -/
theorem point3d.length_getNormalized {sqrt : F → F} (hs : IsSqrt sqrt) {a : point3d F}
    (ha : a ≠ point3d.zero F) : (a.getNormalized sqrt).length sqrt = 1 := by
  have hL := point3d.length_pos hs ha
  have hLL := point3d.length_mul_self hs a
  have hd : point3d.dot (a.getNormalized sqrt) (a.getNormalized sqrt) = 1 * 1 := by
    have h1 : point3d.dot (a.getNormalized sqrt) (a.getNormalized sqrt) =
        point3d.dot a a / (a.length sqrt * a.length sqrt) := by
      simp only [point3d.getNormalized, point3d.sdiv, point3d.dot]
      field_simp
    rw [h1, hLL, div_self (point3d.dot_self_pos ha).ne.symm, one_mul]
  rw [point3d.length, hd]
  exact sqrt_mul_self_of_nonneg hs zero_le_one

/-- Negating a vector keeps its length. -/
theorem point3d.length_neg (sqrt : F → F) (a : point3d F) :
    a.neg.length sqrt = a.length sqrt := by
  simp only [point3d.length]
  congr 1
  simp only [point3d.dot, point3d.neg]
  ring

namespace ObjectOrientedBoundingBox

/-- The signed distance of a point to the front plane of an axis `a` of a box with anchor
`A`. -/
theorem frontPlane_distance (sqrt : F → F) (a A p : point3d F) :
    (Plane.ofNormalPoint (a.getNormalized sqrt).neg A).distanceToPoint p =
      -(point3d.dot a (p.sub A)) / a.length sqrt := by
  simp only [Plane.ofNormalPoint, Plane.distanceToPoint, point3d.getNormalized, point3d.sdiv,
    point3d.neg, point3d.dot, point3d.sub]
  ring

/-- The signed distance of a point to the back plane of an axis `a` of a box with anchor
`A`. -/
theorem backPlane_distance (sqrt : F → F) (a A p : point3d F) :
    (Plane.ofNormalPoint (a.getNormalized sqrt) (A.add a)).distanceToPoint p =
      (point3d.dot a (p.sub A) - point3d.dot a a) / a.length sqrt := by
  simp only [Plane.ofNormalPoint, Plane.distanceToPoint, point3d.getNormalized, point3d.sdiv,
    point3d.dot, point3d.sub, point3d.add]
  ring

/-- A normalized local coordinate is in `[0, 1]` iff the point is behind the front plane and
behind the back plane of the axis. -/
theorem coord_mem_iff_planes {sqrt : F → F} (hs : IsSqrt sqrt) {a : point3d F}
    (ha : a ≠ point3d.zero F) (A p : point3d F) :
    (0 ≤ point3d.dot a (p.sub A) / point3d.dot a a ∧
      point3d.dot a (p.sub A) / point3d.dot a a ≤ 1) ↔
    ((Plane.ofNormalPoint (a.getNormalized sqrt).neg A).distanceToPoint p ≤ 0 ∧
      (Plane.ofNormalPoint (a.getNormalized sqrt) (A.add a)).distanceToPoint p ≤ 0) := by
  have hL := point3d.length_pos hs ha
  have hd := point3d.dot_self_pos ha
  rw [frontPlane_distance, backPlane_distance, div_le_iff₀ hL, div_le_iff₀ hL, le_div_iff₀ hd,
    div_le_iff₀ hd]
  constructor
  · rintro ⟨h1, h2⟩
    exact ⟨by linarith, by linarith⟩
  · rintro ⟨h1, h2⟩
    exact ⟨by linarith, by linarith⟩

/-- C28: for a box with orthogonal non-zero axes the six planes of `getPlane` have unit
normals; a point has its normalized local coordinates in `[0, 1]³` iff its signed distance
to each of the six planes is at most 0; the four points of `getFaceZFront` lie on the
`Z_FRONT` plane and those of `getFaceZBack` on the `Z_BACK` plane. -/
theorem C28_face_planes {sqrt : F → F} (hs : IsSqrt sqrt) (b : ObjectOrientedBoundingBox F)
    (hn : axesNonzero b) (ho : axesOrthogonal b) (p : point3d F) :
    (∀ w : OOBB_PLANE, (getPlane sqrt b w).getNormal.length sqrt = 1) ∧
    (((0 ≤ ((getWorldToOOBB sqrt b).mulPoint p).x ∧ ((getWorldToOOBB sqrt b).mulPoint p).x ≤ 1) ∧
      (0 ≤ ((getWorldToOOBB sqrt b).mulPoint p).y ∧ ((getWorldToOOBB sqrt b).mulPoint p).y ≤ 1) ∧
      (0 ≤ ((getWorldToOOBB sqrt b).mulPoint p).z ∧ ((getWorldToOOBB sqrt b).mulPoint p).z ≤ 1)) ↔
      ∀ w : OOBB_PLANE, (getPlane sqrt b w).distanceToPoint p ≤ 0) ∧
    (∀ q ∈ getFaceZFront b, (getPlane sqrt b OOBB_PLANE.Z_FRONT).distanceToPoint q = 0) ∧
    (∀ q ∈ getFaceZBack b, (getPlane sqrt b OOBB_PLANE.Z_BACK).distanceToPoint q = 0) := by
  obtain ⟨h0, h1, h2⟩ := hn
  obtain ⟨o01, o12, o20⟩ := ho
  have l2 := point3d.length_pos hs h2
  refine ⟨?_, ?_, ?_, ?_⟩
  · intro w
    cases w <;>
      simp only [getPlane, getPlaneXFront, getPlaneXBack, getPlaneYFront, getPlaneYBack,
        getPlaneZFront, getPlaneZBack, Plane.ofNormalPoint, Plane.getNormal,
        point3d.length_neg] <;>
      first
        | exact point3d.length_getNormalized hs h0
        | exact point3d.length_getNormalized hs h1
        | exact point3d.length_getNormalized hs h2
  · rw [getWorldToOOBB_mulPoint hs b ⟨h0, h1, h2⟩ p]
    simp only
    rw [coord_mem_iff_planes hs h0, coord_mem_iff_planes hs h1, coord_mem_iff_planes hs h2]
    constructor
    · rintro ⟨⟨x0, x1⟩, ⟨y0, y1⟩, z0, z1⟩ w
      cases w
      · exact x0
      · exact x1
      · exact y0
      · exact y1
      · exact z0
      · exact z1
    · intro h
      exact ⟨⟨h .X_FRONT, h .X_BACK⟩, ⟨h .Y_FRONT, h .Y_BACK⟩, h .Z_FRONT, h .Z_BACK⟩
  · intro q hq
    simp only [getFaceZFront, List.mem_cons, List.mem_singleton, List.not_mem_nil, or_false] at hq
    simp only [getPlane, getPlaneZFront]
    rw [frontPlane_distance]
    have hz : point3d.dot b.m_AxesScaled2 (q.sub b.m_Anchor) = 0 := by
      simp only [point3d.dot] at o12 o20
      rcases hq with rfl | rfl | rfl | rfl <;>
        simp only [point3d.dot, point3d.sub, point3d.add] <;> linarith
    rw [hz]; simp
  · intro q hq
    simp only [getFaceZBack, List.mem_cons, List.mem_singleton, List.not_mem_nil, or_false] at hq
    simp only [getPlane, getPlaneZBack]
    rw [backPlane_distance]
    have hz : point3d.dot b.m_AxesScaled2 (q.sub b.m_Anchor) -
        point3d.dot b.m_AxesScaled2 b.m_AxesScaled2 = 0 := by
      simp only [point3d.dot] at o12 o20
      rcases hq with rfl | rfl | rfl | rfl <;>
        simp only [point3d.dot, point3d.sub, point3d.add] <;> linarith
    rw [hz]; simp

/-- C28 at a concrete input: the sample box and its center `(2, 7/2, 5)`, which is behind
all six planes. -/
theorem C28_face_planes_witness :
    IsSqrt Real.sqrt ∧ axesNonzero (sampleBox ℝ) ∧ axesOrthogonal (sampleBox ℝ) ∧
    (∀ w : OOBB_PLANE, (getPlane Real.sqrt (sampleBox ℝ) w).getNormal.length Real.sqrt = 1) ∧
    (∀ q ∈ getFaceZFront (sampleBox ℝ),
      (getPlane Real.sqrt (sampleBox ℝ) OOBB_PLANE.Z_FRONT).distanceToPoint q = 0) :=
  have hn : axesNonzero (sampleBox ℝ) := by
    simp [axesNonzero, sampleBox, point3d.zero]
  have ho : axesOrthogonal (sampleBox ℝ) := by
    simp [axesOrthogonal, sampleBox, point3d.dot]
  ⟨isSqrt_real, hn, ho, (C28_face_planes isSqrt_real (sampleBox ℝ) hn ho ⟨2, 7 / 2, 5⟩).1,
    (C28_face_planes isSqrt_real (sampleBox ℝ) hn ho ⟨2, 7 / 2, 5⟩).2.2.1⟩

end ObjectOrientedBoundingBox

namespace CommandLineReader

/-- The loop over the indices `0 .. n - 1` appends the first `n` strings of the list. -/
theorem foldl_range_getD (l : List String) :
    ∀ (n : Nat) (init : String), n ≤ l.length →
      (List.range n).foldl (fun acc i => acc ++ l.getD i "") init =
        (l.take n).foldl (fun acc s => acc ++ s) init := by
  induction l with
  | nil =>
    intro n init h
    have hn : n = 0 := Nat.le_zero.mp h
    subst hn
    rfl
  | cons y ys ih =>
    intro n init h
    cases n with
    | zero => rfl
    | succ m =>
      rw [List.range_succ_eq_map, List.foldl_cons, List.foldl_map, List.take_succ_cons,
        List.foldl_cons]
      exact ih m (init ++ y) (Nat.le_of_succ_le_succ h)

/-- The loop of the constructor, written with the indices starting at 0 on the list without
its first entry. -/
theorem commandLineOfArgv_cons (x : String) (rest : List String) (m : Nat) :
    commandLineOfArgv ((m + 1 : Nat) : Int) (x :: rest) =
      (List.range m).foldl (fun acc i => acc ++ rest.getD i "") "" := by
  simp only [commandLineOfArgv, Int.toNat_ofNat]
  rw [List.range_succ_eq_map, List.drop_succ_cons, List.drop_zero, List.foldl_map]
  rfl

/-- The command line that the constructor builds from `argc` and `argv`: the strings
`argv[1]`, ..., `argv[argc - 1]` appended without a separator. -/
theorem commandLineOfArgv_eq (argc : Int) (argv : List String) (h : argc.toNat ≤ argv.length) :
    commandLineOfArgv argc argv =
      ((argv.take argc.toNat).drop 1).foldl (fun acc s => acc ++ s) "" := by
  cases hn : argc.toNat with
  | zero => simp [commandLineOfArgv, hn]
  | succ m =>
    rw [hn] at h
    cases argv with
    | nil => simp at h
    | cons x rest =>
      have h1 : commandLineOfArgv argc (x :: rest) =
          commandLineOfArgv ((m + 1 : Nat) : Int) (x :: rest) := by
        simp only [commandLineOfArgv, hn, Int.toNat_ofNat]
      rw [h1, commandLineOfArgv_cons, List.take_succ_cons, List.drop_succ_cons, List.drop_zero]
      exact foldl_range_getD rest m "" (Nat.le_of_succ_le_succ h)

/-- C29: the constructor from `(usage, argc, argv)` appends `argv[1]`, ..., `argv[argc - 1]`
without a separator and splits the result on `" "`: `args()` is
`StringUtil::split(argv[1] + ... + argv[argc - 1], " ")`, the same as `args()` of the string
constructor applied to that concatenation; `argv[0]` plays no role; and `args()` is not the
list `argv[1 .. argc - 1]`: the arguments `a`, `b` and the single argument `ab` give the
same `args()`. -/
theorem C29_commandLine_concatenates (split : String → String → List String) (usage : String)
    (argc : Int) (argv : List String) (h : argc.toNat ≤ argv.length) :
    args (ofArgv split usage argc argv) =
      split (((argv.take argc.toNat).drop 1).foldl (fun acc s => acc ++ s) "") " " ∧
    args (ofArgv split usage argc argv) =
      args (ofString split usage
        (((argv.take argc.toNat).drop 1).foldl (fun acc s => acc ++ s) "")) ∧
    (∀ x : String, args (ofArgv split usage argc (x :: argv.drop 1)) =
      args (ofArgv split usage argc argv)) ∧
    args (ofArgv split usage 3 ["prog", "a", "b"]) = args (ofArgv split usage 2 ["prog", "ab"]) ∧
    ¬(args (ofArgv split usage 3 ["prog", "a", "b"]) = ["a", "b"] ∧
      args (ofArgv split usage 2 ["prog", "ab"]) = ["ab"]) := by
  have e : commandLineOfArgv 3 ["prog", "a", "b"] = commandLineOfArgv 2 ["prog", "ab"] := by
    decide
  have hargs : args (ofArgv split usage 3 ["prog", "a", "b"]) =
      args (ofArgv split usage 2 ["prog", "ab"]) := by
    simp only [args, ofArgv, e]
  refine ⟨?_, ?_, ?_, hargs, ?_⟩
  · simp only [args, ofArgv, commandLineOfArgv_eq argc argv h]
  · simp only [args, ofArgv, ofString, commandLineOfArgv_eq argc argv h]
  · intro x
    simp only [args, ofArgv]
    congr 1
    cases hn : argc.toNat with
    | zero => simp [commandLineOfArgv, hn]
    | succ m =>
      have h1 : ∀ l : List String, commandLineOfArgv argc l =
          commandLineOfArgv ((m + 1 : Nat) : Int) l := by
        intro l
        simp only [commandLineOfArgv, hn, Int.toNat_ofNat]
      cases argv with
      | nil => rw [hn] at h; simp at h
      | cons y rest =>
        rw [h1, h1, List.drop_succ_cons, List.drop_zero, commandLineOfArgv_cons,
          commandLineOfArgv_cons]
  · rintro ⟨h1, h2⟩
    rw [hargs, h2] at h1
    exact absurd h1 (by decide)

/-- C29 at a concrete input: `argv = ["prog", "-x", "file"]`, `argc = 3`, with a `split`
that returns the whole string as its only part: `args()` is `["-xfile"]`. -/
theorem C29_commandLine_concatenates_witness :
    ((3 : Int).toNat ≤ ["prog", "-x", "file"].length) ∧
    args (ofArgv (fun s _ => [s]) "usage" 3 ["prog", "-x", "file"]) = ["-xfile"] :=
  ⟨by decide,
    (C29_commandLine_concatenates (fun s _ => [s]) "usage" 3 ["prog", "-x", "file"]
      (by decide)).1.trans (by rfl)⟩

end CommandLineReader

/-! ### Rounded arithmetic -/

namespace Float32

/-- The rounding at known values of `float`: `1/3` becomes `11184811 / 2^25`, `2/3` becomes
`11184811 / 2^24`, `0.1` becomes `13421773 / 2^27`, `0.00001` becomes `2748779 / 2^38`,
`16777217 = 2^24 + 1` (a tie) becomes `2^24`, `16777219` (a tie) becomes `16777220`, values
of `float` stay what they are, and below `2^-126` the values are the multiples of `2^-149`. -/
theorem round_values :
    round (1 / 3) = 11184811 / 33554432 ∧ round (2 / 3) = 11184811 / 16777216 ∧
    round (1 / 10) = 13421773 / 134217728 ∧
    round (1 / 100000) = 2748779 / 274877906944 ∧ round 16777217 = 16777216 ∧
    round 16777219 = 16777220 ∧ round (-16777219) = -16777220 ∧ round 1537 = 1537 ∧
    round (3 / 4) = 3 / 4 ∧ round 0 = 0 ∧ round (3 / 2 ^ 151) = 1 / 2 ^ 149 ∧
    round (1 / 2 ^ 150) = 0 := by
  decide!

/-- The square root at known values of `float`: exact on squares, `sqrt 2` is
`11863283 / 2^23`, `sqrt 3` is `14529495 / 2^23`, `sqrt 10` is `6631777 / 2^21` and
`sqrt (1/8)` is `11863283 / 2^25`. -/
theorem sqrt_values :
    sqrt 9 = 3 ∧ sqrt 1 = 1 ∧ sqrt (1 / 4) = 1 / 2 ∧ sqrt 2 = 11863283 / 8388608 ∧
    sqrt 3 = 14529495 / 8388608 ∧ sqrt 10 = 6631777 / 2097152 ∧
    sqrt (1 / 8) = 11863283 / 33554432 ∧ sqrt 0 = 0 := by
  decide!

end Float32

namespace Rounded

/-- Without rounding, the sum is the exact one. -/
theorem add_id (a b : point3d F) : add id a b = a.add b := rfl

/-- Without rounding, the difference is the exact one. -/
theorem sub_id (a b : point3d F) : sub id a b = a.sub b := rfl

/-- Without rounding, the quotient by a scalar is the exact one. -/
theorem sdiv_id (a : point3d F) (s : F) : sdiv id a s = a.sdiv s := rfl

/-- Without rounding, the normalized vector is the exact one. -/
theorem getNormalized_id (sqrt : F → F) (a : point3d F) :
    getNormalized id sqrt a = a.getNormalized sqrt := rfl

/-- Without rounding, the matrix applied to a point is the exact one. -/
theorem mulPoint_id (m : Matrix4x4 F) (p : point3d F) : mulPoint id m p = m.mulPoint p := rfl

/-- Without rounding, the literal `0.00001` is the exact one. -/
theorem EPS_id : EPS (id : F → F) = ml.EPS F := rfl

/-- Without rounding, `isInUnitCube` is the exact one. -/
theorem isInUnitCube_id (p : point3d F) (eps : F) :
    isInUnitCube id p eps = ObjectOrientedBoundingBox.isInUnitCube p eps := rfl

/-- Without rounding, `getCornerPoints` is the exact one. -/
theorem getCornerPoints_id (b : ObjectOrientedBoundingBox F) :
    getCornerPoints id b = ObjectOrientedBoundingBox.getCornerPoints b := rfl

/-- Without rounding, `getWorldToOOBB` is the exact one. -/
theorem getWorldToOOBB_id (sqrt : F → F) (b : ObjectOrientedBoundingBox F) :
    getWorldToOOBB id sqrt b = ObjectOrientedBoundingBox.getWorldToOOBB sqrt b := rfl

/-- Without rounding, `computeAnchorAndExtentsForGivenNormalizedAxis` is the exact one. -/
theorem computeAnchor_id (b : ObjectOrientedBoundingBox F) (points : List (point3d F)) :
    computeAnchorAndExtentsForGivenNormalizedAxis id b points =
      ObjectOrientedBoundingBox.computeAnchorAndExtentsForGivenNormalizedAxis b points := rfl

/-- Without rounding, `Rounded.ofAxes` is the constructor `ofAxes`. -/
theorem ofAxes_id (sqrt : F → F) (points : List (point3d F)) (xAxis yAxis zAxis : point3d F) :
    ofAxes id sqrt points xAxis yAxis zAxis =
      ObjectOrientedBoundingBox.ofAxes sqrt points xAxis yAxis zAxis := by
  unfold ofAxes ObjectOrientedBoundingBox.ofAxes
  rw [computeAnchor_id, getNormalized_id, getNormalized_id, getNormalized_id]

/-- Without rounding, `Rounded.contains` is the method `contains`. -/
theorem contains_id (sqrt : F → F) (b : ObjectOrientedBoundingBox F) (p : point3d F) :
    contains id sqrt b p = ObjectOrientedBoundingBox.contains sqrt b p := by
  unfold contains ObjectOrientedBoundingBox.contains
  rw [getWorldToOOBB_id, mulPoint_id, isInUnitCube_id, EPS_id]

/-- Without rounding, a plane test of `computeContactPoints` is the exact one. -/
theorem edgePlaneContact_id (o d : point3d F) (num den : F) :
    edgePlaneContact id o d num den = ObjectOrientedBoundingBox.edgePlaneContact o d num den :=
  rfl

/-- Without rounding, the six plane tests of an edge are the exact ones. -/
theorem edgeContacts_id (o d : point3d F) :
    edgeContacts id o d = ObjectOrientedBoundingBox.edgeContacts o d := by
  unfold edgeContacts ObjectOrientedBoundingBox.edgeContacts
  simp only [edgePlaneContact_id, id]

/-- Without rounding, `Rounded.computeContactPoints` is the method `computeContactPoints`. -/
theorem computeContactPoints_id (sqrt : F → F) (b other : ObjectOrientedBoundingBox F) :
    computeContactPoints id sqrt b other =
      ObjectOrientedBoundingBox.computeContactPoints sqrt b other := by
  unfold computeContactPoints ObjectOrientedBoundingBox.computeContactPoints
  simp only [getWorldToOOBB_id, getCornerPoints_id, isInUnitCube_id, EPS_id, sub_id,
    edgeContacts_id]
  rfl

end Rounded

namespace ObjectOrientedBoundingBox

/-- C2 as stated fails in single precision (`OOBBf`). The points `(1534, 0, 0)` and
`(1537, 1, 1)` are fitted to the axes `(1, 0, 0)`, `(0, 1, 0)`, `(0, 0, 1)`: the box is
`farBox`, anchor `(1534, 0, 0)`, axes `(3, 0, 0)`, `(0, 1, 0)`, `(0, 0, 1)`, and it is valid.
The first row of `getWorldToOOBB()` is `(fl(1/3), 0, 0)` with the translation
`fl(fl(1/3) * -1534)`, and the input point `(1537, 1, 1)` gets the local coordinate
`x = 32769/32768 = 1 + 2^-15`, which is more than `fl(1 + 0.00001f) = 1 + 84 * 2^-23`:
`contains` returns false for it. -/
theorem C2_counterexample :
    farPair ≠ [] ∧
    ((⟨1, 0, 0⟩ : point3d ℚ) ≠ point3d.zero ℚ ∧ (⟨0, 1, 0⟩ : point3d ℚ) ≠ point3d.zero ℚ ∧
      (⟨0, 0, 1⟩ : point3d ℚ) ≠ point3d.zero ℚ) ∧
    (point3d.dot (⟨1, 0, 0⟩ : point3d ℚ) ⟨0, 1, 0⟩ = 0 ∧
      point3d.dot (⟨0, 1, 0⟩ : point3d ℚ) ⟨0, 0, 1⟩ = 0 ∧
      point3d.dot (⟨0, 0, 1⟩ : point3d ℚ) ⟨1, 0, 0⟩ = 0) ∧
    Rounded.ofAxes Float32.round Float32.sqrt farPair ⟨1, 0, 0⟩ ⟨0, 1, 0⟩ ⟨0, 0, 1⟩ = farBox ∧
    isValid (Rounded.ofAxes Float32.round Float32.sqrt farPair ⟨1, 0, 0⟩ ⟨0, 1, 0⟩ ⟨0, 0, 1⟩)
      = true ∧
    (⟨1537, 1, 1⟩ : point3d ℚ) ∈ farPair ∧
    Rounded.mulPoint Float32.round (Rounded.getWorldToOOBB Float32.round Float32.sqrt farBox)
      ⟨1537, 1, 1⟩ = ⟨32769 / 32768, 1, 1⟩ ∧
    Float32.round (1 + Rounded.EPS Float32.round) = 8388692 / 8388608 ∧
    Rounded.contains Float32.round Float32.sqrt
      (Rounded.ofAxes Float32.round Float32.sqrt farPair ⟨1, 0, 0⟩ ⟨0, 1, 0⟩ ⟨0, 0, 1⟩)
      ⟨1537, 1, 1⟩ = false := by
  decide!

/-- C25 as stated fails in single precision (`OOBBf`). Both `farBox` and `acrossBox` have
orthogonal non-zero axes. `farBox.computeContactPoints(acrossBox)` returns 8 points: the
four corners of `acrossBox` with `x = 1536`, and the four points where its edges along `x`
cross the face `x = 1537` of `farBox`. Such a point has the local coordinate `x = 1` when it
is found and is mapped back to `x = 1537`, but `getWorldToOOBB()` maps `x = 1537` to
`32769/32768 = 1 + 2^-15`, more than `fl(1 + 0.00001f)`: `farBox.contains` returns false
for the contact point `(1537, 1/4, 1/4)`. -/
theorem C25_counterexample :
    (axesNonzero farBox ∧ axesOrthogonal farBox) ∧
    (axesNonzero acrossBox ∧ axesOrthogonal acrossBox) ∧
    Rounded.computeContactPoints Float32.round Float32.sqrt farBox acrossBox =
      [⟨1536, 1 / 4, 1 / 4⟩, ⟨1536, 3 / 4, 1 / 4⟩, ⟨1536, 1 / 4, 3 / 4⟩, ⟨1536, 3 / 4, 3 / 4⟩,
       ⟨1537, 1 / 4, 1 / 4⟩, ⟨1537, 3 / 4, 1 / 4⟩, ⟨1537, 1 / 4, 3 / 4⟩, ⟨1537, 3 / 4, 3 / 4⟩] ∧
    (⟨1537, 1 / 4, 1 / 4⟩ : point3d ℚ) ∈
      Rounded.computeContactPoints Float32.round Float32.sqrt farBox acrossBox ∧
    Rounded.mulPoint Float32.round (Rounded.getWorldToOOBB Float32.round Float32.sqrt farBox)
      ⟨1537, 1 / 4, 1 / 4⟩ = ⟨32769 / 32768, 1 / 4, 1 / 4⟩ ∧
    Rounded.contains Float32.round Float32.sqrt farBox ⟨1537, 1 / 4, 1 / 4⟩ = false := by
  refine ⟨⟨?_, ?_⟩, ⟨?_, ?_⟩, ?_⟩
  · simp [axesNonzero, farBox, point3d.zero]
  · simp [axesOrthogonal, farBox, point3d.dot]
  · simp [axesNonzero, acrossBox, point3d.zero]
  · simp [axesOrthogonal, acrossBox, point3d.dot]
  · decide!

end ObjectOrientedBoundingBox

end ml
